import Mathlib

/-!
# rp204-utility: calendar arithmetic (`time_utils.h`) and the GPRMC sentence parser (`gps.cpp`)

Shallow embedding of `TimeUtils`, `GPS` and the keyboard scan of `PCF8574`.  Unsigned 32-bit values are natural numbers
reduced modulo `2^32` after every arithmetic operation; the narrow signed fields of the
SDK calendar record are integers obtained through explicit narrowing conversions.  A finite
`double` is its rational value: `parse` computes in exact rational arithmetic, `parseIn
binary64Arith` rounds every operation to the nearest binary64 number.
-/

namespace TimeUtils

/-! ## Machine arithmetic -/

/-- Reduction of a natural number to an unsigned 32-bit value. -/
def u32 (n : Nat) : Nat := n % 2 ^ 32

/-- Reduction of a natural number to an unsigned 16-bit value. -/
def u16 (n : Nat) : Nat := n % 2 ^ 16

/-- Unsigned 32-bit addition. -/
def add32 (a b : Nat) : Nat := u32 (a + b)

/-- Unsigned 32-bit subtraction (wraps below zero). -/
def sub32 (a b : Nat) : Nat := u32 (u32 a + 2 ^ 32 - u32 b)

/-- Unsigned 32-bit multiplication. -/
def mul32 (a b : Nat) : Nat := u32 (a * b)

/-- Value of an unsigned 32-bit pattern read as `int32_t`. -/
def asInt32 (n : Nat) : Int :=
  if u32 n < 2 ^ 31 then (u32 n : Int) else (u32 n : Int) - 2 ^ 32

/-- Narrowing store into an `int8_t` field. -/
def toInt8 (n : Nat) : Int :=
  if n % 256 < 128 then (n % 256 : Int) else (n % 256 : Int) - 256

/-- Narrowing store into an `int16_t` field. -/
def toInt16 (n : Nat) : Int :=
  if n % 65536 < 32768 then (n % 65536 : Int) else (n % 65536 : Int) - 65536

/-- Conversion of a signed field to a `uint32_t` argument. -/
def ofInt32 (i : Int) : Nat := (i % 2 ^ 32).toNat

/-! ## Constants of `TimeUtils` -/

/-- Table `_dayOf`. -/
def _dayOf : List Nat := [0, 3, 2, 5, 0, 3, 5, 1, 4, 6, 2, 4]

/-- Table `_monthDays`. -/
def _monthDays : List Nat := [31, 28, 31, 30, 31, 30, 31, 31, 30, 31, 30, 31]

/-- Constant `_secPerMin`. -/
def _secPerMin : Nat := 60

/-- Constant `_secPerHour`. -/
def _secPerHour : Nat := _secPerMin * 60

/-- Constant `_secPerDay`. -/
def _secPerDay : Nat := _secPerHour * 24

/-- The calendar record `datetime_t` of the SDK: `int16_t year` and `int8_t` for the rest. -/
structure datetime_t where
  year : Int
  month : Int
  day : Int
  dotw : Int
  hour : Int
  min : Int
  sec : Int
deriving DecidableEq, Repr

/-! ## `isLeapYear`, `makeUnixTime`, `breakUnixTime` -/

/-- Function `isLeapYear(int year)`; the remainder is the truncating one of C. -/
def isLeapYear (year : Int) : Bool :=
  if Int.tmod year 400 = 0 then true
  else if Int.tmod year 100 = 0 then false
  else if Int.tmod year 4 = 0 then true
  else false

/-- Six-argument `makeUnixTime`, every argument and every intermediate value a `uint32_t`. -/
def makeUnixTime (year mon day hour min sec : Nat) : Nat :=
  if year < 1970 then 0
  else
    let mon1 := sub32 mon 2
    let wrapped : Bool := decide (asInt32 mon1 ≤ 0)
    let mon2 := if wrapped then add32 mon1 12 else mon1
    let year2 := if wrapped then sub32 year 1 else year
    let a := add32 (add32 (add32 (sub32 (year2 / 4) (year2 / 100)) (year2 / 400))
      (mul32 367 mon2 / 12)) day
    let d := sub32 (add32 a (mul32 year2 365)) 719499
    add32 (mul32 (add32 (mul32 (add32 (mul32 d 24) hour) 60) min) 60) sec

/-- Overload `makeUnixTime(const datetime_t&)`: casts the fields and calls the six-argument
form. -/
def makeUnixTimeTm (tm : datetime_t) : Nat :=
  makeUnixTime (ofInt32 tm.year) (ofInt32 tm.month) (ofInt32 tm.day)
    (ofInt32 tm.hour) (ofInt32 tm.min) (ofInt32 tm.sec)

/-- Number of days `isLeapYear(year) ? 366 : 365`. -/
def yearLength (year : Nat) : Nat := if isLeapYear (year : Int) then 366 else 365

/-- The loop `while ((unsigned)(days += yearLength) <= time) year++` of `breakUnixTime`.
The first argument bounds the number of condition evaluations; `none` means the bound was
reached.  The result is the pair `(year, days)` at loop exit. -/
def yearLoop : Nat → Nat → Nat → Nat → Option (Nat × Nat)
  | 0, _, _, _ => none
  | fuel + 1, year, days, time =>
    let days1 := add32 days (yearLength year)
    if days1 ≤ time then yearLoop fuel (u16 (year + 1)) days1 time
    else some (year, days1)

/-- The loop `for (month = 0; month < 12; month++)` of `breakUnixTime`; the first argument
is the number of iterations left before `month < 12` fails (`12 - month`).  The result is
the pair `(month, time)` at loop exit. -/
def monthLoop (leap : Bool) : Nat → Nat → Nat → Nat × Nat
  | 0, month, time => (month, time)
  | n + 1, month, time =>
    let monthLength :=
      if month = 1 then (if leap then 29 else 28) else _monthDays.getD month 0
    if time ≥ monthLength then monthLoop leap n (month + 1) (sub32 time monthLength)
    else (month, time)

/-- Function `breakUnixTime`; `none` only if the year loop did not finish within
`days + 1` condition evaluations. -/
def breakUnixTime (intime : Nat) : Option datetime_t :=
  let time0 := u32 intime
  let sec := time0 % 60
  let time1 := time0 / 60
  let min := time1 % 60
  let time2 := time1 / 60
  let hour := time2 % 24
  let time3 := time2 / 24
  let dotw := (time3 + 4) % 7
  match yearLoop (time3 + 1) 1970 0 time3 with
  | none => none
  | some (year, days) =>
    let days1 := sub32 days (yearLength year)
    let time4 := sub32 time3 days1
    let r := monthLoop (isLeapYear (year : Int)) 12 0 time4
    some
      { year := toInt16 year
        month := toInt8 (r.1 + 1)
        day := toInt8 (r.2 + 1)
        dotw := toInt8 dotw
        hour := toInt8 hour
        min := toInt8 min
        sec := toInt8 sec }


/-! ## `TimePoint`, `localTime`, `dayOfWeek`, `timeShift` -/

/-- Conversion of an integer to `int8_t`. -/
def castInt8 (i : Int) : Int := (i + 128) % 256 - 128

/-- Conversion of an integer to `int16_t`. -/
def castInt16 (i : Int) : Int := (i + 32768) % 65536 - 32768

/-- Conversion of an integer to `int` (32 bits). -/
def castInt32 (i : Int) : Int := (i + 2147483648) % 4294967296 - 2147483648

/-- Structure `TimePoint`; all four members are `uint8_t`. -/
structure TimePoint where
  _week : Nat
  _month : Nat
  _hour : Nat
  _dow : Nat
deriving DecidableEq, Repr

/-- Constant `CESTFrom`: last week, March, 1:00 UTC, Sunday. -/
def CESTFrom : TimePoint := { _week := 0, _month := 3, _hour := 1, _dow := 0 }

/-- Constant `CESTTo`: last week, October, 1:00 UTC, Sunday. -/
def CESTTo : TimePoint := { _week := 0, _month := 10, _hour := 1, _dow := 0 }

/-- Constant `CETOffset`. -/
def CETOffset : Nat := _secPerHour

/-- Constant `CESTOffset`. -/
def CESTOffset : Nat := 2 * _secPerHour

/-- Function `localTime` with all five arguments given. -/
def localTime (utcTime DTSFrom DTSTo stdTime dstTime : Nat) : Nat :=
  if utcTime ≥ DTSFrom ∧ utcTime ≤ DTSTo then add32 utcTime dstTime
  else add32 utcTime stdTime

/-- Function `localTime` with the default arguments `stdTime = CETOffset` and
`dstTime = CESTOffset`. -/
def localTimeDefault (utcTime DTSFrom DTSTo : Nat) : Nat :=
  localTime utcTime DTSFrom DTSTo CETOffset CESTOffset

/-- Function `dayOfWeek(int16_t year, int8_t month, int8_t day)`; the arithmetic is that
of `int`, with truncating division and remainder, and the result is stored in a `uint8_t`.
A read of `_dayOf` outside its twelve entries is undefined in C and yields 0 here. -/
def dayOfWeek (year month day : Int) : Nat :=
  let y := castInt16 (year - (if month < 3 then 1 else 0))
  let entry : Int :=
    if 1 ≤ month ∧ month ≤ 12 then ((_dayOf.getD (month - 1).toNat 0 : Nat) : Int) else 0
  ((Int.tmod (y + Int.tdiv y 4 - Int.tdiv y 100 + Int.tdiv y 400 + entry + day) 7) % 256).toNat

/-- Function `timeShift(const TimePoint &r, int year)`. -/
def timeShift (r : TimePoint) (year : Int) : Nat :=
  let m1 := (r._month + 1) % 256
  let m : Nat := if r._week = 0 then (if m1 > 12 then 1 else m1) else r._month
  let year1 : Int := if r._week = 0 ∧ m1 > 12 then castInt32 (year + 1) else year
  let w : Nat := if r._week = 0 then 1 else r._week
  let t := makeUnixTime (ofInt32 year1) m 1 r._hour 0 0
  let k : Int :=
    Int.tmod ((r._dow : Int) - (dayOfWeek (castInt16 year1) (castInt8 (m : Int)) 1 : Int) + 7) 7
      + ((w : Int) - 1) * 7
  let t1 := add32 t (mul32 (ofInt32 k) _secPerDay)
  if r._week = 0 then sub32 t1 (mul32 7 _secPerDay) else t1

/-- Function `isDst(int8_t day, int8_t month, int8_t dow)`; `day - dow` is computed in
`int`. -/
def isDst (day month dow : Int) : Bool :=
  if month < 3 ∨ month > 10 then false
  else if month > 3 ∧ month < 10 then true
  else
    let prevSun := day - dow
    if month = 3 then decide (prevSun ≥ 25)
    else if month = 10 then decide (prevSun < 25)
    else false

/-! ## Reference calendar (follows the wording of the specification) -/

/-- Length of month `month` (1..12) of `year`: 31, 28 or 29, 31, 30, ... -/
def daysInMonth (year month : Nat) : Nat :=
  if month = 2 then (if isLeapYear (year : Int) then 29 else 28)
  else _monthDays.getD (month - 1) 0

/-- Number of days from 1970-01-01 to `year`-`month`-`day`: 365 or 366 for every full year
since 1970, the length of every full month of `year`, and the days of the current month. -/
def daysSinceEpoch (year month day : Nat) : Nat :=
  ((List.range (year - 1970)).map (fun k => yearLength (1970 + k))).sum
    + ((List.range (month - 1)).map (fun j => daysInMonth year (j + 1))).sum
    + (day - 1)

/-- A calendar tuple is valid: month 1..12, day within the month, time of day in range. -/
def validDateTime (year month day hour min sec : Nat) : Prop :=
  1 ≤ month ∧ month ≤ 12 ∧ 1 ≤ day ∧ day ≤ daysInMonth year month
    ∧ hour ≤ 23 ∧ min ≤ 59 ∧ sec ≤ 59

instance (year month day hour min sec : Nat) :
    Decidable (validDateTime year month day hour min sec) := by
  unfold validDateTime; infer_instance

/-- The days of month `month` of `year` whose `dayOfWeek` is `dow`, in ascending order. -/
def weekdayOccurrences (year month dow : Nat) : List Nat :=
  ((List.range (daysInMonth year month)).map (fun i => i + 1)).filter
    (fun d => decide (dayOfWeek (year : Int) (month : Int) (d : Int) = dow))

/-! ## Auxiliary definitions for the proofs -/

/-- Number of leap days counted by the closed formula up to year `x`. -/
def leapsUpTo (x : Nat) : Nat := x / 4 - x / 100 + x / 400

/-- Closed form of the number of days from 1970-01-01 to January 1st of `year`. -/
def daysBeforeYear (year : Nat) : Nat := 365 * year + leapsUpTo (year - 1) - 719527

/-- Length of the month with index `m` (0..11), as computed inside `monthLoop`. -/
def monthLen (leap : Bool) (m : Nat) : Nat :=
  if m = 1 then (if leap then 29 else 28) else _monthDays.getD m 0

/-- Number of days of a year before the month with index `m` (0..11). -/
def monthStart (leap : Bool) (m : Nat) : Nat :=
  (if leap then [0, 31, 60, 91, 121, 152, 182, 213, 244, 274, 305, 335]
   else [0, 31, 59, 90, 120, 151, 181, 212, 243, 273, 304, 334]).getD m 0

/-- Exact (unbounded) number of seconds of a date-time whose day number is `n`. -/
def secondsOf (n hour min sec : Nat) : Nat := ((n * 24 + hour) * 60 + min) * 60 + sec

end TimeUtils

/-! ## The C library functions used by the parser -/

namespace Libc

/-- The characters of a C string stored in a buffer: everything before the first NUL. -/
def cstr (buf : List Nat) : List Nat := buf.takeWhile (fun c => c != 0)

/-- Function `isdigit` on a byte. -/
def isdigit (c : Nat) : Bool := decide (48 ≤ c) && decide (c ≤ 57)

/-- Function `isspace` on a byte (C locale): space, `\t`, `\n`, `\v`, `\f`, `\r`. -/
def isspace (c : Nat) : Bool := c == 32 || (decide (9 ≤ c) && decide (c ≤ 13))

/-- Value of a byte as a digit in `base` (letters in either case), if it is one. -/
def digitVal (base c : Nat) : Option Nat :=
  let v :=
    if 48 ≤ c ∧ c ≤ 57 then c - 48
    else if 65 ≤ c ∧ c ≤ 90 then c - 55
    else if 97 ≤ c ∧ c ≤ 122 then c - 87
    else base
  if v < base then some v else none

/-- Value of a digit string in `base`, most significant digit first. -/
def digitsVal (base : Nat) (ds : List Nat) : Nat := ds.foldl (fun acc d => acc * base + d) 0

/-- Split an optional sign off a string: `(negative, rest)`. -/
def splitSign (s : List Nat) : Bool × List Nat :=
  match s with
  | c :: r => if c = 45 then (true, r) else if c = 43 then (false, r) else (false, c :: r)
  | [] => (false, [])

/-- Skip the prefix `0x` or `0X` that `strtol` accepts in base 16. -/
def skipHexLead (base : Nat) (s : List Nat) : List Nat :=
  match s with
  | c :: x :: r => if base = 16 ∧ c = 48 ∧ (x = 120 ∨ x = 88) then r else c :: x :: r
  | r => r

/-- Function `strtol(str, NULL, base)` for a 32-bit `long`: white space, optional sign,
optional hexadecimal prefix, the longest run of digits; a value out of range is clamped to
`LONG_MAX` or `LONG_MIN`. The argument is the character list of the C string. -/
def strtol (s : List Nat) (base : Nat) : Int :=
  let s1 := s.dropWhile isspace
  let p := splitSign s1
  let s2 := skipHexLead base p.2
  let v := digitsVal base ((s2.takeWhile (fun c => (digitVal base c).isSome)).map
    (fun c => (digitVal base c).getD 0))
  if p.1 then (if v > 2147483648 then -2147483648 else -(v : Int))
  else (if v > 2147483647 then 2147483647 else (v : Int))

/-- Function `atol(str)`, that is `strtol(str, NULL, 10)`. -/
def atol (s : List Nat) : Int := strtol s 10

/-- Decimal exponent part `e[+-]digits` of a floating literal; 0 when absent. -/
def exponentOf (s : List Nat) : Int :=
  match s with
  | c :: r =>
    if c = 101 ∨ c = 69 then
      let p := splitSign r
      let ds := p.2.takeWhile isdigit
      if ds = [] then 0
      else if p.1 then -(digitsVal 10 (ds.map (fun c => c - 48)) : Int)
      else (digitsVal 10 (ds.map (fun c => c - 48)) : Int)
    else 0
  | [] => 0

/-- The parts of the decimal floating literal at the start of a string, as `atof` reads
them: white space, optional sign, digits, optional fraction, optional exponent. The result
is `(negative, digits of integer part and fraction as one number, number of fraction
digits, exponent)`; without any digit the literal is empty. -/
def atofParts (s : List Nat) : Bool × Nat × Nat × Int :=
  let s1 := s.dropWhile isspace
  let p := splitSign s1
  let ip := p.2.takeWhile isdigit
  let r1 := p.2.dropWhile isdigit
  let fp := match r1 with
    | 46 :: r => r.takeWhile isdigit
    | _ => []
  let r2 := match r1 with
    | 46 :: r => r.dropWhile isdigit
    | _ => r1
  if ip = [] ∧ fp = [] then (false, 0, 0, 0)
  else (p.1, digitsVal 10 ((ip ++ fp).map (fun c => c - 48)), fp.length, exponentOf r2)

/-- Function `atof(str)` on decimal input, with the `double` result idealised as an exact
rational; `atof64` below rounds it to binary64. Infinities, NaN and hexadecimal literals
are outside this model. -/
def atof (s : List Nat) : ℚ :=
  let p := atofParts s
  let v : ℚ := (p.2.1 : ℚ) / (10 : ℚ) ^ p.2.2.1 * (10 : ℚ) ^ p.2.2.2
  if p.1 then -v else v

end Libc

/-! ## The parser `GPS` (`gps.h`, `gps.cpp`) -/

/-- Enumeration `GPS::Sentence`. -/
inductive Sentence where
  | UNKNOWN
  | GPRMC
deriving DecidableEq, Repr

/-- Enumeration `GPS::BufferContent`. -/
inductive BufferContent where
  | UNKNOWN
  | Timestamp
  | PositionStatus
  | Latitude
  | LatiDirection
  | Longitude
  | LongDirection
  | Speed
  | Track
  | Date
  | MagVariation
  | MagVarDirection
  | ModeInd
  | CheckSum
deriving DecidableEq, Repr

/-- Data members of class `GPS`. The `double` members are idealised as exact rationals,
`_buffer` is the 15-byte array as a list of bytes. -/
structure GPS where
  _skipCheck : Bool
  _time : Int
  _fxtime : Int
  _date : Nat
  _fxdate : Nat
  _speed : ℚ
  _fxspeed : ℚ
  _latitude : ℚ
  _fxlatitude : ℚ
  _longitude : ℚ
  _fxlongitude : ℚ
  _validPosition : Bool
  _validDateTime : Bool
  _checksum : Nat
  _bufferPos : Nat
  _buffer : List Nat
  _bufferReq : BufferContent
  _sentType : Sentence
deriving DecidableEq

namespace GPS

/-- Wrap an integer into the range of `int32_t`. -/
def wrapInt32 (i : Int) : Int := (i + 2147483648) % 4294967296 - 2147483648

/-- Narrowing conversion to `int8_t`. -/
def wrapInt8 (i : Int) : Int := (i + 128) % 256 - 128

/-- Narrowing conversion to `int16_t`. -/
def wrapInt16 (i : Int) : Int := (i + 32768) % 65536 - 32768

/-- The buffer after `memset(_buffer, 0, sizeof(_buffer))`. -/
def emptyBuffer : List Nat := List.replicate 15 0

/-- The object after construction: the default member initialisers of the class; the
buffer has no initialiser and is overwritten by `init` before it is read. -/
def ctor : GPS :=
  { _skipCheck := false, _time := 0, _fxtime := 0, _date := 0, _fxdate := 0,
    _speed := 0, _fxspeed := 0, _latitude := 0, _fxlatitude := 0,
    _longitude := 0, _fxlongitude := 0, _validPosition := false, _validDateTime := false,
    _checksum := 0, _bufferPos := 0, _buffer := emptyBuffer,
    _bufferReq := BufferContent.UNKNOWN, _sentType := Sentence.UNKNOWN }

/-- Function `GPS::str2Int`; `int32_t` overflow wraps around. -/
def str2Int (buf : List Nat) : Int :=
  let str := Libc.cstr buf
  let neg : Bool := str.head? == some 45
  let str1 := if neg then str.tail else str
  let rc0 : Int := if neg then -1 else 1
  let rc1 := wrapInt32 (rc0 * wrapInt32 (100 * Libc.atol str1))
  let str2 := str1.dropWhile Libc.isdigit
  if str2.getD 0 0 = 46 ∧ Libc.isdigit (str2.getD 1 0) then
    let rc2 := wrapInt32 (rc1 + 10 * ((str2.getD 1 0 : Int) - 48))
    if Libc.isdigit (str2.getD 2 0) then wrapInt32 (rc2 + ((str2.getD 2 0 : Int) - 48))
    else rc2
  else rc1

/-- Function `GPS::str2Degr` in exact rational arithmetic; `str2Degr64` below is the same
computation in `double` arithmetic. -/
def str2Degr (buf : List Nat) : ℚ :=
  let num := Libc.atof (Libc.cstr buf)
  let deg : ℚ := (Int.floor (num / 100) : ℚ)
  let min := num - deg * 100
  deg + min / 60

/-- Function `GPS::invalidContnet`. -/
def invalidContnet (s : GPS) : GPS :=
  { s with
    _sentType := Sentence.UNKNOWN, _bufferPos := 0, _buffer := emptyBuffer,
    _skipCheck := false, _time := 0, _date := 0, _speed := 0, _latitude := 0,
    _longitude := 0, _checksum := 0 }

/-- Function `GPS::init`. -/
def init (s : GPS) : GPS := invalidContnet s

/-- Function `GPS::resetContnet`. -/
def resetContnet (s : GPS) : GPS :=
  { s with _bufferPos := 0, _buffer := emptyBuffer }

/-- Function `GPS::resetValidTime`. -/
def resetValidTime (s : GPS) : GPS :=
  { s with _validDateTime := false, _fxtime := 0, _fxdate := 0 }

/-- Function `GPS::resetPosition`. -/
def resetPosition (s : GPS) : GPS :=
  { s with _validPosition := false, _fxlatitude := 0, _fxlongitude := 0, _fxspeed := 0 }

/-- Function `GPS::process` in exact rational arithmetic; `processIn binary64Arith` below
is the same function in `double` arithmetic. -/
def process (s : GPS) : GPS :=
  match s._bufferReq with
  | BufferContent.UNKNOWN => s
  | BufferContent.Timestamp =>
    resetContnet { s with _time := str2Int s._buffer, _bufferReq := BufferContent.PositionStatus }
  | BufferContent.PositionStatus =>
    resetContnet
      { s with _validPosition := (s._buffer.getD 0 0 == 65), _bufferReq := BufferContent.Latitude }
  | BufferContent.Latitude =>
    resetContnet
      { s with _latitude := str2Degr s._buffer, _bufferReq := BufferContent.LatiDirection }
  | BufferContent.LatiDirection =>
    resetContnet
      { s with
        _latitude := if s._buffer.getD 0 0 = 83 then s._latitude * (-1) else s._latitude
        _bufferReq := BufferContent.Longitude }
  | BufferContent.Longitude =>
    resetContnet
      { s with _longitude := str2Degr s._buffer, _bufferReq := BufferContent.LongDirection }
  | BufferContent.LongDirection =>
    resetContnet
      { s with
        _longitude := if s._buffer.getD 0 0 = 87 then s._longitude * (-1) else s._longitude
        _bufferReq := BufferContent.Speed }
  | BufferContent.Speed =>
    resetContnet
      { s with
        _speed := (1852 / 1000 : ℚ) * (str2Int s._buffer : ℚ) / 100
        _bufferReq := BufferContent.Track }
  | BufferContent.Track =>
    resetContnet
      { s with
        _date := TimeUtils.ofInt32 (Libc.atol (Libc.cstr s._buffer))
        _bufferReq := BufferContent.Date }
  | BufferContent.Date =>
    resetContnet
      { s with
        _date := TimeUtils.ofInt32 (Libc.atol (Libc.cstr s._buffer))
        _bufferReq := BufferContent.MagVariation }
  | BufferContent.MagVariation =>
    resetContnet { s with _bufferReq := BufferContent.MagVarDirection }
  | BufferContent.MagVarDirection =>
    resetContnet { s with _bufferReq := BufferContent.ModeInd }
  | BufferContent.ModeInd =>
    resetContnet { s with _bufferReq := BufferContent.CheckSum }
  | BufferContent.CheckSum =>
    let s1 :=
      if Libc.strtol (Libc.cstr s._buffer) 16 = (s._checksum : Int) then
        let s2 :=
          { s with
            _fxtime := s._time, _fxdate := s._date, _fxspeed := s._speed
            _validDateTime := true }
        if s2._validPosition then
          { s2 with _fxlatitude := s2._latitude, _fxlongitude := s2._longitude }
        else resetPosition s2
      else s
    invalidContnet s1

/-- Function `GPS::finalizeSentence`; the tag compared with `strcmp` is `GPRMC`. -/
def finalizeSentence (s : GPS) : GPS :=
  match s._sentType with
  | Sentence.GPRMC => process s
  | Sentence.UNKNOWN =>
    if Libc.cstr s._buffer = [71, 80, 82, 77, 67] then
      resetContnet
        { s with _sentType := Sentence.GPRMC, _bufferReq := BufferContent.Timestamp }
    else invalidContnet s

/-- Function `GPS::parse` on one input byte. -/
def parse (s : GPS) (inp : Nat) : GPS :=
  let s1 := if s._bufferPos ≥ 14 then invalidContnet s else s
  if inp = 36 then
    { s1 with _checksum := 0, _bufferPos := 0, _buffer := emptyBuffer }
  else if inp = 44 then
    finalizeSentence { s1 with _checksum := (s1._checksum ^^^ inp) % 256 }
  else if inp = 13 ∨ inp = 10 then
    finalizeSentence s1
  else if inp = 42 then
    { finalizeSentence s1 with _skipCheck := true }
  else
    let s2 := if s1._skipCheck then s1 else { s1 with _checksum := (s1._checksum ^^^ inp) % 256 }
    { s2 with
      _buffer := s2._buffer.set s2._bufferPos inp
      _bufferPos := (s2._bufferPos + 1) % 256 }

/-- Feeding a sequence of bytes, one `parse` call per byte. -/
def feed (s : GPS) (bytes : List Nat) : GPS := bytes.foldl parse s

/-- Accessor `isValidTime`. -/
def isValidTime (s : GPS) : Bool := s._validDateTime

/-- Accessor `isValidPosition`. -/
def isValidPosition (s : GPS) : Bool := s._validPosition

/-- Accessor `year`. -/
def year (s : GPS) : Int := wrapInt16 ((TimeUtils.u32 (s._fxdate % 100 + 2000) : Nat) : Int)

/-- Accessor `month`. -/
def month (s : GPS) : Int := wrapInt8 ((s._fxdate / 100 % 100 : Nat) : Int)

/-- Accessor `day`. -/
def day (s : GPS) : Int := wrapInt8 ((s._fxdate / 10000 : Nat) : Int)

/-- Accessor `hour`. -/
def hour (s : GPS) : Int := wrapInt8 (Int.tdiv s._fxtime 1000000)

/-- Accessor `minute`. -/
def minute (s : GPS) : Int := wrapInt8 (Int.tmod (Int.tdiv s._fxtime 10000) 100)

/-- Accessor `second`. -/
def second (s : GPS) : Int := wrapInt8 (Int.tmod (Int.tdiv s._fxtime 100) 100)

/-- Accessor `centisecond`. -/
def centisecond (s : GPS) : Int := wrapInt8 (Int.tmod s._fxtime 100)

/-- Accessor `longitude`. -/
def longitude (s : GPS) : ℚ := s._fxlongitude

/-- Accessor `latitude`. -/
def latitude (s : GPS) : ℚ := s._fxlatitude

/-- Accessor `speed`. -/
def speed (s : GPS) : ℚ := s._fxspeed

/-- The index `month - 1` at which `TimeUtils::dayOfWeek`, called by `weekDay()` with
`month()`, reads the table `_dayOf`. -/
def weekDayIndex (s : GPS) : Int := s.month - 1

end GPS

/-! ## Binary64 arithmetic -/

namespace Binary64

/-- Rounding of a rational to the nearest integer, a tie going to the even neighbour. -/
def roundHalfEven (q : ℚ) : Int :=
  let f := Int.floor q
  let r := q - f
  if r < 1 / 2 then f else if 1 / 2 < r then f + 1 else if f % 2 = 0 then f else f + 1

/-- The value a `double` operation returns for the exact result `x`: the nearest binary64
number, ties to even. The spacing of the binary64 numbers around `x` is
`2 ^ (e - 52)`, where `2 ^ e <= |x| < 2 ^ (e + 1)` and `e` is at least -1022 (below that
the numbers are subnormal). A finite `double` is represented by its rational value, so the
two zeros are one value; a result beyond the largest finite number, for which C returns an
infinity, is outside this model. -/
def rnd (x : ℚ) : ℚ :=
  let e := max (Int.log 2 |x|) (-1022)
  let ulp : ℚ := 2 ^ (e - 52)
  roundHalfEven (x / ulp) * ulp

end Binary64

namespace Libc

/-- Function `atof(str)` with its `double` result: the decimal literal read by `atof`,
rounded to the nearest binary64 number as `strtod` does. The exact value is that of `atof`
above, so hexadecimal literals, infinities and NaN are outside this model as well. -/
def atof64 (s : List Nat) : ℚ := Binary64.rnd (atof s)

end Libc

namespace GPS

/-- Function `GPS::str2Degr` in `double` arithmetic: every operation returns the binary64
rounding of its exact result; `floor` is exact. -/
def str2Degr64 (buf : List Nat) : ℚ :=
  let num := Libc.atof64 (Libc.cstr buf)
  let deg : ℚ := (Int.floor (Binary64.rnd (num / 100)) : ℚ)
  let min := Binary64.rnd (num - Binary64.rnd (deg * 100))
  Binary64.rnd (deg + Binary64.rnd (min / 60))

/-- The three floating-point computations of `GPS::process`, as functions to rational
values: `str2Degr(_buffer)`, `x *= -1`, and `1.852 * str2Int(_buffer) / 100.0` as a function
of the integer that `str2Int` returns. -/
structure FloatArith where
  str2Degr : List Nat → ℚ
  negate : ℚ → ℚ
  speedKmh : Int → ℚ

/-- Exact rational arithmetic: the computations as `process` above performs them. -/
def exactArith : FloatArith :=
  { str2Degr := str2Degr
    negate := fun x => x * (-1)
    speedKmh := fun n => (1852 / 1000 : ℚ) * (n : ℚ) / 100 }

/-- The arithmetic of `double`: every operation returns the binary64 rounding of its exact
result; `1.852` is the binary64 constant and the `int32_t` converts exactly. -/
def binary64Arith : FloatArith :=
  { str2Degr := str2Degr64
    negate := fun x => Binary64.rnd (x * (-1))
    speedKmh := fun n => Binary64.rnd (Binary64.rnd (Binary64.rnd (1852 / 1000) * (n : ℚ)) / 100) }

/-- Function `GPS::process` over a floating-point arithmetic `A`. -/
def processIn (A : FloatArith) (s : GPS) : GPS :=
  match s._bufferReq with
  | BufferContent.UNKNOWN => s
  | BufferContent.Timestamp =>
    resetContnet { s with _time := str2Int s._buffer, _bufferReq := BufferContent.PositionStatus }
  | BufferContent.PositionStatus =>
    resetContnet
      { s with _validPosition := (s._buffer.getD 0 0 == 65), _bufferReq := BufferContent.Latitude }
  | BufferContent.Latitude =>
    resetContnet
      { s with _latitude := A.str2Degr s._buffer, _bufferReq := BufferContent.LatiDirection }
  | BufferContent.LatiDirection =>
    resetContnet
      { s with
        _latitude := if s._buffer.getD 0 0 = 83 then A.negate s._latitude else s._latitude
        _bufferReq := BufferContent.Longitude }
  | BufferContent.Longitude =>
    resetContnet
      { s with _longitude := A.str2Degr s._buffer, _bufferReq := BufferContent.LongDirection }
  | BufferContent.LongDirection =>
    resetContnet
      { s with
        _longitude := if s._buffer.getD 0 0 = 87 then A.negate s._longitude else s._longitude
        _bufferReq := BufferContent.Speed }
  | BufferContent.Speed =>
    resetContnet
      { s with
        _speed := A.speedKmh (str2Int s._buffer)
        _bufferReq := BufferContent.Track }
  | BufferContent.Track =>
    resetContnet
      { s with
        _date := TimeUtils.ofInt32 (Libc.atol (Libc.cstr s._buffer))
        _bufferReq := BufferContent.Date }
  | BufferContent.Date =>
    resetContnet
      { s with
        _date := TimeUtils.ofInt32 (Libc.atol (Libc.cstr s._buffer))
        _bufferReq := BufferContent.MagVariation }
  | BufferContent.MagVariation =>
    resetContnet { s with _bufferReq := BufferContent.MagVarDirection }
  | BufferContent.MagVarDirection =>
    resetContnet { s with _bufferReq := BufferContent.ModeInd }
  | BufferContent.ModeInd =>
    resetContnet { s with _bufferReq := BufferContent.CheckSum }
  | BufferContent.CheckSum =>
    let s1 :=
      if Libc.strtol (Libc.cstr s._buffer) 16 = (s._checksum : Int) then
        let s2 :=
          { s with
            _fxtime := s._time, _fxdate := s._date, _fxspeed := s._speed
            _validDateTime := true }
        if s2._validPosition then
          { s2 with _fxlatitude := s2._latitude, _fxlongitude := s2._longitude }
        else resetPosition s2
      else s
    invalidContnet s1

/-- Function `GPS::finalizeSentence` over a floating-point arithmetic. -/
def finalizeSentenceIn (A : FloatArith) (s : GPS) : GPS :=
  match s._sentType with
  | Sentence.GPRMC => processIn A s
  | Sentence.UNKNOWN =>
    if Libc.cstr s._buffer = [71, 80, 82, 77, 67] then
      resetContnet
        { s with _sentType := Sentence.GPRMC, _bufferReq := BufferContent.Timestamp }
    else invalidContnet s

/-- Function `GPS::parse` over a floating-point arithmetic. -/
def parseIn (A : FloatArith) (s : GPS) (inp : Nat) : GPS :=
  let s1 := if s._bufferPos ≥ 14 then invalidContnet s else s
  if inp = 36 then
    { s1 with _checksum := 0, _bufferPos := 0, _buffer := emptyBuffer }
  else if inp = 44 then
    finalizeSentenceIn A { s1 with _checksum := (s1._checksum ^^^ inp) % 256 }
  else if inp = 13 ∨ inp = 10 then
    finalizeSentenceIn A s1
  else if inp = 42 then
    { finalizeSentenceIn A s1 with _skipCheck := true }
  else
    let s2 := if s1._skipCheck then s1 else { s1 with _checksum := (s1._checksum ^^^ inp) % 256 }
    { s2 with
      _buffer := s2._buffer.set s2._bufferPos inp
      _bufferPos := (s2._bufferPos + 1) % 256 }

/-- Feeding a sequence of bytes over a floating-point arithmetic, one call per byte. -/
def feedIn (A : FloatArith) (s : GPS) (bytes : List Nat) : GPS := bytes.foldl (parseIn A) s

end GPS

/-! ## The keyboard scan of `PCF8574` (`pcf8574.h`, `pcf8574.cpp`) -/

namespace PCF8574

/-- Constant `_invalidKey`. -/
def _invalidKey : Nat := 0xff

/-- Member `_map4x4`: the characters of the keys in scan-code order. -/
def _map4x4 : List Nat := "123A456B789C*0#D".toList.map Char.toNat

/-- Function `PCF8574::getKey4x4` with its two port reads as inputs: `r` is the byte read
after `writeIO(0xf0)`, `c` the byte read after `writeIO(0x0f)`. The variable `rc` is a
`uint8_t`, so `rc += k` is reduced modulo 256. -/
def getKey4x4 (r c : Nat) : Nat :=
  let rc : Nat :=
    if r = 0x70 then 0
    else if r = 0xb0 then 4
    else if r = 0xd0 then 8
    else if r = 0xe0 then 12
    else _invalidKey
  if c = 0x07 then (rc + 0) % 256
  else if c = 0x0b then (rc + 1) % 256
  else if c = 0x0d then (rc + 2) % 256
  else if c = 0x0e then (rc + 3) % 256
  else _invalidKey

/-- Function `PCF8574::getCharKey4x4` on the same two port reads; `strlen(_map4x4)` is 16. -/
def getCharKey4x4 (r c : Nat) : Nat :=
  let k := getKey4x4 r c
  if k < _map4x4.length then _map4x4.getD k 0 else 0

/-- The four row patterns of the scan table in `pcf8574.cpp`. -/
def rowPatterns : List Nat := [0x70, 0xb0, 0xd0, 0xe0]

/-- The four column patterns of the scan table in `pcf8574.cpp`. -/
def colPatterns : List Nat := [0x07, 0x0b, 0x0d, 0x0e]

end PCF8574

/-! ## Sentences (follows the wording of the specification) -/

namespace GPS

/-- A byte that may occur inside a field: none of `$`, `,`, `*`, CR, LF. -/
def fieldByte (b : Nat) : Prop :=
  b < 256 ∧ b ≠ 36 ∧ b ≠ 44 ∧ b ≠ 42 ∧ b ≠ 13 ∧ b ≠ 10

instance (b : Nat) : Decidable (fieldByte b) := by
  unfold fieldByte; infer_instance

/-- A field of at most 13 bytes, none of them a delimiter. -/
def wellFormedField (f : List Nat) : Prop :=
  f.length ≤ 13 ∧ ∀ b ∈ f, fieldByte b

instance (f : List Nat) : Decidable (wellFormedField f) := by
  unfold wellFormedField; infer_instance

/-- Exclusive-or of a sequence of bytes. -/
def xorAll (bs : List Nat) : Nat := bs.foldl (fun c b => c ^^^ b) 0

/-- The running 8-bit checksum `_checksum ^= b` after a run of bytes, starting from `c`. -/
def xorRun (c : Nat) (bs : List Nat) : Nat := bs.foldl (fun c b => (c ^^^ b) % 256) c

/-- The bytes strictly between `$` and `*`: the tag `GPRMC`, then `,` and a field for
every field of the list. -/
def rmcBody (fs : List (List Nat)) : List Nat :=
  [71, 80, 82, 77, 67] ++ (fs.map (fun f => 44 :: f)).flatten

/-- The sentence `$GPRMC,f1,...,fn*hh` without its line terminator. -/
def rmcSentence (fs : List (List Nat)) (hh : List Nat) : List Nat :=
  36 :: (rmcBody fs ++ 42 :: hh)

/-- The bytes of a text. -/
def ascii (t : String) : List Nat := t.toList.map Char.toNat

/-- The pending state at the moment the CR after the checksum digits `d1 d2` of the sentence
`$GPRMC,f1,...,f12*d1d2` is processed, for a sentence fed to the idle state `s`. -/
def pendingState (s : GPS) (f1 f2 f3 f4 f5 f6 f7 f8 f9 f10 f11 f12 : List Nat) (d1 d2 : Nat) : GPS :=
  { s with
    _skipCheck := true
    _time := str2Int f1
    _validPosition := (f2.getD 0 0 == 65)
    _latitude := if f4.getD 0 0 = 83 then str2Degr f3 * (-1) else str2Degr f3
    _longitude := if f6.getD 0 0 = 87 then str2Degr f5 * (-1) else str2Degr f5
    _speed := (1852 / 1000 : ℚ) * (str2Int f7 : ℚ) / 100
    _date := TimeUtils.ofInt32 (Libc.atol (Libc.cstr f9))
    _checksum := xorAll (rmcBody [f1, f2, f3, f4, f5, f6, f7, f8, f9, f10, f11, f12])
    _bufferPos := 2
    _buffer := [d1, d2] ++ List.replicate 13 0
    _bufferReq := BufferContent.CheckSum
    _sentType := Sentence.GPRMC }

/-- The parser is idle: no sentence recognised, empty buffer, skip flag clear. -/
def idle (s : GPS) : Prop :=
  s._sentType = Sentence.UNKNOWN ∧ s._bufferPos = 0 ∧ s._skipCheck = false

instance (s : GPS) : Decidable (idle s) := by
  unfold idle; infer_instance

/-! ## Fields of a sentence and stages of the parser -/

/-- The tag `GPRMC` that `finalizeSentence` compares the buffer with. -/
def tagGPRMC : List Nat := [71, 80, 82, 77, 67]

/-- A delimiter byte of `parse`: `,`, `*`, CR or LF. -/
def isDelim (b : Nat) : Bool := b == 44 || b == 42 || b == 13 || b == 10

/-- The fields of a byte sequence: the runs of bytes between delimiters, `cur` being the
bytes of the first field that were read before the sequence. -/
def splitFrom (cur : List Nat) : List Nat → List (List Nat)
  | [] => [cur]
  | b :: rest => if isDelim b then cur :: splitFrom [] rest else splitFrom (cur ++ [b]) rest

/-- The fields of a byte sequence. -/
def splitFields (bytes : List Nat) : List (List Nat) := splitFrom [] bytes

/-- The confirmed fix and both validity flags of `t` are those of `s`. -/
def sameFix (s t : GPS) : Prop :=
  t._fxtime = s._fxtime ∧ t._fxdate = s._fxdate ∧ t._fxspeed = s._fxspeed
    ∧ t._fxlatitude = s._fxlatitude ∧ t._fxlongitude = s._fxlongitude
    ∧ t._validDateTime = s._validDateTime ∧ t._validPosition = s._validPosition

instance (s t : GPS) : Decidable (sameFix s t) := by
  unfold sameFix; infer_instance

/-- Position of a field expectation in the sequence Timestamp (1) to CheckSum (13). -/
def fieldIndex : BufferContent → Nat
  | BufferContent.UNKNOWN => 14
  | BufferContent.Timestamp => 1
  | BufferContent.PositionStatus => 2
  | BufferContent.Latitude => 3
  | BufferContent.LatiDirection => 4
  | BufferContent.Longitude => 5
  | BufferContent.LongDirection => 6
  | BufferContent.Speed => 7
  | BufferContent.Track => 8
  | BufferContent.Date => 9
  | BufferContent.MagVariation => 10
  | BufferContent.MagVarDirection => 11
  | BufferContent.ModeInd => 12
  | BufferContent.CheckSum => 13

/-- Number of fields finalized in the current sentence: 0 before the tag is recognised. -/
def stage (s : GPS) : Nat :=
  match s._sentType with
  | Sentence.UNKNOWN => 0
  | Sentence.GPRMC => fieldIndex s._bufferReq

/-- The field `cur` is in the buffer, not yet finalized, at stage `n` of the sentence, with
running checksum `c`. -/
def fieldPending (t : GPS) (n : Nat) (cur : List Nat) (c : Nat) : Prop :=
  stage t = n ∧ (n = 0 → cur = tagGPRMC) ∧ t._bufferPos = cur.length
    ∧ t._buffer = cur ++ List.replicate (15 - cur.length) 0 ∧ cur.length ≤ 13
    ∧ t._skipCheck = false ∧ t._checksum = c

instance (t : GPS) (n : Nat) (cur : List Nat) (c : Nat) :
    Decidable (fieldPending t n cur c) := by
  unfold fieldPending; infer_instance

/-- The field expected after `b` in the order Timestamp, PositionStatus, ..., CheckSum. -/
def nextField : BufferContent → BufferContent
  | BufferContent.UNKNOWN => BufferContent.UNKNOWN
  | BufferContent.Timestamp => BufferContent.PositionStatus
  | BufferContent.PositionStatus => BufferContent.Latitude
  | BufferContent.Latitude => BufferContent.LatiDirection
  | BufferContent.LatiDirection => BufferContent.Longitude
  | BufferContent.Longitude => BufferContent.LongDirection
  | BufferContent.LongDirection => BufferContent.Speed
  | BufferContent.Speed => BufferContent.Track
  | BufferContent.Track => BufferContent.Date
  | BufferContent.Date => BufferContent.MagVariation
  | BufferContent.MagVariation => BufferContent.MagVarDirection
  | BufferContent.MagVarDirection => BufferContent.ModeInd
  | BufferContent.ModeInd => BufferContent.CheckSum
  | BufferContent.CheckSum => BufferContent.CheckSum

/-- The bytes of a field that are in the buffer when its delimiter arrives: `parse` resets
the parser whenever 14 bytes are in the buffer, so every complete block of 14 bytes of the
field is discarded and the bytes after the last complete block remain. -/
def overflowRest (seg : List Nat) : List Nat := seg.drop (14 * (seg.length / 14))

/-- The bytes of a field that are in the buffer after its last byte was stored: the last
block of at most 14 bytes that is not yet discarded. -/
def inBuffer (cur : List Nat) : List Nat := cur.drop (14 * ((cur.length - 1) / 14))

end GPS

namespace TimeUtils

/-! ## Machine arithmetic without overflow -/

theorem u32_of_lt {n : Nat} (h : n < 4294967296) : u32 n = n := by
  unfold u32; omega

theorem add32_of_lt {a b : Nat} (h : a + b < 4294967296) : add32 a b = a + b := by
  unfold add32 u32; omega

theorem mul32_of_lt {a b : Nat} (h : a * b < 4294967296) : mul32 a b = a * b := by
  unfold mul32 u32; omega

theorem sub32_of_le {a b : Nat} (h : b ≤ a) (ha : a < 4294967296) : sub32 a b = a - b := by
  unfold sub32 u32; omega

theorem toInt8_of_lt {n : Nat} (h : n < 128) : toInt8 n = (n : Int) := by
  unfold toInt8; split <;> omega

theorem toInt16_of_lt {n : Nat} (h : n < 32768) : toInt16 n = (n : Int) := by
  unfold toInt16; split <;> omega

theorem ofInt32_natCast {n : Nat} (h : n < 4294967296) : ofInt32 (n : Int) = n := by
  unfold ofInt32; omega

/-! ## Leap years and the closed day count -/

theorem isLeapYear_natCast (y : Nat) :
    isLeapYear (y : Int) = decide (y % 400 = 0 ∨ (y % 100 ≠ 0 ∧ y % 4 = 0)) := by
  have h400 : Int.tmod (y : Int) 400 = ((y % 400 : Nat) : Int) := rfl
  have h100 : Int.tmod (y : Int) 100 = ((y % 100 : Nat) : Int) := rfl
  have h4 : Int.tmod (y : Int) 4 = ((y % 4 : Nat) : Int) := rfl
  have e400 : Int.tmod (y : Int) 400 = 0 ↔ y % 400 = 0 := by rw [h400]; omega
  have e100 : Int.tmod (y : Int) 100 = 0 ↔ y % 100 = 0 := by rw [h100]; omega
  have e4 : Int.tmod (y : Int) 4 = 0 ↔ y % 4 = 0 := by rw [h4]; omega
  simp only [isLeapYear, e400, e100, e4]
  by_cases a : y % 400 = 0
  · simp [a]
  · by_cases b : y % 100 = 0
    · simp [a, b]
    · by_cases c : y % 4 = 0
      · simp [a, b, c]
      · simp [a, b, c]

theorem div_step (k y : Nat) (hy : 1 ≤ y) :
    y / k = (y - 1) / k + (if y % k = 0 then 1 else 0) := by
  obtain ⟨x, rfl⟩ : ∃ x, y = x + 1 := ⟨y - 1, by omega⟩
  simp only [Nat.add_sub_cancel]
  rw [Nat.succ_div]
  simp [Nat.dvd_iff_mod_eq_zero]

theorem mod_100_of_400 (y : Nat) (h : y % 400 = 0) : y % 100 = 0 := by omega

theorem mod_4_of_100 (y : Nat) (h : y % 100 = 0) : y % 4 = 0 := by omega

theorem div100_le_div4 (y : Nat) : y / 100 ≤ y / 4 :=
  Nat.div_le_div_left (by norm_num) (by norm_num)

/-- One year further: the leap-day count grows by one exactly in a leap year. -/
theorem leapsUpTo_step (y : Nat) (hy : 1 ≤ y) :
    (isLeapYear (y : Int) = true ∧ yearLength y = 366 ∧ leapsUpTo y = leapsUpTo (y - 1) + 1)
      ∨ (isLeapYear (y : Int) = false ∧ yearLength y = 365
          ∧ leapsUpTo y = leapsUpTo (y - 1)) := by
  have a := div_step 4 y hy
  have b := div_step 100 y hy
  have c := div_step 400 y hy
  have l1 := div100_le_div4 (y - 1)
  have l2 := div100_le_div4 y
  have i1 := mod_100_of_400 y
  have i2 := mod_4_of_100 y
  unfold yearLength leapsUpTo
  rw [isLeapYear_natCast]
  generalize (y - 1) / 4 = q4 at *
  generalize (y - 1) / 100 = q100 at *
  generalize (y - 1) / 400 = q400 at *
  generalize y / 4 = p4 at *
  generalize y / 100 = p100 at *
  generalize y / 400 = p400 at *
  by_cases h400 : y % 400 = 0
  · have h100 := i1 h400
    have h4 := i2 h100
    left
    simp only [h400, h100, h4, if_true] at a b c
    simp [h400]
    omega
  · by_cases h100 : y % 100 = 0
    · have h4 := i2 h100
      right
      simp only [h400, h100, h4, if_true, if_false] at a b c
      simp [h400, h100]
      omega
    · by_cases h4 : y % 4 = 0
      · left
        simp only [h400, h100, h4, if_true, if_false] at a b c
        simp [h400, h100, h4]
        omega
      · right
        simp only [h400, h100, h4, if_false] at a b c
        simp [h400, h100, h4]
        omega

theorem leapsUpTo_1969 : leapsUpTo 1969 = 477 := by
  unfold leapsUpTo; norm_num

theorem leapsUpTo_mono_step (y : Nat) : leapsUpTo y ≤ leapsUpTo (y + 1) := by
  rcases leapsUpTo_step (y + 1) (by omega) with ⟨_, _, h⟩ | ⟨_, _, h⟩ <;>
    · simp only [Nat.add_sub_cancel] at h; omega

theorem leapsUpTo_ge (y : Nat) (hy : 1969 ≤ y) : 477 ≤ leapsUpTo y := by
  induction y with
  | zero => omega
  | succ n ih =>
    by_cases h : n + 1 = 1969
    · rw [h, leapsUpTo_1969]
    · have := ih (by omega)
      have := leapsUpTo_mono_step n
      omega

theorem leapsUpTo_le (y : Nat) : leapsUpTo y ≤ y := by
  unfold leapsUpTo; omega

theorem daysBeforeYear_1970 : daysBeforeYear 1970 = 0 := by
  unfold daysBeforeYear; rw [show 1970 - 1 = 1969 from rfl, leapsUpTo_1969]

theorem daysBeforeYear_succ (y : Nat) (hy : 1970 ≤ y) :
    daysBeforeYear (y + 1) = daysBeforeYear y + yearLength y := by
  have g := leapsUpTo_ge (y - 1) (by omega)
  unfold daysBeforeYear
  simp only [Nat.add_sub_cancel]
  rcases leapsUpTo_step y (by omega) with ⟨_, h2, h3⟩ | ⟨_, h2, h3⟩ <;>
    · rw [h2, h3]; omega

theorem yearLength_bounds (y : Nat) : 365 ≤ yearLength y ∧ yearLength y ≤ 366 := by
  unfold yearLength; split <;> omega

theorem daysBeforeYear_mono {a b : Nat} (ha : 1970 ≤ a) (hab : a ≤ b) :
    daysBeforeYear a ≤ daysBeforeYear b := by
  induction b with
  | zero => omega
  | succ n ih =>
    by_cases h : a = n + 1
    · rw [h]
    · have h1 := ih (by omega)
      have h2 := daysBeforeYear_succ n (by omega)
      omega

theorem year_le_of_days (y : Nat) (hy : 1970 ≤ y) (h : daysBeforeYear y ≤ 49710) :
    y ≤ 2106 := by
  have g := leapsUpTo_ge (y - 1) (by omega)
  unfold daysBeforeYear at h
  omega


/-! ## `makeUnixTime` as the exact second count modulo `2^32` -/

theorem mon_adjust (M : Nat) (h1 : 1 ≤ M) (h12 : M ≤ 12) :
    (decide (asInt32 (sub32 M 2) ≤ 0) = decide (M ≤ 2))
      ∧ (M ≤ 2 → add32 (sub32 M 2) 12 = M + 10)
      ∧ (2 < M → sub32 M 2 = M - 2) := by
  interval_cases M <;> simp [asInt32, sub32, add32, u32]

theorem monthTerm (leap : Bool) :
    ∀ m, m < 12 →
      (m < 2 → 367 * (m + 11) / 12 = monthStart leap m + 336)
        ∧ (2 ≤ m → 367 * (m - 1) / 12 + (if leap then 30 else 29) = monthStart leap m) := by
  cases leap <;> decide

/-- The value of `makeUnixTime` on a valid date is the exact second count, reduced modulo
`2^32` (the only wrap-around is in the final multiplications and additions). -/
theorem makeUnixTime_eq (Y M D h mi s : Nat) (hY : 1970 ≤ Y) (hY2 : Y ≤ 2106)
    (hM1 : 1 ≤ M) (hM12 : M ≤ 12) (hD1 : 1 ≤ D) (hD : D ≤ 31) :
    makeUnixTime Y M D h mi s
      = u32 (secondsOf
          (daysBeforeYear Y + monthStart (isLeapYear (Y : Int)) (M - 1) + (D - 1)) h mi s) := by
  obtain ⟨a1, a2, a3⟩ := mon_adjust M hM1 hM12
  have g := leapsUpTo_ge (Y - 1) (by omega)
  have u := leapsUpTo_le (Y - 1)
  have u2 := leapsUpTo_le Y
  have mt := monthTerm (isLeapYear (Y : Int)) (M - 1) (by omega)
  have ms : monthStart (isLeapYear (Y : Int)) (M - 1) ≤ 335 := by
    have : ∀ leap, ∀ m, m < 12 → monthStart leap m ≤ 335 := by decide
    exact this _ _ (by omega)
  unfold makeUnixTime secondsOf daysBeforeYear
  rw [if_neg (by omega)]
  simp only [a1]
  by_cases hle : M ≤ 2
  · have e1 := a2 hle
    have e2 : sub32 Y 1 = Y - 1 := sub32_of_le (by omega) (by omega)
    have e3 : mul32 367 (M + 10) = 367 * (M + 10) := mul32_of_lt (by omega)
    have e4 : sub32 ((Y - 1) / 4) ((Y - 1) / 100) = (Y - 1) / 4 - (Y - 1) / 100 :=
      sub32_of_le (div100_le_div4 _) (by omega)
    have mt := mt.1 (by omega)
    rw [show M - 1 + 11 = M + 10 by omega] at mt
    simp only [hle, decide_True, if_true, e1, e2, e3, e4]
    unfold leapsUpTo at g u ⊢
    generalize (Y - 1) / 4 - (Y - 1) / 100 = q at *
    generalize (Y - 1) / 400 = q400 at *
    generalize 367 * (M + 10) / 12 = mterm at *
    generalize monthStart (isLeapYear (Y : Int)) (M - 1) = mstart at *
    unfold add32 mul32 sub32 u32
    omega
  · have e1 := a3 (by omega)
    have e3 : mul32 367 (M - 2) = 367 * (M - 2) := mul32_of_lt (by omega)
    have e4 : sub32 (Y / 4) (Y / 100) = Y / 4 - Y / 100 :=
      sub32_of_le (div100_le_div4 _) (by omega)
    have mt := mt.2 (by omega)
    rw [show M - 1 - 1 = M - 2 by omega] at mt
    simp only [hle, decide_False, if_false, e1, e3, e4, Bool.false_eq_true]
    rcases leapsUpTo_step Y (by omega) with ⟨l1, _, l3⟩ | ⟨l1, _, l3⟩
    · rw [l1] at mt ⊢
      simp only [if_true] at mt
      unfold leapsUpTo at g u l3 ⊢
      generalize (Y - 1) / 4 - (Y - 1) / 100 = q at *
      generalize (Y - 1) / 400 = q400 at *
      generalize Y / 4 - Y / 100 = p at *
      generalize Y / 400 = p400 at *
      generalize 367 * (M - 2) / 12 = mterm at *
      generalize monthStart true (M - 1) = mstart at *
      unfold add32 mul32 sub32 u32
      omega
    · rw [l1] at mt ⊢
      simp only [if_false, Bool.false_eq_true] at mt
      unfold leapsUpTo at g u l3 ⊢
      generalize (Y - 1) / 4 - (Y - 1) / 100 = q at *
      generalize (Y - 1) / 400 = q400 at *
      generalize Y / 4 - Y / 100 = p at *
      generalize Y / 400 = p400 at *
      generalize 367 * (M - 2) / 12 = mterm at *
      generalize monthStart false (M - 1) = mstart at *
      unfold add32 mul32 sub32 u32
      omega

/-! ## The two loops of `breakUnixTime` -/

/-- The year loop, started at January 1st of `Y`, stops at the year containing day `time`. -/
theorem yearLoop_spec (fuel : Nat) :
    ∀ Y time, 1970 ≤ Y → daysBeforeYear Y ≤ time → time ≤ 49710 →
      time < daysBeforeYear Y + 365 * fuel →
      ∃ Z, yearLoop fuel Y (daysBeforeYear Y) time = some (Z, daysBeforeYear (Z + 1))
        ∧ Y ≤ Z ∧ daysBeforeYear Z ≤ time ∧ time < daysBeforeYear (Z + 1) := by
  induction fuel with
  | zero => intro Y time _ h1 _ h2; omega
  | succ n ih =>
    intro Y time hY h1 h2 h3
    have hs := daysBeforeYear_succ Y hY
    have hb := yearLength_bounds Y
    have hY2 := year_le_of_days Y hY (by omega)
    have e : add32 (daysBeforeYear Y) (yearLength Y) = daysBeforeYear (Y + 1) := by
      rw [add32_of_lt (by omega), hs]
    unfold yearLoop
    simp only [e]
    by_cases hc : daysBeforeYear (Y + 1) ≤ time
    · rw [if_pos hc]
      have eu : u16 (Y + 1) = Y + 1 := by unfold u16; omega
      rw [eu]
      obtain ⟨Z, z1, z2, z3, z4⟩ := ih (Y + 1) time (by omega) hc h2 (by omega)
      exact ⟨Z, z1, by omega, z3, z4⟩
    · rw [if_neg hc]
      exact ⟨Y, rfl, le_refl _, h1, by omega⟩

/-- The year whose day range contains a given day is unique. -/
theorem year_unique {Y Z n : Nat} (hY : 1970 ≤ Y) (hZ : 1970 ≤ Z)
    (h1 : daysBeforeYear Y ≤ n) (h2 : n < daysBeforeYear (Y + 1))
    (h3 : daysBeforeYear Z ≤ n) (h4 : n < daysBeforeYear (Z + 1)) : Z = Y := by
  rcases Nat.lt_trichotomy Z Y with h | h | h
  · have := daysBeforeYear_mono (a := Z + 1) (b := Y) (by omega) (by omega)
    omega
  · exact h
  · have := daysBeforeYear_mono (a := Y + 1) (b := Z) (by omega) (by omega)
    omega

set_option maxRecDepth 100000 in
/-- The month loop splits a day of the year into month index and day of the month. -/
theorem monthLoop_decode (leap : Bool) :
    ∀ r, r < 366 → (leap = true ∨ r < 365) →
      (monthLoop leap 12 0 r).1 ≤ 11
        ∧ monthStart leap (monthLoop leap 12 0 r).1 + (monthLoop leap 12 0 r).2 = r
        ∧ (monthLoop leap 12 0 r).2 < monthLen leap (monthLoop leap 12 0 r).1 := by
  cases leap <;> decide

set_option maxRecDepth 100000 in
/-- The month loop recovers month index and day of the month from the day of the year. -/
theorem monthLoop_encode (leap : Bool) :
    ∀ m, m < 12 → ∀ d, d < 31 → d < monthLen leap m →
      monthLoop leap 12 0 (monthStart leap m + d) = (m, d) := by
  cases leap <;> decide

theorem monthLen_le (leap : Bool) : ∀ m, m < 12 → monthLen leap m ≤ 31 := by
  cases leap <;> decide

theorem monthStart_add_len (leap : Bool) :
    ∀ m, m < 12 → monthStart leap m + monthLen leap m ≤ (if leap then 366 else 365) := by
  cases leap <;> decide

theorem daysInMonth_eq (Y M : Nat) (hM : 1 ≤ M) :
    daysInMonth Y M = monthLen (isLeapYear (Y : Int)) (M - 1) := by
  unfold daysInMonth monthLen
  have : (M = 2) ↔ (M - 1 = 1) := by omega
  simp only [this]

/-! ## `breakUnixTime` on an exact second count -/

theorem secondsOf_parts (n h mi s : Nat) (hh : h ≤ 23) (hmi : mi ≤ 59) (hs : s ≤ 59) :
    secondsOf n h mi s % 60 = s ∧ secondsOf n h mi s / 60 % 60 = mi
      ∧ secondsOf n h mi s / 60 / 60 % 24 = h ∧ secondsOf n h mi s / 60 / 60 / 24 = n := by
  unfold secondsOf; omega

theorem secondsOf_of_parts (t : Nat) :
    secondsOf (t / 60 / 60 / 24) (t / 60 / 60 % 24) (t / 60 % 60) (t % 60) = t := by
  unfold secondsOf; omega

/-- Every day number of the 32-bit range lies in exactly one month of one year. -/
theorem day_decompose (n : Nat) (hn : n ≤ 49710) :
    ∃ Y m d : Nat, 1970 ≤ Y ∧ m < 12 ∧ d < monthLen (isLeapYear (Y : Int)) m
      ∧ n = daysBeforeYear Y + monthStart (isLeapYear (Y : Int)) m + d := by
  obtain ⟨Z, _, z2, z3, z4⟩ :=
    yearLoop_spec (n + 1) 1970 n (le_refl _) (by rw [daysBeforeYear_1970]; omega) hn
      (by rw [daysBeforeYear_1970]; omega)
  have hs := daysBeforeYear_succ Z z2
  have hr : n - daysBeforeYear Z < 366 := by
    have := yearLength_bounds Z; omega
  have hl : isLeapYear (Z : Int) = true ∨ n - daysBeforeYear Z < 365 := by
    rcases leapsUpTo_step Z (by omega) with ⟨l1, _, _⟩ | ⟨_, l2, _⟩
    · exact Or.inl l1
    · right; omega
  obtain ⟨d1, d2, d3⟩ := monthLoop_decode (isLeapYear (Z : Int)) _ hr hl
  exact ⟨Z, _, _, z2, by omega, d3, by omega⟩

/-- Decomposition of the second count of a date: `breakUnixTime` returns that date. -/
theorem breakUnixTime_secondsOf (Y m d h mi s : Nat) (hY : 1970 ≤ Y) (hm : m < 12)
    (hd : d < monthLen (isLeapYear (Y : Int)) m) (hh : h ≤ 23) (hmi : mi ≤ 59) (hs : s ≤ 59)
    (hfit : secondsOf (daysBeforeYear Y + monthStart (isLeapYear (Y : Int)) m + d) h mi s
      < 4294967296) :
    breakUnixTime
        (secondsOf (daysBeforeYear Y + monthStart (isLeapYear (Y : Int)) m + d) h mi s)
      = some
          { year := (Y : Int)
            month := ((m + 1 : Nat) : Int)
            day := ((d + 1 : Nat) : Int)
            dotw :=
              (((daysBeforeYear Y + monthStart (isLeapYear (Y : Int)) m + d + 4) % 7 : Nat) : Int)
            hour := (h : Int)
            min := (mi : Int)
            sec := (s : Int) } := by
  generalize hN : daysBeforeYear Y + monthStart (isLeapYear (Y : Int)) m + d = n at hfit ⊢
  have hn : n ≤ 49710 := by unfold secondsOf at hfit; omega
  obtain ⟨p1, p2, p3, p4⟩ := secondsOf_parts n h mi s hh hmi hs
  have hlen := monthLen_le (isLeapYear (Y : Int)) m hm
  have hyl : monthStart (isLeapYear (Y : Int)) m + monthLen (isLeapYear (Y : Int)) m
      ≤ yearLength Y := by
    have := monthStart_add_len (isLeapYear (Y : Int)) m hm
    unfold yearLength; exact this
  have hsucc := daysBeforeYear_succ Y hY
  obtain ⟨Z, z1, z2, z3, z4⟩ :=
    yearLoop_spec (n + 1) 1970 n (le_refl _) (by rw [daysBeforeYear_1970]; omega) hn
      (by rw [daysBeforeYear_1970]; omega)
  have hZ : Z = Y := year_unique hY z2 (by omega) (by omega) z3 z4
  subst hZ
  rw [daysBeforeYear_1970] at z1
  have hY2 := year_le_of_days Z hY (by omega)
  have hb := yearLength_bounds Z
  have e1 : sub32 (daysBeforeYear (Z + 1)) (yearLength Z) = daysBeforeYear Z := by
    rw [sub32_of_le (by omega) (by omega)]; omega
  have e2 : sub32 n (daysBeforeYear Z) = monthStart (isLeapYear (Z : Int)) m + d := by
    rw [sub32_of_le (by omega) (by omega)]; omega
  have e3 := monthLoop_encode (isLeapYear (Z : Int)) m hm d (by omega) hd
  unfold breakUnixTime
  simp only [u32_of_lt hfit, p1, p2, p3, p4, z1, e1, e2, e3]
  rw [toInt16_of_lt (by omega), toInt8_of_lt (by omega), toInt8_of_lt (by omega),
    toInt8_of_lt (by omega), toInt8_of_lt (by omega), toInt8_of_lt (by omega),
    toInt8_of_lt (by omega)]

/-! ## The reference day count agrees with the closed form -/

theorem sum_yearLength (n : Nat) :
    ((List.range n).map (fun k => yearLength (1970 + k))).sum = daysBeforeYear (1970 + n) := by
  induction n with
  | zero => simp [daysBeforeYear_1970]
  | succ k ih =>
    rw [List.range_succ, List.map_append, List.sum_append, ih]
    have := daysBeforeYear_succ (1970 + k) (by omega)
    simp only [List.map_cons, List.map_nil, List.sum_cons, List.sum_nil, Nat.add_zero]
    rw [show 1970 + (k + 1) = 1970 + k + 1 by omega]
    omega

theorem sum_monthLen (leap : Bool) :
    ∀ m, m < 12 → ((List.range m).map (monthLen leap)).sum = monthStart leap m := by
  cases leap <;> decide

theorem daysSinceEpoch_eq (Y M D : Nat) (hY : 1970 ≤ Y) (hM1 : 1 ≤ M) (hM12 : M ≤ 12) :
    daysSinceEpoch Y M D
      = daysBeforeYear Y + monthStart (isLeapYear (Y : Int)) (M - 1) + (D - 1) := by
  unfold daysSinceEpoch
  have e : (fun j => daysInMonth Y (j + 1)) = monthLen (isLeapYear (Y : Int)) := by
    funext j
    rw [daysInMonth_eq Y (j + 1) (by omega), Nat.add_sub_cancel]
  rw [e, sum_yearLength, sum_monthLen _ _ (by omega), show 1970 + (Y - 1970) = Y by omega]

/-! ## Claims C1, C2, C3 -/

/-- C1 (as amended): for every valid calendar tuple with year >= 1970 whose number of seconds
since 1970-01-01 00:00:00 is below 2^32 (that is, up to 2106-02-07 06:28:15),
`breakUnixTime` applied to `makeUnixTime` of the tuple returns exactly the same year, month,
day, hour, minute and second. -/
theorem breakUnixTime_makeUnixTime (Y M D h mi s : Nat) (hY : 1970 ≤ Y)
    (hv : validDateTime Y M D h mi s)
    (hfit : 86400 * daysSinceEpoch Y M D + 3600 * h + 60 * mi + s < 2 ^ 32) :
    ∃ tm, breakUnixTime (makeUnixTime Y M D h mi s) = some tm
      ∧ tm.year = (Y : Int) ∧ tm.month = (M : Int) ∧ tm.day = (D : Int)
      ∧ tm.hour = (h : Int) ∧ tm.min = (mi : Int) ∧ tm.sec = (s : Int) := by
  obtain ⟨hM1, hM12, hD1, hD, hh, hmi, hs⟩ := hv
  rw [daysSinceEpoch_eq Y M D hY hM1 hM12] at hfit
  rw [daysInMonth_eq Y M hM1] at hD
  have hlen := monthLen_le (isLeapYear (Y : Int)) (M - 1) (by omega)
  have hY2 : Y ≤ 2106 := year_le_of_days Y hY (by omega)
  have hfit2 : secondsOf
      (daysBeforeYear Y + monthStart (isLeapYear (Y : Int)) (M - 1) + (D - 1)) h mi s
        < 4294967296 := by
    unfold secondsOf; omega
  rw [makeUnixTime_eq Y M D h mi s hY hY2 hM1 hM12 hD1 (by omega), u32_of_lt hfit2,
    breakUnixTime_secondsOf Y (M - 1) (D - 1) h mi s hY (by omega) (by omega) hh hmi hs hfit2]
  refine ⟨_, rfl, rfl, ?_, ?_, rfl, rfl, rfl⟩
  · show ((M - 1 + 1 : Nat) : Int) = (M : Int)
    rw [Nat.sub_add_cancel hM1]
  · show ((D - 1 + 1 : Nat) : Int) = (D : Int)
    rw [Nat.sub_add_cancel hD1]

/-- C1, witness of the amended statement at 2024-02-29 08:34:27. -/
theorem breakUnixTime_makeUnixTime_witness :
    ∃ tm, breakUnixTime (makeUnixTime 2024 2 29 8 34 27) = some tm
      ∧ tm.year = 2024 ∧ tm.month = 2 ∧ tm.day = 29
      ∧ tm.hour = 8 ∧ tm.min = 34 ∧ tm.sec = 27 :=
  breakUnixTime_makeUnixTime 2024 2 29 8 34 27 (by decide) (by decide) (by decide)

/-- C1, counterexample to the claim as stated: 2106-02-07 06:28:16 is a valid calendar
tuple with year >= 1970, its second count is exactly 2^32, so `makeUnixTime` wraps to 0 and
`breakUnixTime` returns 1970-01-01 00:00:00. -/
theorem breakUnixTime_makeUnixTime_overflow :
    1970 ≤ 2106 ∧ validDateTime 2106 2 7 6 28 16
      ∧ makeUnixTime 2106 2 7 6 28 16 = 0
      ∧ breakUnixTime (makeUnixTime 2106 2 7 6 28 16)
          = some
              { year := 1970, month := 1, day := 1, dotw := 4, hour := 0, min := 0, sec := 0 } := by
  decide

/-- C2: for every valid date-time from 1970-01-01 00:00:00 to 2105-12-31 23:59:59,
`makeUnixTime` equals `86400 * N + 3600 * hour + 60 * minute + second` with `N` the number
of days since 1970-01-01 (years of 365 or 366 days by `isLeapYear`, months of 31, 28 or 29,
31, ... days); and the two test values of `timeutiltest` are 1673944467 and 1709195667. -/
theorem makeUnixTime_gregorian (Y M D h mi s : Nat) (hY : 1970 ≤ Y) (hY2 : Y ≤ 2105)
    (hv : validDateTime Y M D h mi s) :
    makeUnixTime Y M D h mi s = 86400 * daysSinceEpoch Y M D + 3600 * h + 60 * mi + s
      ∧ makeUnixTime 2023 1 17 8 34 27 = 1673944467
      ∧ makeUnixTime 2024 2 29 8 34 27 = 1709195667 := by
  refine ⟨?_, by decide, by decide⟩
  obtain ⟨hM1, hM12, hD1, hD, hh, hmi, hs⟩ := hv
  rw [daysSinceEpoch_eq Y M D hY hM1 hM12]
  rw [daysInMonth_eq Y M hM1] at hD
  have hlen := monthLen_le (isLeapYear (Y : Int)) (M - 1) (by omega)
  have hms : monthStart (isLeapYear (Y : Int)) (M - 1)
      + monthLen (isLeapYear (Y : Int)) (M - 1) ≤ yearLength Y := by
    have := monthStart_add_len (isLeapYear (Y : Int)) (M - 1) (by omega)
    unfold yearLength; exact this
  have hsucc := daysBeforeYear_succ Y hY
  have hmono := daysBeforeYear_mono (a := Y + 1) (b := 2106) (by omega) (by omega)
  have h2106 : daysBeforeYear 2106 = 49673 := by
    unfold daysBeforeYear leapsUpTo; norm_num
  rw [makeUnixTime_eq Y M D h mi s hY (by omega) hM1 hM12 hD1 (by omega)]
  rw [u32_of_lt (by unfold secondsOf; omega)]
  unfold secondsOf; omega

/-- C2, witness at the leap day 2024-02-29 08:34:27. -/
theorem makeUnixTime_gregorian_witness :
    makeUnixTime 2024 2 29 8 34 27 = 86400 * daysSinceEpoch 2024 2 29 + 3600 * 8 + 60 * 34 + 27
      ∧ makeUnixTime 2023 1 17 8 34 27 = 1673944467
      ∧ makeUnixTime 2024 2 29 8 34 27 = 1709195667 :=
  makeUnixTime_gregorian 2024 2 29 8 34 27 (by decide) (by decide) (by decide)

/-- C3: for every unsigned 32-bit value `t`, `breakUnixTime t` returns a calendar record,
and `makeUnixTime` of its year, month, day, hour, minute and second is `t` again. -/
theorem makeUnixTime_breakUnixTime (t : Nat) (ht : t < 2 ^ 32) :
    ∃ tm, breakUnixTime t = some tm
      ∧ makeUnixTime (ofInt32 tm.year) (ofInt32 tm.month) (ofInt32 tm.day)
          (ofInt32 tm.hour) (ofInt32 tm.min) (ofInt32 tm.sec) = t := by
  have ht2 : t < 4294967296 := by omega
  have hn : t / 60 / 60 / 24 ≤ 49710 := by omega
  obtain ⟨Y, m, d, hY, hm, hd, hN⟩ := day_decompose _ hn
  have hlen := monthLen_le (isLeapYear (Y : Int)) m hm
  have hY2 : Y ≤ 2106 := year_le_of_days Y hY (by omega)
  have hsec := secondsOf_of_parts t
  rw [hN] at hsec
  have hb := breakUnixTime_secondsOf Y m d (t / 60 / 60 % 24) (t / 60 % 60) (t % 60) hY hm hd
    (by omega) (by omega) (by omega) (by rw [hsec]; exact ht2)
  rw [hsec] at hb
  refine ⟨_, hb, ?_⟩
  simp only []
  rw [ofInt32_natCast (by omega), ofInt32_natCast (by omega), ofInt32_natCast (by omega),
    ofInt32_natCast (by omega), ofInt32_natCast (by omega), ofInt32_natCast (by omega),
    makeUnixTime_eq Y (m + 1) (d + 1) _ _ _ hY hY2 (by omega) (by omega) (by omega) (by omega)]
  simp only [Nat.add_sub_cancel]
  rw [hsec, u32_of_lt ht2]

/-- C3, witness at the largest 32-bit value (2106-02-07 06:28:15). -/
theorem makeUnixTime_breakUnixTime_witness :
    ∃ tm, breakUnixTime 4294967295 = some tm
      ∧ makeUnixTime (ofInt32 tm.year) (ofInt32 tm.month) (ofInt32 tm.day)
          (ofInt32 tm.hour) (ofInt32 tm.min) (ofInt32 tm.sec) = 4294967295 :=
  makeUnixTime_breakUnixTime 4294967295 (by decide)

end TimeUtils


namespace GPS

/-! ## Buffers and C strings -/

theorem cstr_pad (f : List Nat) (n : Nat) :
    Libc.cstr (f ++ List.replicate n 0) = Libc.cstr f := by
  unfold Libc.cstr
  induction f with
  | nil =>
    cases n with
    | zero => rfl
    | succ k => simp [List.replicate_succ]
  | cons a t ih =>
    by_cases h : a = 0
    · simp [h]
    · simp [List.takeWhile_cons, h, ih]

theorem getD_pad (f : List Nat) (n : Nat) :
    (f ++ List.replicate n 0).getD 0 0 = f.getD 0 0 := by
  cases f with
  | nil => cases n <;> simp [List.replicate_succ]
  | cons a t => simp

theorem set_pad (pre : List Nat) (n b : Nat) :
    (pre ++ List.replicate (n + 1) 0).set pre.length b
      = (pre ++ [b]) ++ List.replicate n 0 := by
  induction pre with
  | nil => simp [List.replicate_succ]
  | cons a t ih => simpa using ih

theorem parse_fieldByte (s : GPS) (b : Nat) (hb : fieldByte b) (hp : s._bufferPos < 14) :
    parse s b =
      { s with
        _checksum := if s._skipCheck then s._checksum else (s._checksum ^^^ b) % 256
        _buffer := s._buffer.set s._bufferPos b
        _bufferPos := (s._bufferPos + 1) % 256 } := by
  obtain ⟨_, h1, h2, h3, h4, h5⟩ := hb
  unfold parse
  have : ¬ (s._bufferPos ≥ 14) := by omega
  simp only [this, if_false, h1, h2, h3, h4, h5, or_self]
  cases hs : s._skipCheck <;> simp [hs]

theorem feed_field_aux (f : List Nat) :
    ∀ (pre : List Nat) (s : GPS), s._buffer = pre ++ List.replicate (15 - pre.length) 0 →
      s._bufferPos = pre.length → pre.length + f.length ≤ 14 → (∀ b ∈ f, fieldByte b) →
      feed s f =
        { s with
          _checksum := if s._skipCheck then s._checksum else xorRun s._checksum f
          _buffer := (pre ++ f) ++ List.replicate (15 - (pre.length + f.length)) 0
          _bufferPos := pre.length + f.length } := by
  induction f with
  | nil =>
    intro pre s h1 h2 _ _
    cases s
    simp_all [feed, xorRun]
  | cons b t ih =>
    intro pre s h1 h2 h3 h4
    have hb : fieldByte b := h4 b (by simp)
    have ht : ∀ x ∈ t, fieldByte x := fun x hx => h4 x (by simp [hx])
    simp only [List.length_cons] at h3
    have hstep := parse_fieldByte s b hb (by omega)
    have hset : s._buffer.set s._bufferPos b
        = (pre ++ [b]) ++ List.replicate (15 - (pre ++ [b]).length) 0 := by
      rw [h1, h2, show 15 - pre.length = (14 - pre.length) + 1 by omega, set_pad]
      simp
    have hpos : (s._bufferPos + 1) % 256 = (pre ++ [b]).length := by
      rw [h2]; simp; omega
    rw [show feed s (b :: t) = feed (parse s b) t from rfl, hstep]
    rw [ih (pre ++ [b]) _ (by simpa using hset) (by simpa using hpos) (by simp; omega) ht]
    cases s
    cases hs : ‹Bool›
    all_goals simp_all [xorRun]
    all_goals omega


theorem feed_append (s : GPS) (a b : List Nat) : feed s (a ++ b) = feed (feed s a) b := by
  unfold feed; rw [List.foldl_append]

theorem feed_cons (s : GPS) (a : Nat) (b : List Nat) : feed s (a :: b) = feed (parse s a) b :=
  rfl

theorem feed_nil (s : GPS) : feed s [] = s := rfl

/-- Feeding a field into an empty buffer stores it and folds it into the checksum. -/
theorem feed_field (s : GPS) (f : List Nat) (h1 : s._bufferPos = 0)
    (h2 : s._buffer = emptyBuffer) (hf : wellFormedField f) :
    feed s f =
      { s with
        _checksum := if s._skipCheck then s._checksum else xorRun s._checksum f
        _buffer := f ++ List.replicate (15 - f.length) 0
        _bufferPos := f.length } := by
  have := feed_field_aux f [] s (by simpa [emptyBuffer] using h2) (by simpa using h1)
    (by have := hf.1; simp; omega) hf.2
  simpa using this

theorem parse_comma (s : GPS) (hp : s._bufferPos < 14) :
    parse s 44 = finalizeSentence { s with _checksum := (s._checksum ^^^ 44) % 256 } := by
  unfold parse
  have : ¬ (s._bufferPos ≥ 14) := by omega
  simp [this]

theorem parse_star (s : GPS) (hp : s._bufferPos < 14) :
    parse s 42 = { finalizeSentence s with _skipCheck := true } := by
  unfold parse
  have : ¬ (s._bufferPos ≥ 14) := by omega
  simp [this]

theorem parse_cr (s : GPS) (hp : s._bufferPos < 14) : parse s 13 = finalizeSentence s := by
  unfold parse
  have : ¬ (s._bufferPos ≥ 14) := by omega
  simp [this]

theorem parse_lf (s : GPS) (hp : s._bufferPos < 14) : parse s 10 = finalizeSentence s := by
  unfold parse
  have : ¬ (s._bufferPos ≥ 14) := by omega
  simp [this]

theorem parse_dollar (s : GPS) (hp : s._bufferPos < 14) :
    parse s 36 = { s with _checksum := 0, _bufferPos := 0, _buffer := emptyBuffer } := by
  unfold parse
  have : ¬ (s._bufferPos ≥ 14) := by omega
  simp [this]

/-- A field followed by `,` while a GPRMC sentence is being read. -/
theorem feed_field_comma (s : GPS) (f rest : List Nat) (h1 : s._bufferPos = 0)
    (h2 : s._buffer = emptyBuffer) (h3 : s._skipCheck = false) (hf : wellFormedField f) :
    feed s (f ++ 44 :: rest) =
      feed (finalizeSentence
        { s with
          _checksum := (xorRun s._checksum f ^^^ 44) % 256
          _buffer := f ++ List.replicate (15 - f.length) 0
          _bufferPos := f.length }) rest := by
  rw [feed_append, feed_cons, feed_field s f h1 h2 hf, parse_comma _ (by have := hf.1; simp; omega)]
  simp [h3]

/-- A field followed by `*` while a GPRMC sentence is being read. -/
theorem feed_field_star (s : GPS) (f rest : List Nat) (h1 : s._bufferPos = 0)
    (h2 : s._buffer = emptyBuffer) (h3 : s._skipCheck = false) (hf : wellFormedField f) :
    feed s (f ++ 42 :: rest) =
      feed { finalizeSentence
        { s with
          _checksum := xorRun s._checksum f
          _buffer := f ++ List.replicate (15 - f.length) 0
          _bufferPos := f.length } with _skipCheck := true } rest := by
  rw [feed_append, feed_cons, feed_field s f h1 h2 hf, parse_star _ (by have := hf.1; simp; omega)]
  simp [h3]

/-- The checksum digits followed by CR. -/
theorem feed_field_cr (s : GPS) (f rest : List Nat) (h1 : s._bufferPos = 0)
    (h2 : s._buffer = emptyBuffer) (h3 : s._skipCheck = true) (hf : wellFormedField f) :
    feed s (f ++ 13 :: rest) =
      feed (finalizeSentence
        { s with
          _buffer := f ++ List.replicate (15 - f.length) 0
          _bufferPos := f.length }) rest := by
  rw [feed_append, feed_cons, feed_field s f h1 h2 hf, parse_cr _ (by have := hf.1; simp; omega)]
  simp [h3]



theorem str2Int_pad (f : List Nat) (n : Nat) :
    str2Int (f ++ List.replicate n 0) = str2Int f := by
  unfold str2Int; rw [cstr_pad]

theorem str2Degr_pad (f : List Nat) (n : Nat) :
    str2Degr (f ++ List.replicate n 0) = str2Degr f := by
  unfold str2Degr; rw [cstr_pad]

theorem wellFormedField_tag : wellFormedField [71, 80, 82, 77, 67] := by decide

theorem cstr_tag : Libc.cstr [71, 80, 82, 77, 67] = [71, 80, 82, 77, 67] := by decide

/-- The state after `$GPRMC,f1,...,f12*`: the pending values are those of the fields, the
running checksum covers the bytes between `$` and `*`, the confirmed fix is untouched. -/
theorem feed_rmc_pending (s : GPS) (hs : idle s) (f1 f2 f3 f4 f5 f6 f7 f8 f9 f10 f11 f12 : List Nat)
    (h1 : wellFormedField f1) (h2 : wellFormedField f2) (h3 : wellFormedField f3)
    (h4 : wellFormedField f4) (h5 : wellFormedField f5) (h6 : wellFormedField f6)
    (h7 : wellFormedField f7) (h8 : wellFormedField f8) (h9 : wellFormedField f9)
    (h10 : wellFormedField f10) (h11 : wellFormedField f11) (h12 : wellFormedField f12) :
    feed s (36 :: (rmcBody [f1, f2, f3, f4, f5, f6, f7, f8, f9, f10, f11, f12] ++ [42])) =
      { s with
        _skipCheck := true
        _time := str2Int f1
        _validPosition := (f2.getD 0 0 == 65)
        _latitude := if f4.getD 0 0 = 83 then str2Degr f3 * (-1) else str2Degr f3
        _longitude := if f6.getD 0 0 = 87 then str2Degr f5 * (-1) else str2Degr f5
        _speed := (1852 / 1000 : ℚ) * (str2Int f7 : ℚ) / 100
        _date := TimeUtils.ofInt32 (Libc.atol (Libc.cstr f9))
        _checksum := xorRun 0 (rmcBody [f1, f2, f3, f4, f5, f6, f7, f8, f9, f10, f11, f12])
        _bufferPos := 0
        _buffer := emptyBuffer
        _bufferReq := BufferContent.CheckSum
        _sentType := Sentence.GPRMC } := by
  obtain ⟨i1, i2, i3⟩ := hs
  cases s
  simp only at i1 i2 i3
  subst i1 i2 i3
  have e : 36 :: (rmcBody [f1, f2, f3, f4, f5, f6, f7, f8, f9, f10, f11, f12] ++ [42])
      = 36 :: ([71, 80, 82, 77, 67] ++ 44 :: (f1 ++ 44 :: (f2 ++ 44 :: (f3 ++ 44 :: (f4 ++ 44 ::
          (f5 ++ 44 :: (f6 ++ 44 :: (f7 ++ 44 :: (f8 ++ 44 :: (f9 ++ 44 :: (f10 ++ 44 ::
          (f11 ++ 44 :: (f12 ++ 42 :: []))))))))))))) := by
    simp [rmcBody]
  have ec : xorRun 0 (rmcBody [f1, f2, f3, f4, f5, f6, f7, f8, f9, f10, f11, f12])
      = xorRun ((xorRun ((xorRun ((xorRun ((xorRun ((xorRun ((xorRun ((xorRun ((xorRun
          ((xorRun ((xorRun ((xorRun ((xorRun 0 [71, 80, 82, 77, 67] ^^^ 44) % 256) f1 ^^^ 44) % 256)
          f2 ^^^ 44) % 256) f3 ^^^ 44) % 256) f4 ^^^ 44) % 256) f5 ^^^ 44) % 256) f6 ^^^ 44) % 256)
          f7 ^^^ 44) % 256) f8 ^^^ 44) % 256) f9 ^^^ 44) % 256) f10 ^^^ 44) % 256) f11 ^^^ 44) % 256)
          f12 := by
    simp [rmcBody, xorRun, List.foldl_append]
  rw [e, ec, feed_cons, parse_dollar _ (by simp)]
  rw [feed_field_comma _ _ _ rfl rfl rfl wellFormedField_tag]
  simp only [finalizeSentence, cstr_pad, cstr_tag, if_true, resetContnet]
  rw [feed_field_comma _ _ _ rfl rfl rfl h1]
  simp only [finalizeSentence, process, resetContnet, str2Int_pad]
  rw [feed_field_comma _ _ _ rfl rfl rfl h2]
  simp only [finalizeSentence, process, resetContnet, getD_pad]
  rw [feed_field_comma _ _ _ rfl rfl rfl h3]
  simp only [finalizeSentence, process, resetContnet, str2Degr_pad]
  rw [feed_field_comma _ _ _ rfl rfl rfl h4]
  simp only [finalizeSentence, process, resetContnet, getD_pad]
  rw [feed_field_comma _ _ _ rfl rfl rfl h5]
  simp only [finalizeSentence, process, resetContnet, str2Degr_pad]
  rw [feed_field_comma _ _ _ rfl rfl rfl h6]
  simp only [finalizeSentence, process, resetContnet, getD_pad]
  rw [feed_field_comma _ _ _ rfl rfl rfl h7]
  simp only [finalizeSentence, process, resetContnet, str2Int_pad]
  rw [feed_field_comma _ _ _ rfl rfl rfl h8]
  simp only [finalizeSentence, process, resetContnet, cstr_pad]
  rw [feed_field_comma _ _ _ rfl rfl rfl h9]
  simp only [finalizeSentence, process, resetContnet, cstr_pad]
  rw [feed_field_comma _ _ _ rfl rfl rfl h10]
  simp only [finalizeSentence, process, resetContnet]
  rw [feed_field_comma _ _ _ rfl rfl rfl h11]
  simp only [finalizeSentence, process, resetContnet]
  rw [feed_field_star _ _ _ rfl rfl rfl h12]
  simp only [finalizeSentence, process, resetContnet, feed_nil]



/-! ## Checksums -/

theorem xorRun_eq_foldl (bs : List Nat) :
    ∀ c, c < 256 → (∀ b ∈ bs, b < 256) →
      xorRun c bs = bs.foldl (fun c b => c ^^^ b) c ∧ xorRun c bs < 256 := by
  induction bs with
  | nil => intro c hc _; exact ⟨rfl, hc⟩
  | cons a t ih =>
    intro c hc hb
    have ha : a < 256 := hb a (by simp)
    have hx : c ^^^ a < 256 := Nat.xor_lt_two_pow (n := 8) hc ha
    have hm : (c ^^^ a) % 256 = c ^^^ a := Nat.mod_eq_of_lt hx
    have := ih (c ^^^ a) hx (fun b h => hb b (by simp [h]))
    simp only [xorRun, List.foldl_cons, hm] at this ⊢
    exact this

theorem rmcBody_lt (fs : List (List Nat)) (hf : ∀ f ∈ fs, wellFormedField f) :
    ∀ b ∈ rmcBody fs, b < 256 := by
  intro b hb
  unfold rmcBody at hb
  rw [List.mem_append] at hb
  rcases hb with h | h
  · have : ∀ x ∈ [71, 80, 82, 77, 67], x < 256 := by decide
    exact this b h
  · rw [List.mem_flatten] at h
    obtain ⟨l, hl, hbl⟩ := h
    rw [List.mem_map] at hl
    obtain ⟨f, hfm, rfl⟩ := hl
    rw [List.mem_cons] at hbl
    rcases hbl with rfl | h2
    · omega
    · exact ((hf f hfm).2 b h2).1

theorem xorRun_rmcBody (fs : List (List Nat)) (hf : ∀ f ∈ fs, wellFormedField f) :
    xorRun 0 (rmcBody fs) = xorAll (rmcBody fs) ∧ xorAll (rmcBody fs) < 256 := by
  have := xorRun_eq_foldl (rmcBody fs) 0 (by omega) (rmcBody_lt fs hf)
  unfold xorAll
  rw [← this.1]
  exact ⟨rfl, this.2⟩

/-! ## Two hexadecimal digits -/

theorem digitVal16_range {h v : Nat} (d : Libc.digitVal 16 h = some v) :
    (48 ≤ h ∧ h ≤ 57 ∧ v = h - 48) ∨ (65 ≤ h ∧ h ≤ 70 ∧ v = h - 55)
      ∨ (97 ≤ h ∧ h ≤ 102 ∧ v = h - 87) := by
  unfold Libc.digitVal at d
  simp only at d
  split_ifs at d <;> simp at d <;> omega

theorem hexDigit_facts {h v : Nat} (d : Libc.digitVal 16 h = some v) :
    fieldByte h ∧ Libc.isspace h = false ∧ h ≠ 45 ∧ h ≠ 43 ∧ h ≠ 120 ∧ h ≠ 88 ∧ h ≠ 0
      ∧ v < 16 := by
  have r := digitVal16_range d
  refine ⟨?_, ?_, ?_, ?_, ?_, ?_, ?_, ?_⟩
  · unfold fieldByte; omega
  · unfold Libc.isspace
    simp only [Bool.or_eq_false_iff, Bool.and_eq_false_iff, beq_eq_false_iff_ne,
      decide_eq_false_iff_not]
    omega
  all_goals omega

theorem strtol_hex2 {h1 h2 v1 v2 : Nat} (d1 : Libc.digitVal 16 h1 = some v1)
    (d2 : Libc.digitVal 16 h2 = some v2) (n : Nat) :
    Libc.strtol (Libc.cstr ([h1, h2] ++ List.replicate n 0)) 16 = ((16 * v1 + v2 : Nat) : Int) := by
  obtain ⟨_, a2, a3, a4, _, _, a7, a8⟩ := hexDigit_facts d1
  obtain ⟨_, _, _, _, b5, b6, b7, b8⟩ := hexDigit_facts d2
  have e : Libc.cstr ([h1, h2] ++ List.replicate n 0) = [h1, h2] := by
    rw [cstr_pad]; simp [Libc.cstr, a7, b7]
  rw [e]
  unfold Libc.strtol
  have e1 : List.dropWhile Libc.isspace [h1, h2] = [h1, h2] := by
    simp [List.dropWhile, a2]
  have e2 : Libc.splitSign [h1, h2] = (false, [h1, h2]) := by
    simp [Libc.splitSign, a3, a4]
  have e3 : Libc.skipHexLead 16 [h1, h2] = [h1, h2] := by
    simp [Libc.skipHexLead, b5, b6]
  have e4 : List.takeWhile (fun c => (Libc.digitVal 16 c).isSome) [h1, h2] = [h1, h2] := by
    simp [List.takeWhile, d1, d2]
  simp only [e1, e2, e3, e4]
  simp only [List.map, d1, d2, Option.getD_some, Libc.digitsVal, List.foldl]
  have : ¬ (((0 * 16 + v1) * 16 + v2) > 2147483647) := by omega
  simp only [Bool.false_eq_true, if_false, this]
  congr 1
  omega

theorem wellFormedField_hex2 {h1 h2 v1 v2 : Nat} (d1 : Libc.digitVal 16 h1 = some v1)
    (d2 : Libc.digitVal 16 h2 = some v2) : wellFormedField [h1, h2] := by
  refine ⟨by simp, ?_⟩
  intro b hb
  simp only [List.mem_cons, List.mem_singleton, List.not_mem_nil, or_false] at hb
  rcases hb with rfl | rfl
  · exact (hexDigit_facts d1).1
  · exact (hexDigit_facts d2).1



/-! ## A complete sentence -/

theorem invalidContnet_idem (s : GPS) : invalidContnet (invalidContnet s) = invalidContnet s :=
  rfl

theorem parse_lf_invalid (s : GPS) : parse (invalidContnet s) 10 = invalidContnet s := by
  rw [parse_lf _ (by simp [invalidContnet])]
  have : Libc.cstr emptyBuffer ≠ [71, 80, 82, 77, 67] := by decide
  simp only [finalizeSentence, invalidContnet, this, if_false]

/-- Feeding `$GPRMC,f1,...,f12*hh` and CR from an idle state runs `process` once in the
`CheckSum` state, on the pending values of the sentence. -/
theorem feed_rmc_cr (s : GPS) (hs : idle s) (f1 f2 f3 f4 f5 f6 f7 f8 f9 f10 f11 f12 : List Nat)
    (h1 : wellFormedField f1)
    (h2 : wellFormedField f2)
    (h3 : wellFormedField f3)
    (h4 : wellFormedField f4)
    (h5 : wellFormedField f5)
    (h6 : wellFormedField f6)
    (h7 : wellFormedField f7)
    (h8 : wellFormedField f8)
    (h9 : wellFormedField f9)
    (h10 : wellFormedField f10)
    (h11 : wellFormedField f11)
    (h12 : wellFormedField f12)
    (d1 d2 v1 v2 : Nat) (e1 : Libc.digitVal 16 d1 = some v1)
    (e2 : Libc.digitVal 16 d2 = some v2) (rest : List Nat) :
    feed s (rmcSentence [f1, f2, f3, f4, f5, f6, f7, f8, f9, f10, f11, f12] [d1, d2] ++ 13 :: rest)
      = feed (process (pendingState s f1 f2 f3 f4 f5 f6 f7 f8 f9 f10 f11 f12 d1 d2)) rest := by
  have hall : ∀ f ∈ [f1, f2, f3, f4, f5, f6, f7, f8, f9, f10, f11, f12], wellFormedField f := by
    intro f hf
    simp only [List.mem_cons, List.mem_singleton, List.not_mem_nil, or_false] at hf
    rcases hf with rfl | rfl | rfl | rfl | rfl | rfl | rfl | rfl | rfl | rfl | rfl | rfl <;>
      assumption
  have e : rmcSentence [f1, f2, f3, f4, f5, f6, f7, f8, f9, f10, f11, f12] [d1, d2] ++ 13 :: rest
      = (36 :: (rmcBody [f1, f2, f3, f4, f5, f6, f7, f8, f9, f10, f11, f12] ++ [42])) ++ ([d1, d2] ++ 13 :: rest) := by
    simp [rmcSentence]
  rw [e, feed_append, feed_rmc_pending s hs f1 f2 f3 f4 f5 f6 f7 f8 f9 f10 f11 f12 h1 h2 h3 h4 h5 h6 h7 h8 h9 h10 h11 h12, (xorRun_rmcBody _ hall).1,
    feed_field_cr _ _ _ rfl rfl rfl (wellFormedField_hex2 e1 e2)]
  simp only [finalizeSentence, pendingState, List.length_cons, List.length_nil]

/-- Checksum equal: the pending values are committed, then the parser returns to idle. -/
theorem process_pending_ok (s : GPS) (f1 f2 f3 f4 f5 f6 f7 f8 f9 f10 f11 f12 : List Nat) (d1 d2 v1 v2 : Nat)
    (e1 : Libc.digitVal 16 d1 = some v1) (e2 : Libc.digitVal 16 d2 = some v2)
    (hx : 16 * v1 + v2 = xorAll (rmcBody [f1, f2, f3, f4, f5, f6, f7, f8, f9, f10, f11, f12])) :
    process (pendingState s f1 f2 f3 f4 f5 f6 f7 f8 f9 f10 f11 f12 d1 d2) =
      invalidContnet
        { s with
          _fxtime := str2Int f1
          _fxdate := TimeUtils.ofInt32 (Libc.atol (Libc.cstr f9))
          _fxspeed := if f2.getD 0 0 = 65 then (1852 / 1000 : ℚ) * (str2Int f7 : ℚ) / 100 else 0
          _fxlatitude :=
            if f2.getD 0 0 = 65 then
              (if f4.getD 0 0 = 83 then str2Degr f3 * (-1) else str2Degr f3)
            else 0
          _fxlongitude :=
            if f2.getD 0 0 = 65 then
              (if f6.getD 0 0 = 87 then str2Degr f5 * (-1) else str2Degr f5)
            else 0
          _validPosition := (f2.getD 0 0 == 65)
          _validDateTime := true
          _bufferReq := BufferContent.CheckSum } := by
  have hh := strtol_hex2 e1 e2 13
  rw [hx] at hh
  simp only [process, pendingState]
  rw [if_pos hh]
  by_cases hA : f2.getD 0 0 = 65
  · simp only [hA, beq_self_eq_true, if_true, invalidContnet, ↓reduceIte]
  · have hb : (f2.getD 0 0 == 65) = false := beq_false_of_ne hA
    simp only [hb, if_neg hA, if_false, invalidContnet, resetPosition, Bool.false_eq_true,
      ↓reduceIte]

/-- Checksum different: nothing is committed, the parser returns to idle. -/
theorem process_pending_bad (s : GPS) (f1 f2 f3 f4 f5 f6 f7 f8 f9 f10 f11 f12 : List Nat) (d1 d2 v1 v2 : Nat)
    (e1 : Libc.digitVal 16 d1 = some v1) (e2 : Libc.digitVal 16 d2 = some v2)
    (hx : 16 * v1 + v2 ≠ xorAll (rmcBody [f1, f2, f3, f4, f5, f6, f7, f8, f9, f10, f11, f12])) :
    process (pendingState s f1 f2 f3 f4 f5 f6 f7 f8 f9 f10 f11 f12 d1 d2) =
      invalidContnet
        { s with
          _validPosition := (f2.getD 0 0 == 65)
          _bufferReq := BufferContent.CheckSum } := by
  have hh := strtol_hex2 e1 e2 13
  have hne : ((16 * v1 + v2 : Nat) : Int) ≠ ((xorAll (rmcBody [f1, f2, f3, f4, f5, f6, f7, f8, f9, f10, f11, f12]) : Nat) : Int) := by
    intro h; exact hx (by exact_mod_cast h)
  simp only [process, pendingState]
  rw [hh, if_neg hne]
  simp only [invalidContnet]

theorem list_length_12 {α : Type} (l : List α) (h : l.length = 12) :
    ∃ a1 a2 a3 a4 a5 a6 a7 a8 a9 a10 a11 a12, l = [a1, a2, a3, a4, a5, a6, a7, a8, a9, a10, a11, a12] := by
  match l, h with
  | [a1, a2, a3, a4, a5, a6, a7, a8, a9, a10, a11, a12], _ =>
    exact ⟨a1, a2, a3, a4, a5, a6, a7, a8, a9, a10, a11, a12, rfl⟩


/-! ## Decimal digit strings -/

theorem digitsVal_foldl_lt (ds : List Nat) (hd : ∀ d ∈ ds, d < 10) :
    ∀ acc k, acc < 10 ^ k → ds.foldl (fun a d => a * 10 + d) acc < 10 ^ (k + ds.length) := by
  induction ds with
  | nil => intro acc k h; simpa using h
  | cons a t ih =>
    intro acc k h
    have ha : a < 10 := hd a (by simp)
    have h2 : acc * 10 + a < 10 ^ (k + 1) := by
      rw [pow_succ]; omega
    have := ih (fun d hd2 => hd d (by simp [hd2])) (acc * 10 + a) (k + 1) h2
    simp only [List.foldl_cons, List.length_cons]
    rw [show k + (t.length + 1) = k + 1 + t.length by omega]
    exact this

theorem isdigit_iff (c : Nat) : Libc.isdigit c = true ↔ 48 ≤ c ∧ c ≤ 57 := by
  unfold Libc.isdigit; simp

/-- On a string of at most nine decimal digits `atol` returns its decimal value. -/
theorem atol_digits (f : List Nat) (hd : ∀ b ∈ f, Libc.isdigit b = true) (hl : f.length ≤ 9) :
    TimeUtils.ofInt32 (Libc.atol (Libc.cstr f)) = Libc.digitsVal 10 (f.map (fun c => c - 48)) := by
  have hr : ∀ b ∈ f, 48 ≤ b ∧ b ≤ 57 := fun b hb => (isdigit_iff b).1 (hd b hb)
  have e0 : Libc.cstr f = f := by
    unfold Libc.cstr
    rw [List.takeWhile_eq_self_iff]
    intro b hb
    have := hr b hb
    simp; omega
  have e1 : f.dropWhile Libc.isspace = f := by
    cases f with
    | nil => rfl
    | cons a t =>
      have := hr a (by simp)
      have hs : Libc.isspace a = false := by
        unfold Libc.isspace
        simp only [Bool.or_eq_false_iff, Bool.and_eq_false_iff, beq_eq_false_iff_ne,
          decide_eq_false_iff_not]
        omega
      simp [List.dropWhile, hs]
  have e2 : Libc.splitSign f = (false, f) := by
    cases f with
    | nil => rfl
    | cons a t =>
      have := hr a (by simp)
      have h45 : a ≠ 45 := by omega
      have h43 : a ≠ 43 := by omega
      simp [Libc.splitSign, h45, h43]
  have e3 : Libc.skipHexLead 10 f = f := by
    unfold Libc.skipHexLead
    split
    · simp
    · rfl
  have hdv : ∀ b ∈ f, Libc.digitVal 10 b = some (b - 48) := by
    intro b hb
    have := hr b hb
    unfold Libc.digitVal
    have c1 : 48 ≤ b ∧ b ≤ 57 := this
    simp only [c1, and_self, if_true]
    rw [if_pos (by omega)]
  have e4 : f.takeWhile (fun c => (Libc.digitVal 10 c).isSome) = f := by
    rw [List.takeWhile_eq_self_iff]
    intro b hb
    simp [hdv b hb]
  have e5 : f.map (fun c => (Libc.digitVal 10 c).getD 0) = f.map (fun c => c - 48) := by
    apply List.map_congr_left
    intro b hb
    simp [hdv b hb]
  have hlt : Libc.digitsVal 10 (f.map (fun c => c - 48)) < 10 ^ (0 + (f.map (fun c => c - 48)).length) := by
    unfold Libc.digitsVal
    apply digitsVal_foldl_lt _ _ 0 0 (by norm_num)
    intro d hd2
    rw [List.mem_map] at hd2
    obtain ⟨b, hb, rfl⟩ := hd2
    have := hr b hb
    omega
  have hlt2 : Libc.digitsVal 10 (f.map (fun c => c - 48)) < 1000000000 := by
    have hp : (10 : Nat) ^ (0 + (f.map (fun c => c - 48)).length) ≤ 10 ^ 9 :=
      Nat.pow_le_pow_right (by norm_num) (by simp; exact hl)
    have : (10 : Nat) ^ 9 = 1000000000 := by norm_num
    omega
  unfold Libc.atol Libc.strtol
  simp only [e0, e1, e2, e3, e4, e5]
  have hc : ¬ (Libc.digitsVal 10 (f.map (fun c => c - 48)) > 2147483647) := by omega
  simp only [Bool.false_eq_true, if_false, hc]
  exact TimeUtils.ofInt32_natCast (by omega)

/-- On a string of decimal digits `atol` returns its decimal value, or `LONG_MAX` of the
32-bit `long` when that value is larger. -/
theorem atol_digits_clamped (f : List Nat) (hd : ∀ b ∈ f, Libc.isdigit b = true) :
    TimeUtils.ofInt32 (Libc.atol (Libc.cstr f))
      = min (Libc.digitsVal 10 (f.map (fun c => c - 48))) 2147483647 := by
  have hr : ∀ b ∈ f, 48 ≤ b ∧ b ≤ 57 := fun b hb => (isdigit_iff b).1 (hd b hb)
  have e0 : Libc.cstr f = f := by
    unfold Libc.cstr
    rw [List.takeWhile_eq_self_iff]
    intro b hb
    have := hr b hb
    simp; omega
  have e1 : f.dropWhile Libc.isspace = f := by
    cases f with
    | nil => rfl
    | cons a t =>
      have := hr a (by simp)
      have hs : Libc.isspace a = false := by
        unfold Libc.isspace
        simp only [Bool.or_eq_false_iff, Bool.and_eq_false_iff, beq_eq_false_iff_ne,
          decide_eq_false_iff_not]
        omega
      simp [List.dropWhile, hs]
  have e2 : Libc.splitSign f = (false, f) := by
    cases f with
    | nil => rfl
    | cons a t =>
      have := hr a (by simp)
      have h45 : a ≠ 45 := by omega
      have h43 : a ≠ 43 := by omega
      simp [Libc.splitSign, h45, h43]
  have e3 : Libc.skipHexLead 10 f = f := by
    unfold Libc.skipHexLead
    split
    · simp
    · rfl
  have hdv : ∀ b ∈ f, Libc.digitVal 10 b = some (b - 48) := by
    intro b hb
    have := hr b hb
    unfold Libc.digitVal
    have c1 : 48 ≤ b ∧ b ≤ 57 := this
    simp only [c1, and_self, if_true]
    rw [if_pos (by omega)]
  have e4 : f.takeWhile (fun c => (Libc.digitVal 10 c).isSome) = f := by
    rw [List.takeWhile_eq_self_iff]
    intro b hb
    simp [hdv b hb]
  have e5 : f.map (fun c => (Libc.digitVal 10 c).getD 0) = f.map (fun c => c - 48) := by
    apply List.map_congr_left
    intro b hb
    simp [hdv b hb]
  unfold Libc.atol Libc.strtol
  simp only [e0, e1, e2, e3, e4, e5]
  simp only [Bool.false_eq_true, if_false]
  by_cases hc : Libc.digitsVal 10 (f.map (fun c => c - 48)) > 2147483647
  · rw [if_pos hc, Nat.min_eq_right (by omega)]
    exact TimeUtils.ofInt32_natCast (n := 2147483647) (by omega)
  · rw [if_neg hc, Nat.min_eq_left (by omega)]
    exact TimeUtils.ofInt32_natCast (by omega)


/-! ## Outcome of a complete 12-field sentence -/

theorem feed_rmc_ok_cr (s : GPS) (hs : idle s) (f1 f2 f3 f4 f5 f6 f7 f8 f9 f10 f11 f12 : List Nat)
    (h1 : wellFormedField f1)
    (h2 : wellFormedField f2)
    (h3 : wellFormedField f3)
    (h4 : wellFormedField f4)
    (h5 : wellFormedField f5)
    (h6 : wellFormedField f6)
    (h7 : wellFormedField f7)
    (h8 : wellFormedField f8)
    (h9 : wellFormedField f9)
    (h10 : wellFormedField f10)
    (h11 : wellFormedField f11)
    (h12 : wellFormedField f12)
    (d1 d2 v1 v2 : Nat) (e1 : Libc.digitVal 16 d1 = some v1)
    (e2 : Libc.digitVal 16 d2 = some v2)
    (hx : 16 * v1 + v2 = xorAll (rmcBody [f1, f2, f3, f4, f5, f6, f7, f8, f9, f10, f11, f12])) :
    feed s (rmcSentence [f1, f2, f3, f4, f5, f6, f7, f8, f9, f10, f11, f12] [d1, d2] ++ [13]) =
      invalidContnet
        { s with
          _fxtime := str2Int f1
          _fxdate := TimeUtils.ofInt32 (Libc.atol (Libc.cstr f9))
          _fxspeed := if f2.getD 0 0 = 65 then (1852 / 1000 : ℚ) * (str2Int f7 : ℚ) / 100 else 0
          _fxlatitude :=
            if f2.getD 0 0 = 65 then
              (if f4.getD 0 0 = 83 then str2Degr f3 * (-1) else str2Degr f3)
            else 0
          _fxlongitude :=
            if f2.getD 0 0 = 65 then
              (if f6.getD 0 0 = 87 then str2Degr f5 * (-1) else str2Degr f5)
            else 0
          _validPosition := (f2.getD 0 0 == 65)
          _validDateTime := true
          _bufferReq := BufferContent.CheckSum } := by
  rw [feed_rmc_cr s hs f1 f2 f3 f4 f5 f6 f7 f8 f9 f10 f11 f12 h1 h2 h3 h4 h5 h6 h7 h8 h9 h10 h11 h12 d1 d2 v1 v2 e1 e2 [], feed_nil,
    process_pending_ok s f1 f2 f3 f4 f5 f6 f7 f8 f9 f10 f11 f12 d1 d2 v1 v2 e1 e2 hx]

theorem feed_rmc_ok (s : GPS) (hs : idle s) (f1 f2 f3 f4 f5 f6 f7 f8 f9 f10 f11 f12 : List Nat)
    (h1 : wellFormedField f1)
    (h2 : wellFormedField f2)
    (h3 : wellFormedField f3)
    (h4 : wellFormedField f4)
    (h5 : wellFormedField f5)
    (h6 : wellFormedField f6)
    (h7 : wellFormedField f7)
    (h8 : wellFormedField f8)
    (h9 : wellFormedField f9)
    (h10 : wellFormedField f10)
    (h11 : wellFormedField f11)
    (h12 : wellFormedField f12)
    (d1 d2 v1 v2 : Nat) (e1 : Libc.digitVal 16 d1 = some v1)
    (e2 : Libc.digitVal 16 d2 = some v2)
    (hx : 16 * v1 + v2 = xorAll (rmcBody [f1, f2, f3, f4, f5, f6, f7, f8, f9, f10, f11, f12])) :
    feed s (rmcSentence [f1, f2, f3, f4, f5, f6, f7, f8, f9, f10, f11, f12] [d1, d2] ++ [13, 10]) =
      invalidContnet
        { s with
          _fxtime := str2Int f1
          _fxdate := TimeUtils.ofInt32 (Libc.atol (Libc.cstr f9))
          _fxspeed := if f2.getD 0 0 = 65 then (1852 / 1000 : ℚ) * (str2Int f7 : ℚ) / 100 else 0
          _fxlatitude :=
            if f2.getD 0 0 = 65 then
              (if f4.getD 0 0 = 83 then str2Degr f3 * (-1) else str2Degr f3)
            else 0
          _fxlongitude :=
            if f2.getD 0 0 = 65 then
              (if f6.getD 0 0 = 87 then str2Degr f5 * (-1) else str2Degr f5)
            else 0
          _validPosition := (f2.getD 0 0 == 65)
          _validDateTime := true
          _bufferReq := BufferContent.CheckSum } := by
  rw [feed_rmc_cr s hs f1 f2 f3 f4 f5 f6 f7 f8 f9 f10 f11 f12 h1 h2 h3 h4 h5 h6 h7 h8 h9 h10 h11 h12 d1 d2 v1 v2 e1 e2 [10], feed_cons, feed_nil,
    process_pending_ok s f1 f2 f3 f4 f5 f6 f7 f8 f9 f10 f11 f12 d1 d2 v1 v2 e1 e2 hx, parse_lf_invalid]

theorem feed_rmc_bad (s : GPS) (hs : idle s) (f1 f2 f3 f4 f5 f6 f7 f8 f9 f10 f11 f12 : List Nat)
    (h1 : wellFormedField f1)
    (h2 : wellFormedField f2)
    (h3 : wellFormedField f3)
    (h4 : wellFormedField f4)
    (h5 : wellFormedField f5)
    (h6 : wellFormedField f6)
    (h7 : wellFormedField f7)
    (h8 : wellFormedField f8)
    (h9 : wellFormedField f9)
    (h10 : wellFormedField f10)
    (h11 : wellFormedField f11)
    (h12 : wellFormedField f12)
    (d1 d2 v1 v2 : Nat) (e1 : Libc.digitVal 16 d1 = some v1)
    (e2 : Libc.digitVal 16 d2 = some v2)
    (hx : 16 * v1 + v2 ≠ xorAll (rmcBody [f1, f2, f3, f4, f5, f6, f7, f8, f9, f10, f11, f12])) :
    feed s (rmcSentence [f1, f2, f3, f4, f5, f6, f7, f8, f9, f10, f11, f12] [d1, d2] ++ [13, 10]) =
      invalidContnet
        { s with
          _validPosition := (f2.getD 0 0 == 65)
          _bufferReq := BufferContent.CheckSum } := by
  rw [feed_rmc_cr s hs f1 f2 f3 f4 f5 f6 f7 f8 f9 f10 f11 f12 h1 h2 h3 h4 h5 h6 h7 h8 h9 h10 h11 h12 d1 d2 v1 v2 e1 e2 [10], feed_cons, feed_nil,
    process_pending_bad s f1 f2 f3 f4 f5 f6 f7 f8 f9 f10 f11 f12 d1 d2 v1 v2 e1 e2 hx, parse_lf_invalid]


/-! ## Evaluation of the sample position fields -/

theorem atofParts_lat :
    Libc.atofParts (Libc.cstr (ascii "5133.82")) = (false, 513382, 2, 0) := by decide

theorem atofParts_lon :
    Libc.atofParts (Libc.cstr (ascii "00042.24")) = (false, 4224, 2, 0) := by decide

theorem str2Degr_lat : str2Degr (ascii "5133.82") = 51 + (3382 / 100 : ℚ) / 60 := by
  unfold str2Degr Libc.atof
  rw [atofParts_lat]
  have hf : Int.floor ((513382 : ℚ) / 10 ^ 2 * 10 ^ (0 : Int) / 100) = 51 := by
    rw [Int.floor_eq_iff]; constructor <;> norm_num
  simp only [Bool.false_eq_true, if_false, Nat.cast_ofNat]
  rw [hf]
  norm_num

theorem str2Degr_lon : str2Degr (ascii "00042.24") = (4224 / 100 : ℚ) / 60 := by
  unfold str2Degr Libc.atof
  rw [atofParts_lon]
  have hf : Int.floor ((4224 : ℚ) / 10 ^ 2 * 10 ^ (0 : Int) / 100) = 0 := by
    rw [Int.floor_eq_iff]; constructor <;> norm_num
  simp only [Bool.false_eq_true, if_false, Nat.cast_ofNat]
  rw [hf]
  norm_num

theorem str2Int_speed : str2Int (ascii "173.8") = 17380 := by decide

theorem idle_init_ctor : idle (init ctor) := by decide

/-! ## Claims C5 to C8 and C10 -/

set_option maxRecDepth 100000 in
/-- C5 (as amended): for every sentence `$GPRMC,f1,...,f12*HH` followed by CR, with twelve fields of at
most 13 bytes free of `$`, `,`, `*`, CR and LF, and `HH` two hexadecimal digits whose value
is the XOR of the bytes strictly between `$` and `*`: a freshly initialised parser ends
with `isValidTime() = true`, confirmed time `str2Int(f1)`, confirmed date
`(uint32_t)atol(f9)`, which for a field `f9` of decimal digits is its decimal value when
that is at most 2147483647 and 2147483647 otherwise, and back in the UNKNOWN state. The
sentence `$GPRMC,050251.00,V,,,,,,,201222,,,N*7F` of `gps.h` gives hour 5, minute 2,
second 51, day 20, month 12, year 2022. -/
theorem rmc_commit_fresh (fs : List (List Nat)) (d1 d2 v1 v2 : Nat) (hlen : fs.length = 12)
    (hwf : ∀ f ∈ fs, wellFormedField f) (e1 : Libc.digitVal 16 d1 = some v1)
    (e2 : Libc.digitVal 16 d2 = some v2) (hx : 16 * v1 + v2 = xorAll (rmcBody fs)) :
    (feed (init ctor) (rmcSentence fs [d1, d2] ++ [13])).isValidTime = true
      ∧ (feed (init ctor) (rmcSentence fs [d1, d2] ++ [13]))._fxtime = str2Int (fs.getD 0 [])
      ∧ (feed (init ctor) (rmcSentence fs [d1, d2] ++ [13]))._fxdate
          = TimeUtils.ofInt32 (Libc.atol (Libc.cstr (fs.getD 8 [])))
      ∧ ((∀ b ∈ fs.getD 8 [], Libc.isdigit b = true) →
          (feed (init ctor) (rmcSentence fs [d1, d2] ++ [13]))._fxdate
            = min (Libc.digitsVal 10 ((fs.getD 8 []).map (fun c => c - 48))) 2147483647)
      ∧ (feed (init ctor) (rmcSentence fs [d1, d2] ++ [13]))._sentType = Sentence.UNKNOWN
      ∧ (feed (init ctor) (ascii "$GPRMC,050251.00,V,,,,,,,201222,,,N*7F" ++ [13])).hour = 5
      ∧ (feed (init ctor) (ascii "$GPRMC,050251.00,V,,,,,,,201222,,,N*7F" ++ [13])).minute = 2
      ∧ (feed (init ctor) (ascii "$GPRMC,050251.00,V,,,,,,,201222,,,N*7F" ++ [13])).second = 51
      ∧ (feed (init ctor) (ascii "$GPRMC,050251.00,V,,,,,,,201222,,,N*7F" ++ [13])).day = 20
      ∧ (feed (init ctor) (ascii "$GPRMC,050251.00,V,,,,,,,201222,,,N*7F" ++ [13])).month = 12
      ∧ (feed (init ctor) (ascii "$GPRMC,050251.00,V,,,,,,,201222,,,N*7F" ++ [13])).year
          = 2022 := by
  obtain ⟨f1, f2, f3, f4, f5, f6, f7, f8, f9, f10, f11, f12, rfl⟩ := list_length_12 fs hlen
  have h := fun f hf => hwf f hf
  simp only [List.mem_cons, List.mem_singleton, List.not_mem_nil, or_false] at h
  rw [feed_rmc_ok_cr (init ctor) idle_init_ctor f1 f2 f3 f4 f5 f6 f7 f8 f9 f10 f11 f12
    (h f1 (by simp)) (h f2 (by simp)) (h f3 (by simp)) (h f4 (by simp)) (h f5 (by simp))
    (h f6 (by simp)) (h f7 (by simp)) (h f8 (by simp)) (h f9 (by simp)) (h f10 (by simp))
    (h f11 (by simp)) (h f12 (by simp)) d1 d2 v1 v2 e1 e2 hx]
  refine ⟨rfl, rfl, rfl, ?_, rfl, by decide, by decide, by decide, by decide, by decide,
    by decide⟩
  intro hd
  exact atol_digits_clamped f9 hd

set_option maxRecDepth 100000 in
/-- C5, witness of the amended statement: the sentence `$GPRMC,050251.00,V,,,,,,,201222,,,N*7F` of `gps.h`. -/
theorem rmc_commit_fresh_witness :
    (feed (init ctor)
        (rmcSentence
            [ascii "050251.00", ascii "V", [], [], [], [], [], [], ascii "201222", [], [],
              ascii "N"] [55, 70] ++ [13]))._fxdate = 201222 :=
  ((rmc_commit_fresh
      [ascii "050251.00", ascii "V", [], [], [], [], [], [], ascii "201222", [], [],
        ascii "N"] 55 70 7 15 (by decide) (by decide) (by decide) (by decide)
      (by decide)).2.2.2.1 (by decide)).trans (by decide)

set_option maxRecDepth 100000 in
/-- C5, counterexample to the claim as stated: the sentence `$GPRMC,050251.00,V,,,,,,,9999999999,,,N*7E` followed
by CR has twelve fields of at most 13 bytes and the correct checksum `7E`; a freshly
initialised parser confirms it, and the confirmed date is 2147483647, not the decimal
value 9999999999 of the ninth field. -/
theorem rmc_commit_date_clamped :
    ascii "$GPRMC,050251.00,V,,,,,,,9999999999,,,N*7E"
        = rmcSentence [ascii "050251.00", ascii "V", [], [], [], [], [], [],
            ascii "9999999999", [], [], ascii "N"] [55, 69]
      ∧ (∀ f ∈ [ascii "050251.00", ascii "V", [], [], [], [], [], [], ascii "9999999999", [],
            [], ascii "N"], wellFormedField f)
      ∧ xorAll (rmcBody [ascii "050251.00", ascii "V", [], [], [], [], [], [],
            ascii "9999999999", [], [], ascii "N"]) = 16 * 7 + 14
      ∧ Libc.digitVal 16 55 = some 7 ∧ Libc.digitVal 16 69 = some 14
      ∧ Libc.digitsVal 10 ((ascii "9999999999").map (fun c => c - 48)) = 9999999999
      ∧ (feed (init ctor)
          (ascii "$GPRMC,050251.00,V,,,,,,,9999999999,,,N*7E" ++ [13])).isValidTime = true
      ∧ (feed (init ctor)
          (ascii "$GPRMC,050251.00,V,,,,,,,9999999999,,,N*7E" ++ [13]))._fxdate = 2147483647
      ∧ (feed (init ctor)
          (ascii "$GPRMC,050251.00,V,,,,,,,9999999999,,,N*7E" ++ [13]))._fxdate
          ≠ Libc.digitsVal 10 ((ascii "9999999999").map (fun c => c - 48)) := by
  decide

set_option maxRecDepth 100000 in
/-- C6, the code at the sentence documented in `gps.h` (11 data fields, correct checksum
`70`, CR LF): nothing is confirmed. After CR the parser only reaches the `CheckSum` state,
with the checksum digits already discarded; LF then compares the empty buffer with the
running checksum `0x70`. -/
theorem rmc_eleven_fields_not_committed :
    (feed (init ctor)
        (ascii "$GPRMC,220516,A,5133.82,N,00042.24,W,173.8,231.8,130694,004.2,W*70"
          ++ [13]))._bufferReq = BufferContent.CheckSum
      ∧ (feed (init ctor)
          (ascii "$GPRMC,220516,A,5133.82,N,00042.24,W,173.8,231.8,130694,004.2,W*70"
            ++ [13]))._bufferPos = 0
      ∧ (feed (init ctor)
          (ascii "$GPRMC,220516,A,5133.82,N,00042.24,W,173.8,231.8,130694,004.2,W*70"
            ++ [13]))._checksum = 112
      ∧ (feed (init ctor)
          (ascii "$GPRMC,220516,A,5133.82,N,00042.24,W,173.8,231.8,130694,004.2,W*70"
            ++ [13, 10])).isValidTime = false
      ∧ (feed (init ctor)
          (ascii "$GPRMC,220516,A,5133.82,N,00042.24,W,173.8,231.8,130694,004.2,W*70"
            ++ [13, 10]))._fxtime = 0
      ∧ (feed (init ctor)
          (ascii "$GPRMC,220516,A,5133.82,N,00042.24,W,173.8,231.8,130694,004.2,W*70"
            ++ [13, 10]))._fxdate = 0 := by
  decide

/-- C7: for every idle parser state and every well-formed 12-field sentence
`$GPRMC,...*HH` CR LF whose two hexadecimal checksum digits differ in value from the XOR of
the bytes between `$` and `*`, the confirmed time, date, speed, latitude and longitude and
the time-valid flag are after the sentence what they were before. -/
theorem rmc_bad_checksum_keeps_fix (s : GPS) (fs : List (List Nat)) (d1 d2 v1 v2 : Nat)
    (hs : idle s) (hlen : fs.length = 12) (hwf : ∀ f ∈ fs, wellFormedField f)
    (e1 : Libc.digitVal 16 d1 = some v1) (e2 : Libc.digitVal 16 d2 = some v2)
    (hx : 16 * v1 + v2 ≠ xorAll (rmcBody fs)) :
    (feed s (rmcSentence fs [d1, d2] ++ [13, 10]))._fxtime = s._fxtime
      ∧ (feed s (rmcSentence fs [d1, d2] ++ [13, 10]))._fxdate = s._fxdate
      ∧ (feed s (rmcSentence fs [d1, d2] ++ [13, 10]))._fxspeed = s._fxspeed
      ∧ (feed s (rmcSentence fs [d1, d2] ++ [13, 10]))._fxlatitude = s._fxlatitude
      ∧ (feed s (rmcSentence fs [d1, d2] ++ [13, 10]))._fxlongitude = s._fxlongitude
      ∧ (feed s (rmcSentence fs [d1, d2] ++ [13, 10])).isValidTime = s.isValidTime := by
  obtain ⟨f1, f2, f3, f4, f5, f6, f7, f8, f9, f10, f11, f12, rfl⟩ := list_length_12 fs hlen
  have h := fun f hf => hwf f hf
  simp only [List.mem_cons, List.mem_singleton, List.not_mem_nil, or_false] at h
  rw [feed_rmc_bad s hs f1 f2 f3 f4 f5 f6 f7 f8 f9 f10 f11 f12
    (h f1 (by simp)) (h f2 (by simp)) (h f3 (by simp)) (h f4 (by simp)) (h f5 (by simp))
    (h f6 (by simp)) (h f7 (by simp)) (h f8 (by simp)) (h f9 (by simp)) (h f10 (by simp))
    (h f11 (by simp)) (h f12 (by simp)) d1 d2 v1 v2 e1 e2 hx]
  exact ⟨rfl, rfl, rfl, rfl, rfl, rfl⟩

set_option maxRecDepth 100000 in
/-- C7, witness: a fresh parser that has confirmed `$GPRMC,050251.00,V,,,,,,,201222,,,N*7F`
and has had its time consumed by `resetValidTime` is fed the same sentence with the
checksum digits `7E`: the time-valid flag stays clear. -/
theorem rmc_bad_checksum_keeps_fix_witness :
    (feed (resetValidTime
          (feed (init ctor) (ascii "$GPRMC,050251.00,V,,,,,,,201222,,,N*7F" ++ [13, 10])))
        (rmcSentence
            [ascii "050251.00", ascii "V", [], [], [], [], [], [], ascii "201222", [], [],
              ascii "N"] [55, 69] ++ [13, 10])).isValidTime = false :=
  ((rmc_bad_checksum_keeps_fix
      (resetValidTime
        (feed (init ctor) (ascii "$GPRMC,050251.00,V,,,,,,,201222,,,N*7F" ++ [13, 10])))
      [ascii "050251.00", ascii "V", [], [], [], [], [], [], ascii "201222", [], [],
        ascii "N"] 55 69 7 14 (by decide) (by decide) (by decide) (by decide)
      (by decide) (by decide)).2.2.2.2.2).trans (by decide)


set_option maxRecDepth 100000 in
/-- C8, the code at a sentence whose checksum comparison fails: a freshly initialised parser
is idle with `isValidPosition() = false`; after the 12-field sentence with status `A` and
the wrong checksum digits `00` (the correct ones are `1D`) followed by CR LF nothing is
confirmed (`isValidTime()` false, latitude 0), but `isValidPosition()` has become true. -/
theorem validPosition_set_by_rejected_sentence :
    idle (init ctor) ∧ (init ctor).isValidPosition = false
      ∧ (feed (init ctor)
          (ascii "$GPRMC,220516,A,5133.82,N,00042.24,W,173.8,231.8,130694,004.2,W,A*00"
            ++ [13, 10])).isValidTime = false
      ∧ (feed (init ctor)
          (ascii "$GPRMC,220516,A,5133.82,N,00042.24,W,173.8,231.8,130694,004.2,W,A*00"
            ++ [13, 10])).latitude = 0
      ∧ (feed (init ctor)
          (ascii "$GPRMC,220516,A,5133.82,N,00042.24,W,173.8,231.8,130694,004.2,W,A*00"
            ++ [13, 10])).isValidPosition = true := by
  have e : ascii "$GPRMC,220516,A,5133.82,N,00042.24,W,173.8,231.8,130694,004.2,W,A*00"
        ++ [13, 10]
      = rmcSentence [ascii "220516", ascii "A", ascii "5133.82", ascii "N", ascii "00042.24",
          ascii "W", ascii "173.8", ascii "231.8", ascii "130694", ascii "004.2", ascii "W",
          ascii "A"] [48, 48] ++ [13, 10] := by decide
  have hbad := feed_rmc_bad (init ctor) idle_init_ctor (ascii "220516") (ascii "A")
    (ascii "5133.82") (ascii "N") (ascii "00042.24") (ascii "W") (ascii "173.8")
    (ascii "231.8") (ascii "130694") (ascii "004.2") (ascii "W") (ascii "A")
    (by decide) (by decide) (by decide) (by decide) (by decide) (by decide) (by decide)
    (by decide) (by decide) (by decide) (by decide) (by decide) 48 48 0 0 (by decide)
    (by decide) (by decide)
  refine ⟨idle_init_ctor, rfl, by decide, ?_, by decide⟩
  rw [e, hbad]
  rfl

set_option maxRecDepth 100000 in
/-- C10, the code at `parse` of the byte `$` in two reachable states with buffer position 0: after `*`
the skip flag is set and `$` leaves it set; after `$GPRMC,` the sentence kind is GPRMC and
`$` leaves it GPRMC with the field expectation Timestamp. Checksum and buffer are reset in
both. In consequence the valid sentence `$GPRMC,050251.00,V,,,,,,,201222,,,N*7F` CR LF
that follows a stray `*` is not confirmed. -/
theorem dollar_keeps_kind_and_skip :
    (parse (init ctor) 42)._bufferPos = 0
      ∧ (parse (init ctor) 42)._skipCheck = true
      ∧ (parse (parse (init ctor) 42) 36)._skipCheck = true
      ∧ (parse (parse (init ctor) 42) 36)._checksum = 0
      ∧ (parse (parse (init ctor) 42) 36)._bufferPos = 0
      ∧ (feed (init ctor) (ascii "$GPRMC,"))._bufferPos = 0
      ∧ (feed (init ctor) (ascii "$GPRMC,"))._sentType = Sentence.GPRMC
      ∧ (parse (feed (init ctor) (ascii "$GPRMC,")) 36)._sentType = Sentence.GPRMC
      ∧ (parse (feed (init ctor) (ascii "$GPRMC,")) 36)._bufferReq = BufferContent.Timestamp
      ∧ (parse (feed (init ctor) (ascii "$GPRMC,")) 36)._checksum = 0
      ∧ (feed (init ctor) (ascii "$GPRMC,050251.00,V,,,,,,,201222,,,N*7F" ++ [13, 10])).isValidTime
          = true
      ∧ (feed (init ctor)
          (42 :: (ascii "$GPRMC,050251.00,V,,,,,,,201222,,,N*7F" ++ [13, 10]))).isValidTime
          = false := by
  decide

end GPS

namespace TimeUtils

/-! ## Weekdays -/

theorem dayOf_monthStart (leap : Bool) :
    ∀ m, m < 12 →
      (m < 2 → _dayOf.getD m 0 % 7 = monthStart leap m % 7)
        ∧ (2 ≤ m →
            (_dayOf.getD m 0 + (if leap then 1 else 0)) % 7 = (monthStart leap m + 6) % 7) := by
  cases leap <;> decide

theorem dayOf_le : ∀ m, m < 12 → _dayOf.getD m 0 ≤ 6 := by decide

/-- The congruence of `dayOfWeek` is the weekday of the day count since 1970-01-01. -/
theorem dayOfWeek_eq (Y M D : Nat) (hY : 1970 ≤ Y) (hY2 : Y ≤ 2106) (hM1 : 1 ≤ M)
    (hM12 : M ≤ 12) (hD1 : 1 ≤ D) (hD : D ≤ 31) :
    dayOfWeek (Y : Int) (M : Int) (D : Int)
      = (daysBeforeYear Y + monthStart (isLeapYear (Y : Int)) (M - 1) + (D - 1) + 4) % 7 := by
  have tb := dayOf_monthStart (isLeapYear (Y : Int)) (M - 1) (by omega)
  have te := dayOf_le (M - 1) (by omega)
  have g := leapsUpTo_ge (Y - 1) (by omega)
  have hstep := leapsUpTo_step Y (by omega)
  unfold dayOfWeek
  have hidx : ((M : Int) - 1).toNat = M - 1 := by omega
  have hin : (1 : Int) ≤ (M : Int) ∧ (M : Int) ≤ 12 := by omega
  simp only [hidx, hin, and_self, if_true]
  generalize _dayOf.getD (M - 1) 0 = e at *
  by_cases hlt : M < 3
  · have hc : ((M : Int) < 3) := by omega
    have hy : castInt16 ((Y : Int) - 1) = ((Y - 1 : Nat) : Int) := by
      unfold castInt16; omega
    simp only [hc, if_true, hy]
    have d4 : Int.tdiv ((Y - 1 : Nat) : Int) 4 = (((Y - 1) / 4 : Nat) : Int) := rfl
    have d100 : Int.tdiv ((Y - 1 : Nat) : Int) 100 = (((Y - 1) / 100 : Nat) : Int) := rfl
    have d400 : Int.tdiv ((Y - 1 : Nat) : Int) 400 = (((Y - 1) / 400 : Nat) : Int) := rfl
    rw [d4, d100, d400]
    have l1 := div100_le_div4 (Y - 1)
    have hsum : (((Y - 1 : Nat) : Int) + (((Y - 1) / 4 : Nat) : Int) - (((Y - 1) / 100 : Nat) : Int)
        + (((Y - 1) / 400 : Nat) : Int) + (e : Int) + (D : Int))
        = (((Y - 1 + ((Y - 1) / 4 - (Y - 1) / 100 + (Y - 1) / 400) + e + D : Nat)) : Int) := by
      omega
    rw [hsum]
    have hm : ∀ n : Nat, ((Int.tmod (n : Int) 7) % 256).toNat = n % 7 := by
      intro n
      have : Int.tmod (n : Int) 7 = ((n % 7 : Nat) : Int) := rfl
      rw [this]; omega
    rw [hm]
    have t1 := tb.1 (by omega)
    unfold daysBeforeYear
    unfold leapsUpTo at g ⊢
    generalize (Y - 1) / 4 - (Y - 1) / 100 + (Y - 1) / 400 = q at *
    generalize monthStart (isLeapYear (Y : Int)) (M - 1) = ms at *
    omega
  · have hc : ¬ ((M : Int) < 3) := by omega
    have hy : castInt16 ((Y : Int) - 0) = ((Y : Nat) : Int) := by
      unfold castInt16; omega
    simp only [hc, if_false, hy]
    have d4 : Int.tdiv ((Y : Nat) : Int) 4 = ((Y / 4 : Nat) : Int) := rfl
    have d100 : Int.tdiv ((Y : Nat) : Int) 100 = ((Y / 100 : Nat) : Int) := rfl
    have d400 : Int.tdiv ((Y : Nat) : Int) 400 = ((Y / 400 : Nat) : Int) := rfl
    rw [d4, d100, d400]
    have l1 := div100_le_div4 Y
    have hsum : (((Y : Nat) : Int) + ((Y / 4 : Nat) : Int) - ((Y / 100 : Nat) : Int)
        + ((Y / 400 : Nat) : Int) + (e : Int) + (D : Int))
        = (((Y + (Y / 4 - Y / 100 + Y / 400) + e + D : Nat)) : Int) := by
      omega
    rw [hsum]
    have hm : ∀ n : Nat, ((Int.tmod (n : Int) 7) % 256).toNat = n % 7 := by
      intro n
      have : Int.tmod (n : Int) 7 = ((n % 7 : Nat) : Int) := rfl
      rw [this]; omega
    rw [hm]
    have t2 := tb.2 (by omega)
    unfold daysBeforeYear
    rcases hstep with ⟨l1, _, l3⟩ | ⟨l1, _, l3⟩
    · rw [l1] at t2 ⊢
      simp only [if_true] at t2
      unfold leapsUpTo at g l3 ⊢
      generalize (Y - 1) / 4 - (Y - 1) / 100 + (Y - 1) / 400 = q at *
      generalize Y / 4 - Y / 100 + Y / 400 = p at *
      generalize monthStart true (M - 1) = ms at *
      omega
    · rw [l1] at t2 ⊢
      simp only [if_false, Bool.false_eq_true] at t2
      unfold leapsUpTo at g l3 ⊢
      generalize (Y - 1) / 4 - (Y - 1) / 100 + (Y - 1) / 400 = q at *
      generalize Y / 4 - Y / 100 + Y / 400 = p at *
      generalize monthStart false (M - 1) = ms at *
      omega

theorem daysBeforeYear_2106 : daysBeforeYear 2106 = 49673 := by
  unfold daysBeforeYear leapsUpTo; norm_num

/-- Up to the end of 2105 `makeUnixTime` is the exact second count of a valid date-time. -/
theorem makeUnixTime_exact (Y M D h mi s : Nat) (hY : 1970 ≤ Y) (hY2 : Y ≤ 2105)
    (hv : validDateTime Y M D h mi s) :
    makeUnixTime Y M D h mi s
        = secondsOf (daysBeforeYear Y + monthStart (isLeapYear (Y : Int)) (M - 1) + (D - 1))
            h mi s
      ∧ daysBeforeYear Y + monthStart (isLeapYear (Y : Int)) (M - 1) + (D - 1) < 49673 := by
  obtain ⟨hM1, hM12, hD1, hD, hh, hmi, hs⟩ := hv
  rw [daysInMonth_eq Y M hM1] at hD
  have hlen := monthLen_le (isLeapYear (Y : Int)) (M - 1) (by omega)
  have hms : monthStart (isLeapYear (Y : Int)) (M - 1)
      + monthLen (isLeapYear (Y : Int)) (M - 1) ≤ yearLength Y := by
    have := monthStart_add_len (isLeapYear (Y : Int)) (M - 1) (by omega)
    unfold yearLength; exact this
  have hsucc := daysBeforeYear_succ Y hY
  have hmono := daysBeforeYear_mono (a := Y + 1) (b := 2106) (by omega) (by omega)
  have h2106 := daysBeforeYear_2106
  have hlt : daysBeforeYear Y + monthStart (isLeapYear (Y : Int)) (M - 1) + (D - 1) < 49673 := by
    omega
  refine ⟨?_, hlt⟩
  rw [makeUnixTime_eq Y M D h mi s hY (by omega) hM1 hM12 hD1 (by omega)]
  exact u32_of_lt (by unfold secondsOf; omega)

/-! ## Claims C16 to C19 -/

/-- C16: `localTime` returns `(utc + dstOffset) mod 2^32` when `dstStart <= utc <= dstEnd`
(both bounds inclusive, so also at `utc = dstStart` and at `utc = dstEnd`) and
`(utc + standardOffset) mod 2^32` otherwise; the default offsets are 3600 and 7200. -/
theorem localTime_spec (utc dstStart dstEnd standardOffset dstOffset : Nat) :
    localTime utc dstStart dstEnd standardOffset dstOffset
        = (if dstStart ≤ utc ∧ utc ≤ dstEnd then (utc + dstOffset) % 2 ^ 32
           else (utc + standardOffset) % 2 ^ 32)
      ∧ localTime dstStart dstStart (dstStart + dstEnd) standardOffset dstOffset
          = (dstStart + dstOffset) % 2 ^ 32
      ∧ localTime (dstStart + dstEnd) dstStart (dstStart + dstEnd) standardOffset dstOffset
          = (dstStart + dstEnd + dstOffset) % 2 ^ 32
      ∧ localTimeDefault utc dstStart dstEnd = localTime utc dstStart dstEnd 3600 7200
      ∧ CETOffset = 3600 ∧ CESTOffset = 7200 := by
  refine ⟨?_, ?_, ?_, rfl, rfl, rfl⟩
  · unfold localTime add32 u32
    by_cases h : dstStart ≤ utc ∧ utc ≤ dstEnd
    · rw [if_pos h]
    · rw [if_neg h]
  · unfold localTime add32 u32
    rw [if_pos ⟨le_refl _, Nat.le_add_right _ _⟩]
  · unfold localTime add32 u32
    rw [if_pos ⟨Nat.le_add_right _ _, le_refl _⟩]

/-- C17: for every valid date from 1970-01-01 to 2105-12-31, `dayOfWeek(year, month, day)`
is `(days since 1970-01-01 + 4) mod 7`, which is the weekday field that `breakUnixTime`
produces for `makeUnixTime(year, month, day, 0, 0, 0)`; `dayOfWeek(1970,1,1) = 4` and
`breakUnixTime(0)` has weekday 4. -/
theorem dayOfWeek_true (Y M D : Nat) (hY : 1970 ≤ Y) (hY2 : Y ≤ 2105)
    (hv : validDateTime Y M D 0 0 0) :
    dayOfWeek (Y : Int) (M : Int) (D : Int) = (daysSinceEpoch Y M D + 4) % 7
      ∧ (∃ tm, breakUnixTime (makeUnixTime Y M D 0 0 0) = some tm
          ∧ tm.dotw = ((dayOfWeek (Y : Int) (M : Int) (D : Int) : Nat) : Int))
      ∧ dayOfWeek 1970 1 1 = 4
      ∧ (∃ tm, breakUnixTime 0 = some tm ∧ tm.dotw = 4) := by
  obtain ⟨hx, hlt⟩ := makeUnixTime_exact Y M D 0 0 0 hY hY2 hv
  obtain ⟨hM1, hM12, hD1, hD, hh, hmi, hs⟩ := hv
  rw [daysInMonth_eq Y M hM1] at hD
  have hlen := monthLen_le (isLeapYear (Y : Int)) (M - 1) (by omega)
  have hdw := dayOfWeek_eq Y M D hY (by omega) hM1 hM12 hD1 (by omega)
  refine ⟨?_, ?_, by decide, ⟨⟨1970, 1, 1, 4, 0, 0, 0⟩, by decide, rfl⟩⟩
  · rw [hdw, daysSinceEpoch_eq Y M D hY hM1 hM12]
  · have hb := breakUnixTime_secondsOf Y (M - 1) (D - 1) 0 0 0 hY (by omega) (by omega)
      (by omega) (by omega) (by omega) (by unfold secondsOf; omega)
    rw [hx, hb]
    exact ⟨_, rfl, by rw [hdw]⟩

/-- C17, witness at 2024-02-29, a Thursday. -/
theorem dayOfWeek_true_witness : dayOfWeek 2024 2 29 = (daysSinceEpoch 2024 2 29 + 4) % 7 :=
  (dayOfWeek_true 2024 2 29 (by decide) (by decide) (by decide)).1

/-- C18: for every integer `year`, `isLeapYear(year)` is true exactly when `year` is
divisible by 400, or divisible by 4 and not by 100; the four sample years evaluate to
true, false, true, false. -/
theorem isLeapYear_iff (year : Int) :
    (isLeapYear year = true ↔ (400 ∣ year ∨ (4 ∣ year ∧ ¬ 100 ∣ year)))
      ∧ isLeapYear 2000 = true ∧ isLeapYear 1900 = false
      ∧ isLeapYear 2024 = true ∧ isLeapYear 2023 = false := by
  refine ⟨?_, by decide, by decide, by decide, by decide⟩
  have e400 : Int.tmod year 400 = 0 ↔ (400 : Int) ∣ year := Int.dvd_iff_tmod_eq_zero.symm
  have e100 : Int.tmod year 100 = 0 ↔ (100 : Int) ∣ year := Int.dvd_iff_tmod_eq_zero.symm
  have e4 : Int.tmod year 4 = 0 ↔ (4 : Int) ∣ year := Int.dvd_iff_tmod_eq_zero.symm
  simp only [isLeapYear, e400, e100, e4]
  by_cases a : (400 : Int) ∣ year
  · simp [a]
  · by_cases b : (100 : Int) ∣ year
    · simp [a, b]
    · by_cases c : (4 : Int) ∣ year
      · simp [a, b, c]
      · simp [a, b, c]

/-- C19 (as amended): for every valid month, day, hour, minute and second and every
`year <= 2105`, `makeUnixTime` returns 0 if and only if `year < 1970` or the input is the
epoch itself, 1970-01-01 00:00:00. -/
theorem makeUnixTime_eq_zero_iff (Y M D h mi s : Nat) (hY2 : Y ≤ 2105)
    (hv : validDateTime Y M D h mi s) :
    makeUnixTime Y M D h mi s = 0
      ↔ (Y < 1970 ∨ (Y = 1970 ∧ M = 1 ∧ D = 1 ∧ h = 0 ∧ mi = 0 ∧ s = 0)) := by
  by_cases hY : Y < 1970
  · simp [makeUnixTime, hY]
  · have hY1 : 1970 ≤ Y := by omega
    obtain ⟨hx, _⟩ := makeUnixTime_exact Y M D h mi s hY1 hY2 hv
    obtain ⟨hM1, hM12, hD1, hD, hh, hmi, hs⟩ := hv
    rw [hx]
    have hms : ∀ leap, ∀ m, m < 12 → monthStart leap m = 0 → m = 0 := by decide
    have hmono : ∀ y, 1971 ≤ y → 365 ≤ daysBeforeYear y := by
      intro y hy
      have h1 := daysBeforeYear_mono (a := 1971) (b := y) (by omega) hy
      have h2 : daysBeforeYear 1971 = daysBeforeYear 1970 + yearLength 1970 :=
        daysBeforeYear_succ 1970 (le_refl _)
      have h3 := yearLength_bounds 1970
      rw [daysBeforeYear_1970] at h2
      omega
    constructor
    · intro h0
      right
      unfold secondsOf at h0
      have hd0 : daysBeforeYear Y = 0 := by omega
      have hm0 : monthStart (isLeapYear (Y : Int)) (M - 1) = 0 := by omega
      have hYe : Y = 1970 := by
        by_contra hne
        have := hmono Y (by omega)
        omega
      have := hms _ (M - 1) (by omega) hm0
      exact ⟨hYe, by omega, by omega, by omega, by omega, by omega⟩
    · intro h0
      rcases h0 with h0 | ⟨rfl, rfl, rfl, rfl, rfl, rfl⟩
      · omega
      · decide

/-- C19, witness of the amended statement at the epoch. -/
theorem makeUnixTime_eq_zero_iff_witness :
    makeUnixTime 1970 1 1 0 0 0 = 0
      ↔ (1970 < 1970 ∨ (1970 = 1970 ∧ 1 = 1 ∧ 1 = 1 ∧ 0 = 0 ∧ 0 = 0 ∧ 0 = 0)) :=
  makeUnixTime_eq_zero_iff 1970 1 1 0 0 0 (by decide) (by decide)

/-- C19, counterexample to the claim as stated: 1970-01-01 00:00:00 is a valid input with
`year >= 1970`, and `makeUnixTime` returns 0 for it. -/
theorem makeUnixTime_epoch_is_zero :
    validDateTime 1970 1 1 0 0 0 ∧ 1970 ≤ 2105 ∧ ¬ (1970 < 1970)
      ∧ makeUnixTime 1970 1 1 0 0 0 = 0 := by
  decide

/-! ## Occurrences of a weekday in a month -/

set_option maxRecDepth 1000000 in
/-- In a month of `L` days whose days `d` have weekday `(k + d) mod 7`: the `n`-th day with
weekday `dow`, and the last one. -/
theorem occurrences_table :
    ∀ L ∈ [28, 29, 30, 31], ∀ k, k < 7 → ∀ dow, dow < 7 →
      (∀ n ∈ [1, 2, 3, 4],
          (((List.range L).map (fun i => i + 1)).filter
              (fun d => decide ((k + d) % 7 = dow)))[n - 1]?
            = some (1 + (dow + 7 - (k + 1) % 7) % 7 + 7 * (n - 1)))
        ∧ (((List.range L).map (fun i => i + 1)).filter
              (fun d => decide ((k + d) % 7 = dow))).getLast?
            = some (L - 6 + (dow + 7 - (k + 1 + L) % 7) % 7) := by
  decide

theorem monthLen_ge (leap : Bool) : ∀ m, m < 12 → 28 ≤ monthLen leap m := by
  cases leap <;> decide

theorem monthStart_succ (leap : Bool) :
    ∀ m, m < 11 → monthStart leap (m + 1) = monthStart leap m + monthLen leap m := by
  cases leap <;> decide

theorem monthStart_december (leap : Bool) :
    monthStart leap 11 + monthLen leap 11 = (if leap then 366 else 365) := by
  cases leap <;> decide

/-- The weekday occurrences of a month, with `dayOfWeek` replaced by the day count. -/
theorem weekdayOccurrences_eq (Y M dow : Nat) (hY : 1970 ≤ Y) (hY2 : Y ≤ 2105) (hM1 : 1 ≤ M)
    (hM12 : M ≤ 12) :
    weekdayOccurrences Y M dow
      = ((List.range (monthLen (isLeapYear (Y : Int)) (M - 1))).map (fun i => i + 1)).filter
          (fun d => decide
            (((daysBeforeYear Y + monthStart (isLeapYear (Y : Int)) (M - 1) + 3) % 7 + d) % 7
              = dow)) := by
  unfold weekdayOccurrences
  rw [daysInMonth_eq Y M hM1]
  have hlen := monthLen_le (isLeapYear (Y : Int)) (M - 1) (by omega)
  apply List.filter_congr
  intro d hd
  rw [List.mem_map] at hd
  obtain ⟨i, hi, rfl⟩ := hd
  rw [List.mem_range] at hi
  have := dayOfWeek_eq Y M (i + 1) hY (by omega) hM1 hM12 (by omega) (by omega)
  rw [this]
  have e2 : (daysBeforeYear Y + monthStart (isLeapYear (Y : Int)) (M - 1) + (i + 1 - 1) + 4) % 7
      = ((daysBeforeYear Y + monthStart (isLeapYear (Y : Int)) (M - 1) + 3) % 7 + (i + 1)) % 7 := by
    omega
  rw [e2]

/-! ## `timeShift` on a weekday rule -/

theorem tmod7_nat (a b : Nat) (hb : b ≤ 6) :
    Int.tmod ((a : Int) - (b : Int) + 7) 7 = (((a + 7 - b) % 7 : Nat) : Int) := by
  have e : (a : Int) - (b : Int) + 7 = ((a + 7 - b : Nat) : Int) := by omega
  rw [e]; rfl

/-- The rule "`n`-th `dow` of month `M`" (`n` from 1 to 4): `timeShift` is `makeUnixTime`
of the day `1 + delta + 7 (n - 1)`, `delta` the distance from the weekday of the 1st. -/
theorem timeShift_nth (Y M dow h n : Nat) (hY : 1970 ≤ Y) (hY2 : Y ≤ 2105) (hM1 : 1 ≤ M)
    (hM12 : M ≤ 12) (hh : h ≤ 23) (hn1 : 1 ≤ n) (hn4 : n ≤ 4) :
    timeShift { _week := n, _month := M, _hour := h, _dow := dow } (Y : Int)
      = makeUnixTime Y M
          (1 + (dow + 7
              - ((daysBeforeYear Y + monthStart (isLeapYear (Y : Int)) (M - 1) + 3) % 7 + 1) % 7)
              % 7
            + 7 * (n - 1)) h 0 0 := by
  have hge := monthLen_ge (isLeapYear (Y : Int)) (M - 1) (by omega)
  have hdim := daysInMonth_eq Y M hM1
  generalize hN : daysBeforeYear Y + monthStart (isLeapYear (Y : Int)) (M - 1) = N1 at *
  generalize hdl : (dow + 7 - ((N1 + 3) % 7 + 1) % 7) % 7 = dl
  have hdl6 : dl ≤ 6 := by omega
  have hv1 : validDateTime Y M 1 h 0 0 := by
    unfold validDateTime; omega
  have hvd : validDateTime Y M (1 + dl + 7 * (n - 1)) h 0 0 := by
    unfold validDateTime; omega
  obtain ⟨x1, b1⟩ := makeUnixTime_exact Y M 1 h 0 0 hY hY2 hv1
  obtain ⟨xd, bd⟩ := makeUnixTime_exact Y M (1 + dl + 7 * (n - 1)) h 0 0 hY hY2 hvd
  have hdw := dayOfWeek_eq Y M 1 hY (by omega) hM1 hM12 (le_refl _) (by omega)
  rw [hN] at x1 b1 xd bd hdw
  have hwn : ¬ (n = 0) := by omega
  have c16 : castInt16 (Y : Int) = (Y : Int) := by unfold castInt16; omega
  have c8 : castInt8 (M : Int) = (M : Int) := by unfold castInt8; omega
  have o32 : ofInt32 (Y : Int) = Y := ofInt32_natCast (by omega)
  have hw1 : (N1 + (1 - 1) + 4) % 7 = ((N1 + 3) % 7 + 1) % 7 := by omega
  unfold timeShift
  simp only [hwn, false_and, if_false, c16, c8, o32]
  have hone : dayOfWeek (Y : Int) (M : Int) 1 = ((N1 + 3) % 7 + 1) % 7 := by
    rw [← hw1, ← hdw]; rfl
  rw [hone, tmod7_nat dow _ (by omega), hdl, xd, x1]
  have hk : ((dl : Nat) : Int) + ((n : Int) - 1) * 7 = ((dl + 7 * (n - 1) : Nat) : Int) := by
    omega
  rw [hk, ofInt32_natCast (by omega)]
  have hsd : _secPerDay = 86400 := rfl
  rw [hsd, mul32_of_lt (by omega)]
  unfold secondsOf at *
  rw [add32_of_lt (by omega)]
  omega

/-- The rule "last `dow` of month `M`": `timeShift` is `makeUnixTime` of the day
`L - 6 + delta`, `L` the length of the month and `delta` the distance from the weekday of
the first day of the next month. -/
theorem timeShift_last (Y M dow h : Nat) (hY : 1970 ≤ Y) (hY2 : Y ≤ 2105) (hM1 : 1 ≤ M)
    (hM12 : M ≤ 12) (hh : h ≤ 23) :
    timeShift { _week := 0, _month := M, _hour := h, _dow := dow } (Y : Int)
      = makeUnixTime Y M
          (monthLen (isLeapYear (Y : Int)) (M - 1) - 6
            + (dow + 7
                - ((daysBeforeYear Y + monthStart (isLeapYear (Y : Int)) (M - 1) + 3) % 7 + 1
                    + monthLen (isLeapYear (Y : Int)) (M - 1)) % 7) % 7) h 0 0 := by
  have hge := monthLen_ge (isLeapYear (Y : Int)) (M - 1) (by omega)
  have hle := monthLen_le (isLeapYear (Y : Int)) (M - 1) (by omega)
  have hdim := daysInMonth_eq Y M hM1
  have hsucc := daysBeforeYear_succ Y hY
  have hmono := daysBeforeYear_mono (a := Y + 1) (b := 2106) (by omega) (by omega)
  have h2106 := daysBeforeYear_2106
  have hms : monthStart (isLeapYear (Y : Int)) (M - 1)
      + monthLen (isLeapYear (Y : Int)) (M - 1) ≤ yearLength Y := by
    have := monthStart_add_len (isLeapYear (Y : Int)) (M - 1) (by omega)
    unfold yearLength; exact this
  -- the first day of the next month
  have hnext : ∃ Y1 M1 : Nat, 1970 ≤ Y1 ∧ Y1 ≤ 2106 ∧ 1 ≤ M1 ∧ M1 ≤ 12
      ∧ (if (M + 1) % 256 > 12 then 1 else (M + 1) % 256) = M1
      ∧ (if (M + 1) % 256 > 12 then castInt32 ((Y : Int) + 1) else (Y : Int))
          = (Y1 : Int)
      ∧ daysBeforeYear Y1 + monthStart (isLeapYear (Y1 : Int)) (M1 - 1)
          = daysBeforeYear Y + monthStart (isLeapYear (Y : Int)) (M - 1)
            + monthLen (isLeapYear (Y : Int)) (M - 1) := by
    by_cases h12 : M = 12
    · subst h12
      refine ⟨Y + 1, 1, by omega, by omega, by omega, by omega, by decide, ?_, ?_⟩
      · have : castInt32 ((Y : Int) + 1) = ((Y + 1 : Nat) : Int) := by
          unfold castInt32; omega
        simp [this]
      · have hd := monthStart_december (isLeapYear (Y : Int))
        have h0 : monthStart (isLeapYear ((Y + 1 : Nat) : Int)) (1 - 1) = 0 := by
          cases isLeapYear ((Y + 1 : Nat) : Int) <;> rfl
        have hyl : yearLength Y = (if isLeapYear (Y : Int) = true then 366 else 365) := rfl
        rw [h0, hsucc, hyl]
        simp only [show (12 - 1) = 11 from rfl]
        omega
    · have hm : (M + 1) % 256 = M + 1 := by omega
      refine ⟨Y, M + 1, hY, by omega, by omega, by omega, ?_, ?_, ?_⟩
      · rw [hm, if_neg (by omega)]
      · rw [hm, if_neg (by omega)]
      · have := monthStart_succ (isLeapYear (Y : Int)) (M - 1) (by omega)
        rw [show M + 1 - 1 = M - 1 + 1 by omega, this]
        omega
  obtain ⟨Y1, M1, a1, a2, a3, a4, a5, a6, a7⟩ := hnext
  generalize hLdef : monthLen (isLeapYear (Y : Int)) (M - 1) = L at *
  generalize hN : daysBeforeYear Y + monthStart (isLeapYear (Y : Int)) (M - 1) = N1 at *
  generalize hdl : (dow + 7 - ((N1 + 3) % 7 + 1 + L) % 7) % 7 = dl
  have hdl6 : dl ≤ 6 := by omega
  have hvd : validDateTime Y M (L - 6 + dl) h 0 0 := by
    unfold validDateTime; omega
  obtain ⟨xd, bd⟩ := makeUnixTime_exact Y M (L - 6 + dl) h 0 0 hY hY2 hvd
  rw [hN] at xd bd
  have x1 := makeUnixTime_eq Y1 M1 1 h 0 0 a1 a2 a3 a4 (le_refl _) (by omega)
  have hdw := dayOfWeek_eq Y1 M1 1 a1 a2 a3 a4 (le_refl _) (by omega)
  rw [a7] at x1 hdw
  have hNL : N1 + L ≤ 49673 := by omega
  have hfit : secondsOf (N1 + L + (1 - 1)) h 0 0 < 4294967296 := by
    unfold secondsOf; omega
  rw [u32_of_lt hfit] at x1
  have c16 : castInt16 (Y1 : Int) = (Y1 : Int) := by unfold castInt16; omega
  have c8 : castInt8 (M1 : Int) = (M1 : Int) := by unfold castInt8; omega
  have o32 : ofInt32 (Y1 : Int) = Y1 := ofInt32_natCast (by omega)
  have hw1 : (N1 + L + (1 - 1) + 4) % 7 = ((N1 + 3) % 7 + 1 + L) % 7 := by omega
  have hone : dayOfWeek (Y1 : Int) (M1 : Int) 1 = ((N1 + 3) % 7 + 1 + L) % 7 := by
    rw [← hw1, ← hdw]; rfl
  unfold timeShift
  simp only [true_and, a5, a6, c16, c8, o32, if_true]
  rw [hone, tmod7_nat dow _ (by omega), hdl, xd, x1]
  have hk : ((dl : Nat) : Int) + (((1 : Nat) : Int) - 1) * 7 = ((dl : Nat) : Int) := by
    omega
  rw [hk, ofInt32_natCast (by omega)]
  have hsd : _secPerDay = 86400 := rfl
  rw [hsd, mul32_of_lt (by omega), mul32_of_lt (by omega)]
  unfold secondsOf at *
  rw [add32_of_lt (by omega), sub32_of_le (by omega) (by omega)]
  omega

theorem monthLen_mem (leap : Bool) : ∀ m, m < 12 → monthLen leap m ∈ [28, 29, 30, 31] := by
  cases leap <;> decide

/-- The instant of the rule "last `dow` of month `M`" breaks into a date of that month
whose `dayOfWeek` is `dow`. -/
theorem timeShift_last_date (Y M dow h : Nat) (hY : 1970 ≤ Y) (hY2 : Y ≤ 2105) (hM1 : 1 ≤ M)
    (hM12 : M ≤ 12) (hdow : dow ≤ 6) (hh : h ≤ 23) :
    ∃ d tm, 1 ≤ d ∧ d ≤ monthLen (isLeapYear (Y : Int)) (M - 1)
      ∧ timeShift { _week := 0, _month := M, _hour := h, _dow := dow } (Y : Int)
          = secondsOf (daysBeforeYear Y + monthStart (isLeapYear (Y : Int)) (M - 1) + (d - 1))
              h 0 0
      ∧ breakUnixTime (timeShift { _week := 0, _month := M, _hour := h, _dow := dow } (Y : Int))
          = some tm
      ∧ tm.year = (Y : Int) ∧ tm.month = (M : Int) ∧ tm.day = (d : Int)
      ∧ dayOfWeek tm.year tm.month tm.day = dow := by
  have hge := monthLen_ge (isLeapYear (Y : Int)) (M - 1) (by omega)
  have hle := monthLen_le (isLeapYear (Y : Int)) (M - 1) (by omega)
  have hts := timeShift_last Y M dow h hY hY2 hM1 hM12 hh
  generalize hdd : monthLen (isLeapYear (Y : Int)) (M - 1) - 6
      + (dow + 7
          - ((daysBeforeYear Y + monthStart (isLeapYear (Y : Int)) (M - 1) + 3) % 7 + 1
              + monthLen (isLeapYear (Y : Int)) (M - 1)) % 7) % 7 = d at hts
  have hd1 : 1 ≤ d := by omega
  have hdL : d ≤ monthLen (isLeapYear (Y : Int)) (M - 1) := by omega
  have hv : validDateTime Y M d h 0 0 := by
    unfold validDateTime
    rw [daysInMonth_eq Y M hM1]; omega
  obtain ⟨hx, hb⟩ := makeUnixTime_exact Y M d h 0 0 hY hY2 hv
  have hbr := breakUnixTime_secondsOf Y (M - 1) (d - 1) h 0 0 hY (by omega) (by omega) hh
    (by omega) (by omega) (by unfold secondsOf; omega)
  have hdw := dayOfWeek_eq Y M d hY (by omega) hM1 hM12 hd1 (by omega)
  rw [hts, hx, hbr]
  refine ⟨d, _, hd1, hdL, rfl, rfl, rfl, ?_, ?_, ?_⟩
  · show ((M - 1 + 1 : Nat) : Int) = (M : Int)
    rw [Nat.sub_add_cancel hM1]
  · show ((d - 1 + 1 : Nat) : Int) = (d : Int)
    rw [Nat.sub_add_cancel hd1]
  · show dayOfWeek (Y : Int) ((M - 1 + 1 : Nat) : Int) ((d - 1 + 1 : Nat) : Int) = dow
    rw [Nat.sub_add_cancel hM1, Nat.sub_add_cancel hd1, hdw]
    omega

/-! ## Claims C14 and C15 -/

/-- C14 (as amended): for every year from 1970 to 2105,
`timeShift(CESTFrom, year) < timeShift(CESTTo, year)`, and the calendar date that
`breakUnixTime` gives for each of the two instants has `dayOfWeek` 0, a Sunday. -/
theorem timeShift_CEST_window (Y : Nat) (hY : 1970 ≤ Y) (hY2 : Y ≤ 2105) :
    timeShift CESTFrom (Y : Int) < timeShift CESTTo (Y : Int)
      ∧ (∃ tm, breakUnixTime (timeShift CESTFrom (Y : Int)) = some tm
          ∧ dayOfWeek tm.year tm.month tm.day = 0)
      ∧ (∃ tm, breakUnixTime (timeShift CESTTo (Y : Int)) = some tm
          ∧ dayOfWeek tm.year tm.month tm.day = 0) := by
  obtain ⟨d1, tm1, a1, a2, a3, a4, _, _, _, a8⟩ :=
    timeShift_last_date Y 3 0 1 hY hY2 (by omega) (by omega) (by omega) (by omega)
  obtain ⟨d2, tm2, b1, b2, b3, b4, _, _, _, b8⟩ :=
    timeShift_last_date Y 10 0 1 hY hY2 (by omega) (by omega) (by omega) (by omega)
  have e1 : CESTFrom = { _week := 0, _month := 3, _hour := 1, _dow := 0 } := rfl
  have e2 : CESTTo = { _week := 0, _month := 10, _hour := 1, _dow := 0 } := rfl
  rw [e1, e2]
  refine ⟨?_, ⟨tm1, a4, a8⟩, ⟨tm2, b4, b8⟩⟩
  rw [a3, b3]
  have t1 : ∀ leap, monthStart leap (3 - 1) + monthLen leap (3 - 1) ≤ monthStart leap (10 - 1) := by
    decide
  have := t1 (isLeapYear (Y : Int))
  unfold secondsOf
  omega

/-- C14, witness for the year 2024 of `timeutiltest`. -/
theorem timeShift_CEST_window_witness : timeShift CESTFrom 2024 < timeShift CESTTo 2024 :=
  (timeShift_CEST_window 2024 (by decide) (by decide)).1

/-- C14, counterexample to the claim as stated ("for any year"): for 1969 the two instants
are in the wrong order, and for 2106 the date of the first instant is not a Sunday. -/
theorem timeShift_CEST_outside_range :
    timeShift CESTFrom 1969 = 4294794496 ∧ timeShift CESTTo 1969 = 4294448896
      ∧ ¬ (timeShift CESTFrom 1969 < timeShift CESTTo 1969)
      ∧ breakUnixTime (timeShift CESTFrom 2106)
          = some
              { year := 1970, month := 2, day := 18, dotw := 3, hour := 18, min := 31,
                sec := 44 }
      ∧ dayOfWeek 1970 2 18 = 3 := by
  decide

/-- C15: for every year in 1970..2105, month in 1..12, weekday `dow` in 0..6 and hour in
0..23, `timeShift({week, month, hour, dow}, year) = makeUnixTime(year, month, d, hour, 0, 0)`
where for `week = 0` the day `d` is the last day of the month whose `dayOfWeek` is `dow`,
and for `week = n` in 1..4 it is the `n`-th such day. -/
theorem timeShift_occurrence (Y M dow h : Nat) (hY : 1970 ≤ Y) (hY2 : Y ≤ 2105)
    (hM1 : 1 ≤ M) (hM12 : M ≤ 12) (hdow : dow ≤ 6) (hh : h ≤ 23) :
    (∃ d, (weekdayOccurrences Y M dow).getLast? = some d
        ∧ timeShift { _week := 0, _month := M, _hour := h, _dow := dow } (Y : Int)
            = makeUnixTime Y M d h 0 0)
      ∧ ∀ n, 1 ≤ n → n ≤ 4 →
          ∃ d, (weekdayOccurrences Y M dow)[n - 1]? = some d
            ∧ timeShift { _week := n, _month := M, _hour := h, _dow := dow } (Y : Int)
                = makeUnixTime Y M d h 0 0 := by
  have hmem := monthLen_mem (isLeapYear (Y : Int)) (M - 1) (by omega)
  have htab := occurrences_table _ hmem
    ((daysBeforeYear Y + monthStart (isLeapYear (Y : Int)) (M - 1) + 3) % 7) (by omega)
    dow (by omega)
  rw [weekdayOccurrences_eq Y M dow hY hY2 hM1 hM12]
  constructor
  · exact ⟨_, htab.2, timeShift_last Y M dow h hY hY2 hM1 hM12 hh⟩
  · intro n hn1 hn4
    have hn : n ∈ [1, 2, 3, 4] := by
      simp only [List.mem_cons, List.mem_singleton, List.not_mem_nil, or_false]
      omega
    exact ⟨_, htab.1 n hn, timeShift_nth Y M dow h n hY hY2 hM1 hM12 hh hn1 hn4⟩

/-- C15, witness: the Sundays of March 2024 with the rule hour 1. -/
theorem timeShift_occurrence_witness :
    (∃ d, (weekdayOccurrences 2024 3 0).getLast? = some d
        ∧ timeShift { _week := 0, _month := 3, _hour := 1, _dow := 0 } 2024
            = makeUnixTime 2024 3 d 1 0 0)
      ∧ ∀ n, 1 ≤ n → n ≤ 4 →
          ∃ d, (weekdayOccurrences 2024 3 0)[n - 1]? = some d
            ∧ timeShift { _week := n, _month := 3, _hour := 1, _dow := 0 } 2024
                = makeUnixTime 2024 3 d 1 0 0 :=
  timeShift_occurrence 2024 3 0 1 (by decide) (by decide) (by decide) (by decide) (by decide)
    (by decide)

end TimeUtils

namespace GPS

/-! ## Buffer safety -/

/-- After `finalizeSentence` the buffer and its position are untouched or cleared. -/
theorem finalizeSentence_buffer (s : GPS) :
    ((finalizeSentence s)._buffer = s._buffer ∧ (finalizeSentence s)._bufferPos = s._bufferPos)
      ∨ ((finalizeSentence s)._buffer = emptyBuffer ∧ (finalizeSentence s)._bufferPos = 0) := by
  unfold finalizeSentence
  cases h1 : s._sentType
  · simp only []
    split
    · right; exact ⟨rfl, rfl⟩
    · right; exact ⟨rfl, rfl⟩
  · simp only []
    unfold process
    cases h2 : s._bufferReq
    case UNKNOWN => left; exact ⟨rfl, rfl⟩
    all_goals (right; exact ⟨rfl, rfl⟩)

/-- A full buffer is cleared by `invalidContnet` before the byte is looked at. -/
theorem parse_overflow (s : GPS) (b : Nat) (h : 14 ≤ s._bufferPos) :
    parse s b = parse (invalidContnet s) b := by
  unfold parse
  have h1 : s._bufferPos ≥ 14 := h
  have h2 : ¬ ((invalidContnet s)._bufferPos ≥ 14) := by simp [invalidContnet]
  simp only [h1, h2, if_true, if_false]

/-- Below the capacity one call of `parse` stores at most one byte, at an index up to 13. -/
theorem parse_buffer_lt (s : GPS) (b : Nat) (hlt : s._bufferPos < 14) :
    (parse s b)._bufferPos ≤ 14
      ∧ ((parse s b)._buffer = s._buffer ∨ (parse s b)._buffer = emptyBuffer
          ∨ ∃ i, i ≤ 13 ∧ (parse s b)._buffer = s._buffer.set i b) := by
  by_cases c1 : b = 36
  · subst c1
    rw [parse_dollar s hlt]
    exact ⟨Nat.zero_le _, Or.inr (Or.inl rfl)⟩
  by_cases c2 : b = 44
  · subst c2
    rw [parse_comma s hlt]
    rcases finalizeSentence_buffer { s with _checksum := (s._checksum ^^^ 44) % 256 } with
      ⟨e1, e2⟩ | ⟨e1, e2⟩
    · exact ⟨(le_of_eq e2).trans (Nat.le_of_lt hlt), Or.inl e1⟩
    · exact ⟨(le_of_eq e2).trans (Nat.zero_le _), Or.inr (Or.inl e1)⟩
  by_cases c3 : b = 13
  · subst c3
    rw [parse_cr s hlt]
    rcases finalizeSentence_buffer s with ⟨e1, e2⟩ | ⟨e1, e2⟩
    · exact ⟨(le_of_eq e2).trans (Nat.le_of_lt hlt), Or.inl e1⟩
    · exact ⟨(le_of_eq e2).trans (Nat.zero_le _), Or.inr (Or.inl e1)⟩
  by_cases c4 : b = 10
  · subst c4
    rw [parse_lf s hlt]
    rcases finalizeSentence_buffer s with ⟨e1, e2⟩ | ⟨e1, e2⟩
    · exact ⟨(le_of_eq e2).trans (Nat.le_of_lt hlt), Or.inl e1⟩
    · exact ⟨(le_of_eq e2).trans (Nat.zero_le _), Or.inr (Or.inl e1)⟩
  by_cases c5 : b = 42
  · subst c5
    rw [parse_star s hlt]
    rcases finalizeSentence_buffer s with ⟨e1, e2⟩ | ⟨e1, e2⟩
    · exact ⟨(le_of_eq e2).trans (Nat.le_of_lt hlt), Or.inl e1⟩
    · exact ⟨(le_of_eq e2).trans (Nat.zero_le _), Or.inr (Or.inl e1)⟩
  · have hne : ¬ (s._bufferPos ≥ 14) := by omega
    have h3 : ¬ (b = 13 ∨ b = 10) := by omega
    have hpos : (s._bufferPos + 1) % 256 ≤ 14 := by omega
    unfold parse
    simp only [hne, if_false, c1, c2, h3, c5]
    cases hs : s._skipCheck
    · exact ⟨hpos, Or.inr (Or.inr ⟨s._bufferPos, by omega, rfl⟩)⟩
    · exact ⟨hpos, Or.inr (Or.inr ⟨s._bufferPos, by omega, rfl⟩)⟩

theorem getD_set_of_ne (l : List Nat) (i j b : Nat) (h : i ≠ j) :
    (l.set i b).getD j 0 = l.getD j 0 := by
  simp [List.getD, List.getElem?_set, h]

/-- One call of `parse`, from any position up to 14: position, length and terminator. -/
theorem parse_buffer (s : GPS) (b : Nat) (hp : s._bufferPos ≤ 14) :
    (parse s b)._bufferPos ≤ 14
      ∧ ∃ base, (base = s._buffer ∨ base = emptyBuffer)
          ∧ ((parse s b)._buffer = base
              ∨ ∃ i, i ≤ 13 ∧ (parse s b)._buffer = base.set i b) := by
  by_cases h14 : s._bufferPos < 14
  · obtain ⟨a1, a2⟩ := parse_buffer_lt s b h14
    refine ⟨a1, ?_⟩
    rcases a2 with e | e | ⟨i, hi, e⟩
    · exact ⟨s._buffer, Or.inl rfl, Or.inl e⟩
    · exact ⟨emptyBuffer, Or.inr rfl, Or.inl e⟩
    · exact ⟨s._buffer, Or.inl rfl, Or.inr ⟨i, hi, e⟩⟩
  · rw [parse_overflow s b (by omega)]
    obtain ⟨a1, a2⟩ := parse_buffer_lt (invalidContnet s) b (by simp [invalidContnet])
    refine ⟨a1, emptyBuffer, Or.inr rfl, ?_⟩
    rcases a2 with e | e | ⟨i, hi, e⟩
    · exact Or.inl e
    · exact Or.inl e
    · exact Or.inr ⟨i, hi, e⟩

/-! ## Overflow of a field -/

/-- The parser has dropped the sentence: kind UNKNOWN, pending time and date cleared. -/
theorem parse_fieldByte_cleared (s : GPS) (b : Nat) (hb : fieldByte b)
    (h : s._sentType = Sentence.UNKNOWN ∧ s._time = 0 ∧ s._date = 0) :
    (parse s b)._sentType = Sentence.UNKNOWN ∧ (parse s b)._time = 0 ∧ (parse s b)._date = 0 := by
  by_cases h14 : s._bufferPos < 14
  · rw [parse_fieldByte s b hb h14]
    exact h
  · rw [parse_overflow s b (by omega), parse_fieldByte _ b hb (by simp [invalidContnet])]
    exact ⟨rfl, rfl, rfl⟩

theorem feed_fieldBytes_cleared (bs : List Nat) :
    ∀ s : GPS, (∀ b ∈ bs, fieldByte b) →
      (s._sentType = Sentence.UNKNOWN ∧ s._time = 0 ∧ s._date = 0) →
      (feed s bs)._sentType = Sentence.UNKNOWN ∧ (feed s bs)._time = 0
        ∧ (feed s bs)._date = 0 := by
  induction bs with
  | nil => intro s _ h; exact h
  | cons b t ih =>
    intro s hb h
    rw [feed_cons]
    exact ih _ (fun x hx => hb x (by simp [hx]))
      (parse_fieldByte_cleared s b (hb b (by simp)) h)

theorem feed_overflow_aux (bs : List Nat) :
    ∀ s : GPS, (∀ b ∈ bs, fieldByte b) → s._bufferPos ≤ 14 → 15 ≤ s._bufferPos + bs.length →
      (feed s bs)._sentType = Sentence.UNKNOWN ∧ (feed s bs)._time = 0
        ∧ (feed s bs)._date = 0 := by
  induction bs with
  | nil => intro s _ h1 h2; simp at h2; omega
  | cons b t ih =>
    intro s hb h1 h2
    have hbt : ∀ x ∈ t, fieldByte x := fun x hx => hb x (by simp [hx])
    rw [feed_cons]
    by_cases h14 : s._bufferPos < 14
    · apply ih _ hbt
      · rw [parse_fieldByte s b (hb b (by simp)) h14]
        show (s._bufferPos + 1) % 256 ≤ 14
        omega
      · rw [parse_fieldByte s b (hb b (by simp)) h14]
        show 15 ≤ (s._bufferPos + 1) % 256 + t.length
        simp only [List.length_cons] at h2
        omega
    · apply feed_fieldBytes_cleared t _ hbt
      rw [parse_overflow s b (by omega), parse_fieldByte _ b (hb b (by simp))
        (by simp [invalidContnet])]
      exact ⟨rfl, rfl, rfl⟩

/-- C11: for every parser state with buffer position at most 14 and a buffer of 15 bytes,
and every input byte, `parse` stores at most one byte, at a buffer index up to 13, leaves
the buffer position at most 14 and leaves the terminator at index 14 zero; and 15
consecutive non-delimiter bytes leave the sentence kind UNKNOWN with the pending time and
date cleared. -/
theorem parse_buffer_safe (s : GPS) (b : Nat) (bs : List Nat) (hp : s._bufferPos ≤ 14)
    (hl : s._buffer.length = 15) (hlen : bs.length = 15) (hb : ∀ x ∈ bs, fieldByte x) :
    (parse s b)._bufferPos ≤ 14
      ∧ (parse s b)._buffer.length = 15
      ∧ (∃ base, (base = s._buffer ∨ base = emptyBuffer)
          ∧ ((parse s b)._buffer = base
              ∨ ∃ i, i ≤ 13 ∧ (parse s b)._buffer = base.set i b))
      ∧ (s._buffer.getD 14 0 = 0 → (parse s b)._buffer.getD 14 0 = 0)
      ∧ (feed s bs)._sentType = Sentence.UNKNOWN
      ∧ (feed s bs)._time = 0
      ∧ (feed s bs)._date = 0 := by
  obtain ⟨a1, base, a2, a3⟩ := parse_buffer s b hp
  have hbl : base.length = 15 := by
    rcases a2 with rfl | rfl
    · exact hl
    · rfl
  have hb14 : s._buffer.getD 14 0 = 0 → base.getD 14 0 = 0 := by
    intro h0
    rcases a2 with rfl | rfl
    · exact h0
    · rfl
  refine ⟨a1, ?_, ⟨base, a2, a3⟩, ?_, feed_overflow_aux bs s hb hp (by omega)⟩
  · rcases a3 with e | ⟨i, _, e⟩
    · rw [e]; exact hbl
    · rw [e, List.length_set]; exact hbl
  · intro h0
    rcases a3 with e | ⟨i, hi, e⟩
    · rw [e]; exact hb14 h0
    · rw [e, getD_set_of_ne _ _ _ _ (by omega)]; exact hb14 h0

set_option maxRecDepth 100000 in
/-- C11, witness: a fresh parser that has read `$GPRMC,` is fed 15 letters `A`. -/
theorem parse_buffer_safe_witness :
    (feed (feed (init ctor) (ascii "$GPRMC,")) (List.replicate 15 65))._sentType
      = Sentence.UNKNOWN :=
  (parse_buffer_safe (feed (init ctor) (ascii "$GPRMC,")) 65 (List.replicate 15 65)
    (by decide) (by decide) (by decide) (by decide)).2.2.2.2.1

/-! ## The running checksum -/

/-- Finalizing a field before the checksum field advances the stage and clears the
buffer; checksum and skip flag are untouched. -/
theorem finalizeSentence_stage (t : GPS) (n : Nat) (hst : stage t = n) (hn : n ≤ 12)
    (h0 : n = 0 → Libc.cstr t._buffer = tagGPRMC) :
    stage (finalizeSentence t) = n + 1 ∧ (finalizeSentence t)._checksum = t._checksum
      ∧ (finalizeSentence t)._skipCheck = t._skipCheck
      ∧ (finalizeSentence t)._bufferPos = 0 ∧ (finalizeSentence t)._buffer = emptyBuffer := by
  unfold stage at hst
  unfold finalizeSentence
  cases h1 : t._sentType
  · rw [h1] at hst
    simp only at hst
    have hb : Libc.cstr t._buffer = [71, 80, 82, 77, 67] := h0 hst.symm
    simp only [hb, if_true]
    subst hst
    exact ⟨rfl, rfl, rfl, rfl, rfl⟩
  · rw [h1] at hst
    simp only at hst
    simp only []
    unfold process
    cases h2 : t._bufferReq <;> rw [h2] at hst <;> simp only [fieldIndex] at hst
    case UNKNOWN => omega
    case CheckSum => omega
    all_goals (subst hst; exact ⟨by simp [stage, resetContnet, fieldIndex, h1], rfl, rfl, rfl, rfl⟩)

theorem feed_field_checksum (s : GPS) (f : List Nat) (h1 : s._bufferPos = 0)
    (h2 : s._buffer = emptyBuffer) (hf : wellFormedField f) :
    (feed s f)._checksum = if s._skipCheck then s._checksum else xorRun s._checksum f := by
  rw [feed_field s f h1 h2 hf]

theorem xorRun_cons (c b : Nat) (bs : List Nat) :
    xorRun c (b :: bs) = xorRun ((c ^^^ b) % 256) bs := rfl

theorem xorRun_append (c : Nat) (a b : List Nat) :
    xorRun c (a ++ b) = xorRun (xorRun c a) b := by
  unfold xorRun; rw [List.foldl_append]

/-- A `,` and a field, read while the previous field is pending. -/
theorem fieldPending_step (t : GPS) (n : Nat) (cur : List Nat) (c : Nat) (f : List Nat)
    (h : fieldPending t n cur c) (hn : n ≤ 12) (hf : wellFormedField f) :
    fieldPending (feed t (44 :: f)) (n + 1) f (xorRun c (44 :: f)) := by
  obtain ⟨a1, a2, a3, a4, a5, a6, a7⟩ := h
  have hcs : Libc.cstr t._buffer = Libc.cstr cur := by rw [a4, cstr_pad]
  obtain ⟨b1, b2, b3, b4, b5⟩ :=
    finalizeSentence_stage { t with _checksum := (t._checksum ^^^ 44) % 256 } n a1 hn
      (fun h0 => by
        show Libc.cstr t._buffer = tagGPRMC
        rw [hcs, a2 h0]; rfl)
  rw [feed_cons, parse_comma t (by omega), feed_field _ f b4 b5 hf]
  refine ⟨b1, fun h0 => by omega, rfl, rfl, hf.1, b3.trans a6, ?_⟩
  show (if (finalizeSentence _)._skipCheck = true then _ else _) = _
  rw [b3.trans a6, b2]
  simp only [Bool.false_eq_true, if_false]
  rw [xorRun_cons, ← a7]

theorem fieldPending_fields (fs : List (List Nat)) :
    ∀ (t : GPS) (n : Nat) (cur : List Nat) (c : Nat), fieldPending t n cur c →
      n + fs.length ≤ 12 → (∀ f ∈ fs, wellFormedField f) →
      ∃ cur1, fieldPending (feed t (fs.map (fun f => 44 :: f)).flatten) (n + fs.length) cur1
        (xorRun c (fs.map (fun f => 44 :: f)).flatten) := by
  induction fs with
  | nil => intro t n cur c h _ _; exact ⟨cur, h⟩
  | cons f rest ih =>
    intro t n cur c h hn hwf
    simp only [List.length_cons] at hn
    have hstep := fieldPending_step t n cur c f h (by omega) (hwf f (by simp))
    obtain ⟨cur1, h1⟩ := ih _ _ _ _ hstep (by omega) (fun g hg => hwf g (by simp [hg]))
    refine ⟨cur1, ?_⟩
    simp only [List.map_cons, List.flatten_cons, List.length_cons]
    rw [feed_append, xorRun_append, show n + (rest.length + 1) = n + 1 + rest.length by omega]
    exact h1

/-- C13: for every body `GPRMC,f1,...,fk` with at most 12 commas and fields of at most 13
bytes free of `$`, `,`, `*`, CR and LF, after feeding `$`, the body, `*` and up to 13
further non-delimiter bytes to an idle parser, the running checksum is the XOR of all
bytes of the body. -/
theorem running_checksum (s : GPS) (fs : List (List Nat)) (extra : List Nat) (hs : idle s)
    (hlen : fs.length ≤ 12) (hwf : ∀ f ∈ fs, wellFormedField f)
    (hex : wellFormedField extra) :
    (feed s (36 :: (rmcBody fs ++ 42 :: extra)))._checksum = xorAll (rmcBody fs) := by
  obtain ⟨i1, i2, i3⟩ := hs
  have h0 : fieldPending (feed s (36 :: tagGPRMC)) 0 tagGPRMC (xorRun 0 tagGPRMC) := by
    rw [feed_cons, parse_dollar s (by omega), feed_field _ tagGPRMC rfl rfl (by decide)]
    refine ⟨?_, fun _ => rfl, rfl, rfl, by decide, i3, ?_⟩
    · show stage { s with _checksum := _, _bufferPos := _, _buffer := _ } = 0
      unfold stage
      simp only [i1]
    · show (if s._skipCheck = true then _ else _) = _
      rw [i3]; rfl
  obtain ⟨cur1, a1, a2, a3, a4, a5, a6, a7⟩ :=
    fieldPending_fields fs _ 0 _ _ h0 (by omega) hwf
  have hcs : Libc.cstr (feed (feed s (36 :: tagGPRMC))
      (fs.map (fun f => 44 :: f)).flatten)._buffer = Libc.cstr cur1 := by
    rw [a4, cstr_pad]
  obtain ⟨b1, b2, b3, b4, b5⟩ :=
    finalizeSentence_stage _ _ a1 (by omega) (fun h0 => by rw [hcs, a2 h0]; rfl)
  have e : 36 :: (rmcBody fs ++ 42 :: extra)
      = (36 :: tagGPRMC) ++ ((fs.map (fun f => 44 :: f)).flatten ++ (42 :: extra)) := by
    simp [rmcBody, tagGPRMC]
  rw [e, feed_append, feed_append, feed_cons, parse_star _ (by omega)]
  generalize feed (feed s (36 :: tagGPRMC)) (fs.map (fun f => 44 :: f)).flatten = T at *
  rw [feed_field_checksum { finalizeSentence T with _skipCheck := true } extra b4 b5 hex,
    if_pos rfl]
  show (finalizeSentence T)._checksum = _
  rw [b2, a7, ← xorRun_append]
  have := (xorRun_rmcBody fs hwf).1
  unfold rmcBody at this ⊢
  exact this

set_option maxRecDepth 100000 in
/-- C13, witness: the body `GPRMC,050251.00,V,,,,,,,201222,,,N` and the bytes `7F`. -/
theorem running_checksum_witness :
    (feed (init ctor)
        (36 :: (rmcBody
            [ascii "050251.00", ascii "V", [], [], [], [], [], [], ascii "201222", [], [],
              ascii "N"] ++ 42 :: [55, 70])))._checksum = 127 :=
  (running_checksum (init ctor)
      [ascii "050251.00", ascii "V", [], [], [], [], [], [], ascii "201222", [], [],
        ascii "N"] [55, 70] (by decide) (by decide) (by decide) (by decide)).trans
    (by decide)

/-! ## Sentences with another tag -/

theorem sameFix_refl (s : GPS) : sameFix s s := ⟨rfl, rfl, rfl, rfl, rfl, rfl, rfl⟩

theorem finalizeSentence_unknown (t : GPS) (h1 : t._sentType = Sentence.UNKNOWN)
    (h2 : Libc.cstr t._buffer ≠ tagGPRMC) : finalizeSentence t = invalidContnet t := by
  unfold finalizeSentence
  have h3 : ¬ (Libc.cstr t._buffer = [71, 80, 82, 77, 67]) := h2
  rw [h1]
  simp only [h3, if_false]

theorem inBuffer_length (cur : List Nat) : (inBuffer cur).length ≤ 14 := by
  unfold inBuffer
  rw [List.length_drop]
  omega

theorem inBuffer_nil : inBuffer [] = [] := rfl

theorem overflowRest_of_lt (cur : List Nat) (h : (inBuffer cur).length < 14) :
    overflowRest cur = inBuffer cur := by
  unfold inBuffer at h ⊢
  unfold overflowRest
  rw [List.length_drop] at h
  have : cur.length / 14 = (cur.length - 1) / 14 := by omega
  rw [this]

theorem inBuffer_append_of_lt (cur : List Nat) (b : Nat) (h : (inBuffer cur).length < 14) :
    inBuffer (cur ++ [b]) = inBuffer cur ++ [b] := by
  unfold inBuffer at h ⊢
  rw [List.length_drop] at h
  simp only [List.length_append, List.length_singleton, Nat.add_sub_cancel]
  have e : cur.length / 14 = (cur.length - 1) / 14 := by omega
  rw [e, List.drop_append_of_le_length (by omega)]

theorem inBuffer_append_of_full (cur : List Nat) (b : Nat) (h : ¬ (inBuffer cur).length < 14) :
    inBuffer (cur ++ [b]) = [b] := by
  unfold inBuffer at h ⊢
  rw [List.length_drop] at h
  simp only [List.length_append, List.length_singleton, Nat.add_sub_cancel]
  have e : 14 * (cur.length / 14) = cur.length := by omega
  rw [e, List.drop_append_of_le_length (le_refl _), List.drop_length, List.nil_append]

theorem sameFix_invalidContnet (s t : GPS) (h : sameFix s t) : sameFix s (invalidContnet t) :=
  h

/-- A delimiter read in the UNKNOWN state with a buffer that does not read `GPRMC`, or
with a full buffer. -/
theorem parse_delim_unknown (s t : GPS) (buf : List Nat) (b : Nat) (hd : isDelim b = true)
    (h1 : t._sentType = Sentence.UNKNOWN) (h2 : t._bufferPos = buf.length)
    (h3 : t._buffer = buf ++ List.replicate (15 - buf.length) 0) (h4 : sameFix s t)
    (h5 : buf.length ≤ 14) (h6 : buf.length < 14 → Libc.cstr buf ≠ tagGPRMC) :
    (parse t b)._sentType = Sentence.UNKNOWN ∧ (parse t b)._bufferPos = 0
      ∧ (parse t b)._buffer = emptyBuffer ∧ sameFix s (parse t b) := by
  have hce : Libc.cstr emptyBuffer ≠ tagGPRMC := by decide
  have hcases : b = 44 ∨ b = 42 ∨ b = 13 ∨ b = 10 := by
    unfold isDelim at hd
    simp only [Bool.or_eq_true, beq_iff_eq] at hd
    omega
  by_cases h14 : t._bufferPos < 14
  · have hcs : Libc.cstr t._buffer ≠ tagGPRMC := by
      rw [h3, cstr_pad]; exact h6 (by omega)
    rcases hcases with rfl | rfl | rfl | rfl
    · rw [(parse_comma t h14).trans (finalizeSentence_unknown _ h1 hcs)]
      exact ⟨rfl, rfl, rfl, h4⟩
    · rw [parse_star t h14, finalizeSentence_unknown _ h1 hcs]
      exact ⟨rfl, rfl, rfl, h4⟩
    · rw [parse_cr t h14, finalizeSentence_unknown _ h1 hcs]
      exact ⟨rfl, rfl, rfl, h4⟩
    · rw [parse_lf t h14, finalizeSentence_unknown _ h1 hcs]
      exact ⟨rfl, rfl, rfl, h4⟩
  · have hp0 : (invalidContnet t)._bufferPos < 14 := by simp [invalidContnet]
    rw [parse_overflow t b (by omega)]
    rcases hcases with rfl | rfl | rfl | rfl
    · rw [(parse_comma _ hp0).trans (finalizeSentence_unknown _ rfl hce)]
      exact ⟨rfl, rfl, rfl, h4⟩
    · rw [parse_star _ hp0, finalizeSentence_unknown _ rfl hce]
      exact ⟨rfl, rfl, rfl, h4⟩
    · rw [parse_cr _ hp0, finalizeSentence_unknown _ rfl hce]
      exact ⟨rfl, rfl, rfl, h4⟩
    · rw [parse_lf _ hp0, finalizeSentence_unknown _ rfl hce]
      exact ⟨rfl, rfl, rfl, h4⟩

theorem feed_unknown (body : List Nat) :
    ∀ (s t : GPS) (cur : List Nat), t._sentType = Sentence.UNKNOWN →
      t._bufferPos = (inBuffer cur).length →
      t._buffer = inBuffer cur ++ List.replicate (15 - (inBuffer cur).length) 0 →
      sameFix s t → (∀ b ∈ body, b < 256 ∧ b ≠ 36) →
      (∀ seg ∈ splitFrom cur body, Libc.cstr (overflowRest seg) ≠ tagGPRMC) →
      sameFix s (feed t body) := by
  induction body with
  | nil => intro s t cur _ _ _ h4 _ _; exact h4
  | cons b rest ih =>
    intro s t cur h1 h2 h3 h4 hb hseg
    have hrest : ∀ x ∈ rest, x < 256 ∧ x ≠ 36 := fun x hx => hb x (by simp [hx])
    have hlen := inBuffer_length cur
    rw [feed_cons]
    unfold splitFrom at hseg
    by_cases hd : isDelim b = true
    · rw [if_pos hd] at hseg
      have hc := hseg cur (by simp)
      obtain ⟨p1, p2, p3, p4⟩ := parse_delim_unknown s t (inBuffer cur) b hd h1 h2 h3 h4 hlen
        (fun h => by rw [← overflowRest_of_lt cur h]; exact hc)
      exact ih s _ [] p1 (by simpa [inBuffer_nil] using p2)
        (by simpa [emptyBuffer, inBuffer_nil] using p3) p4 hrest
        (fun seg hs => hseg seg (by simp [hs]))
    · rw [if_neg hd] at hseg
      have hfb : fieldByte b := by
        have := hb b (by simp)
        unfold isDelim at hd
        simp only [Bool.or_eq_true, beq_iff_eq, not_or] at hd
        unfold fieldByte
        omega
      by_cases hlt : (inBuffer cur).length < 14
      · have hstep := parse_fieldByte t b hfb (by omega)
        have eb := inBuffer_append_of_lt cur b hlt
        apply ih s (parse t b) (cur ++ [b]) _ _ _ _ hrest hseg
        · rw [hstep]; exact h1
        · rw [hstep, eb]
          show (t._bufferPos + 1) % 256 = (inBuffer cur ++ [b]).length
          simp only [List.length_append, List.length_singleton]
          omega
        · rw [hstep, eb]
          show t._buffer.set t._bufferPos b = _
          rw [h3, h2, show 15 - (inBuffer cur).length = (14 - (inBuffer cur).length) + 1 by omega,
            set_pad]
          simp only [List.length_append, List.length_singleton]
          rw [show 15 - ((inBuffer cur).length + 1) = 14 - (inBuffer cur).length by omega]
        · rw [hstep]; exact h4
      · have hstep := parse_fieldByte (invalidContnet t) b hfb
          (show (0 : Nat) < 14 by decide)
        have eb := inBuffer_append_of_full cur b hlt
        rw [parse_overflow t b (by omega)]
        apply ih s (parse (invalidContnet t) b) (cur ++ [b]) _ _ _ _ hrest hseg
        · rw [hstep]; rfl
        · rw [hstep, eb]; rfl
        · rw [hstep, eb]; rfl
        · rw [hstep]; exact h4

/-- C12 (as amended): for every idle parser state and every byte sequence `$TAG,<rest>`
CR LF with no `$` in TAG and <rest>, in which no field (TAG and each run of bytes between
`,`, `*`, CR and LF), after its complete blocks of 14 bytes are dropped as the overflow
reset does, reads `GPRMC` up to its first NUL byte, feeding the whole sequence leaves the
confirmed time, date, speed, latitude and longitude and both validity flags unchanged. -/
theorem other_tag_ignored (s : GPS) (tag rest : List Nat) (hs : idle s)
    (hb : ∀ b ∈ tag ++ 44 :: rest ++ [13, 10], b < 256 ∧ b ≠ 36)
    (hseg : ∀ seg ∈ splitFields (tag ++ 44 :: rest ++ [13, 10]),
      Libc.cstr (overflowRest seg) ≠ tagGPRMC) :
    sameFix s (feed s (36 :: (tag ++ 44 :: rest ++ [13, 10]))) := by
  obtain ⟨i1, i2, i3⟩ := hs
  rw [feed_cons, parse_dollar s (by omega)]
  exact feed_unknown _ s _ [] i1 rfl rfl (sameFix_refl s) hb hseg

set_option maxRecDepth 100000 in
/-- C12, witness: the sentence `$GPTXT,01,01,02,u-blox ag - www.u-blox.com*50` CR LF, with
a field of 26 bytes, fed to a fresh parser. -/
theorem other_tag_ignored_witness :
    sameFix (init ctor)
      (feed (init ctor)
        (36 :: (ascii "GPTXT" ++ 44 :: ascii "01,01,02,u-blox ag - www.u-blox.com*50"
          ++ [13, 10]))) :=
  other_tag_ignored (init ctor) (ascii "GPTXT") (ascii "01,01,02,u-blox ag - www.u-blox.com*50")
    (by decide) (by decide) (by decide)

set_option maxRecDepth 100000 in
/-- C12, counterexample to the claim as stated: the tag `GPGGA` differs from `GPRMC` and
the rest contains no `$`, yet after `$GPGGA,GPRMC,050251.00,V,,,,,,,201222,,,N*7F` CR LF a
fresh parser has confirmed a time and a date: the field `GPRMC` is taken for a tag. The
same happens with the 19-byte tag `AAAAAAAAAAAAAAGPRMC`, whose first 14 bytes are dropped
when the buffer is full, and with the tag `AB$GPRMC`, whose `$` starts the field afresh. -/
theorem other_tag_confirmed :
    idle (init ctor) ∧ ascii "GPGGA" ≠ ascii "GPRMC"
      ∧ 36 ∉ ascii "GPRMC,050251.00,V,,,,,,,201222,,,N*7F"
      ∧ (init ctor).isValidTime = false
      ∧ (feed (init ctor)
          (ascii "$GPGGA,GPRMC,050251.00,V,,,,,,,201222,,,N*7F" ++ [13, 10])).isValidTime = true
      ∧ (feed (init ctor)
          (ascii "$GPGGA,GPRMC,050251.00,V,,,,,,,201222,,,N*7F" ++ [13, 10]))._fxdate
          = 201222
      ∧ ascii "AAAAAAAAAAAAAAGPRMC" ≠ ascii "GPRMC"
      ∧ 36 ∉ ascii "050251.00,V,,,,,,,201222,,,N*7F"
      ∧ (feed (init ctor)
          (ascii "$AAAAAAAAAAAAAAGPRMC,050251.00,V,,,,,,,201222,,,N*7F"
            ++ [13, 10])).isValidTime = true
      ∧ ascii "AB$GPRMC" ≠ ascii "GPRMC"
      ∧ (feed (init ctor)
          (ascii "$AB$GPRMC,050251.00,V,,,,,,,201222,,,N*7F" ++ [13, 10])).isValidTime
          = true := by
  decide

/-! ## Timestamp and date decoding -/

theorem digit_facts {x : Nat} (h : Libc.isdigit x = true) :
    (x != 0) = true ∧ Libc.isspace x = false ∧ x ≠ 45 ∧ x ≠ 43
      ∧ Libc.digitVal 10 x = some (x - 48) ∧ 48 ≤ x ∧ x ≤ 57 := by
  have hr := (isdigit_iff x).1 h
  refine ⟨by simp; omega, ?_, by omega, by omega, ?_, hr.1, hr.2⟩
  · unfold Libc.isspace
    simp only [Bool.or_eq_false_iff, Bool.and_eq_false_iff, beq_eq_false_iff_ne,
      decide_eq_false_iff_not]
    omega
  · unfold Libc.digitVal
    simp only [hr, and_self, if_true]
    rw [if_pos (by omega)]

/-- The value `atol` reads from six digits, also when a `.` and more bytes follow. -/
theorem atol_six (a b c d e f : Nat) (rest : List Nat) (ha : Libc.isdigit a = true)
    (hb : Libc.isdigit b = true) (hc : Libc.isdigit c = true) (hd : Libc.isdigit d = true)
    (he : Libc.isdigit e = true) (hf : Libc.isdigit f = true)
    (hr : rest = [] ∨ ∃ t, rest = 46 :: t) :
    Libc.atol (a :: b :: c :: d :: e :: f :: rest)
      = (((((((a - 48) * 10 + (b - 48)) * 10 + (c - 48)) * 10 + (d - 48)) * 10 + (e - 48)) * 10
          + (f - 48) : Nat) : Int) := by
  obtain ⟨_, a2, a3, a4, a5, a6, a7⟩ := digit_facts ha
  obtain ⟨_, _, _, _, b5, b6, b7⟩ := digit_facts hb
  obtain ⟨_, _, _, _, c5, c6, c7⟩ := digit_facts hc
  obtain ⟨_, _, _, _, d5, d6, d7⟩ := digit_facts hd
  obtain ⟨_, _, _, _, e5, e6, e7⟩ := digit_facts he
  obtain ⟨_, _, _, _, f5, f6, f7⟩ := digit_facts hf
  have h46 : Libc.digitVal 10 46 = none := by decide
  unfold Libc.atol Libc.strtol
  have e1 : List.dropWhile Libc.isspace (a :: b :: c :: d :: e :: f :: rest)
      = a :: b :: c :: d :: e :: f :: rest := by
    simp [List.dropWhile, a2]
  have e2 : Libc.splitSign (a :: b :: c :: d :: e :: f :: rest)
      = (false, a :: b :: c :: d :: e :: f :: rest) := by
    simp [Libc.splitSign, a3, a4]
  have e3 : Libc.skipHexLead 10 (a :: b :: c :: d :: e :: f :: rest)
      = a :: b :: c :: d :: e :: f :: rest := by
    simp [Libc.skipHexLead]
  have e4 : List.takeWhile (fun x => (Libc.digitVal 10 x).isSome)
      (a :: b :: c :: d :: e :: f :: rest) = [a, b, c, d, e, f] := by
    rcases hr with rfl | ⟨t, rfl⟩
    · simp [List.takeWhile, a5, b5, c5, d5, e5, f5]
    · simp [List.takeWhile, a5, b5, c5, d5, e5, f5, h46]
  simp only [e1, e2, e3, e4]
  simp only [List.map, a5, b5, c5, d5, e5, f5, Option.getD_some, Libc.digitsVal, List.foldl]
  have hv : ¬ ((((((0 * 10 + (a - 48)) * 10 + (b - 48)) * 10 + (c - 48)) * 10 + (d - 48)) * 10
      + (e - 48)) * 10 + (f - 48) > 2147483647) := by omega
  simp only [Bool.false_eq_true, if_false, hv]
  congr 1
  omega

theorem wrapInt32_of_range {x : Int} (h1 : -2147483648 ≤ x) (h2 : x ≤ 2147483647) :
    wrapInt32 x = x := by
  unfold wrapInt32; omega

/-- The three shapes of a timestamp field in terms of the digit values. -/
theorem str2Int_six (a b c d e f : Nat) (rest : List Nat) (va vb vc vd ve vf : Nat)
    (ha : Libc.isdigit a = true) (hb : Libc.isdigit b = true) (hc : Libc.isdigit c = true)
    (hd : Libc.isdigit d = true) (he : Libc.isdigit e = true) (hf : Libc.isdigit f = true)
    (hr : rest = [] ∨ ∃ t, rest = 46 :: t) (hz : ∀ x ∈ rest, x ≠ 0)
    (ea : a - 48 = va) (eb : b - 48 = vb) (ec : c - 48 = vc) (ed : d - 48 = vd)
    (ee : e - 48 = ve) (ef : f - 48 = vf) :
    Libc.cstr (a :: b :: c :: d :: e :: f :: rest) = a :: b :: c :: d :: e :: f :: rest
      ∧ List.dropWhile Libc.isdigit (a :: b :: c :: d :: e :: f :: rest) = rest
      ∧ a ≠ 45
      ∧ wrapInt32 (1 * wrapInt32 (100 * Libc.atol (a :: b :: c :: d :: e :: f :: rest)))
        = (((10 * va + vb) * 1000000 + (10 * vc + vd) * 10000 + (10 * ve + vf) * 100 : Nat) : Int)
      := by
  obtain ⟨a1, a2, a3, a4, a5, a6, a7⟩ := digit_facts ha
  obtain ⟨b1, _, _, _, b5, b6, b7⟩ := digit_facts hb
  obtain ⟨c1, _, _, _, c5, c6, c7⟩ := digit_facts hc
  obtain ⟨d1, _, _, _, d5, d6, d7⟩ := digit_facts hd
  obtain ⟨e1, _, _, _, e5, e6, e7⟩ := digit_facts he
  obtain ⟨f1, _, _, _, f5, f6, f7⟩ := digit_facts hf
  have hat := atol_six a b c d e f rest ha hb hc hd he hf hr
  rw [ea, eb, ec, ed, ee, ef] at hat
  have xa : va ≤ 9 := by omega
  have xb : vb ≤ 9 := by omega
  have xc : vc ≤ 9 := by omega
  have xd : vd ≤ 9 := by omega
  have xe : ve ≤ 9 := by omega
  have xf : vf ≤ 9 := by omega
  refine ⟨?_, ?_, a3, ?_⟩
  · have hrest : List.takeWhile (fun x => x != 0) rest = rest := by
      rw [List.takeWhile_eq_self_iff]
      intro x hx
      simpa using hz x hx
    unfold Libc.cstr
    simp only [List.takeWhile, a1, b1, c1, d1, e1, f1, hrest]
  · have hrest : List.dropWhile Libc.isdigit rest = rest := by
      rcases hr with rfl | ⟨t, rfl⟩
      · rfl
      · rfl
    simp only [List.dropWhile, ha, hb, hc, hd, he, hf, hrest]
  · have hin : wrapInt32 (100 * (((((((va * 10 + vb) * 10 + vc) * 10 + vd) * 10 + ve) * 10
        + vf : Nat) : Int))) = 100 * (((((((va * 10 + vb) * 10 + vc) * 10 + vd) * 10 + ve) * 10
        + vf : Nat) : Int)) := wrapInt32_of_range (by omega) (by omega)
    rw [hat, one_mul, hin, wrapInt32_of_range (by omega) (by omega)]
    omega

/-- C20: for a timestamp field of six decimal digits `hh mm ss`, alone or followed by `.`
and one or two decimal digits, `str2Int` returns `hh*1000000 + mm*10000 + ss*100 + cc`
(`cc` the fraction read as two digits, a missing digit counting as 0); and for a confirmed
time `hh*1000000 + mm*10000 + ss*100 + cc` and a confirmed date `dd*10000 + mo*100 + yy`,
each part in 0..99, the accessors return `hh`, `mm`, `ss`, `cc`, `dd`, `mo` and
`2000 + yy`. -/
theorem timestamp_decoding (a b c d e f g h : Nat) (s : GPS) (hh mm ss cc dd mo yy : Nat)
    (ha : Libc.isdigit a = true) (hb : Libc.isdigit b = true) (hc : Libc.isdigit c = true)
    (hd : Libc.isdigit d = true) (he : Libc.isdigit e = true) (hf : Libc.isdigit f = true)
    (hg : Libc.isdigit g = true) (hh1 : Libc.isdigit h = true)
    (bh : hh ≤ 99) (bm : mm ≤ 99) (bs : ss ≤ 99) (bc : cc ≤ 99) (bd : dd ≤ 99) (bo : mo ≤ 99)
    (by1 : yy ≤ 99)
    (ht : s._fxtime = ((hh * 1000000 + mm * 10000 + ss * 100 + cc : Nat) : Int))
    (hdt : s._fxdate = dd * 10000 + mo * 100 + yy) :
    str2Int [a, b, c, d, e, f]
        = (((10 * (a - 48) + (b - 48)) * 1000000 + (10 * (c - 48) + (d - 48)) * 10000
            + (10 * (e - 48) + (f - 48)) * 100 : Nat) : Int)
      ∧ str2Int [a, b, c, d, e, f, 46, g]
          = (((10 * (a - 48) + (b - 48)) * 1000000 + (10 * (c - 48) + (d - 48)) * 10000
              + (10 * (e - 48) + (f - 48)) * 100 + 10 * (g - 48) : Nat) : Int)
      ∧ str2Int [a, b, c, d, e, f, 46, g, h]
          = (((10 * (a - 48) + (b - 48)) * 1000000 + (10 * (c - 48) + (d - 48)) * 10000
              + (10 * (e - 48) + (f - 48)) * 100 + (10 * (g - 48) + (h - 48)) : Nat) : Int)
      ∧ s.hour = (hh : Int) ∧ s.minute = (mm : Int) ∧ s.second = (ss : Int)
      ∧ s.centisecond = (cc : Int) ∧ s.day = (dd : Int) ∧ s.month = (mo : Int)
      ∧ s.year = ((2000 + yy : Nat) : Int) := by
  obtain ⟨_, _, _, _, _, a6, a7⟩ := digit_facts ha
  obtain ⟨_, _, _, _, _, b6, b7⟩ := digit_facts hb
  obtain ⟨_, _, _, _, _, c6, c7⟩ := digit_facts hc
  obtain ⟨_, _, _, _, _, d6, d7⟩ := digit_facts hd
  obtain ⟨_, _, _, _, _, e6, e7⟩ := digit_facts he
  obtain ⟨_, _, _, _, _, f6, f7⟩ := digit_facts hf
  obtain ⟨_, _, _, _, _, g6, g7⟩ := digit_facts hg
  obtain ⟨_, _, _, _, _, h6, h7⟩ := digit_facts hh1
  have ag : g ≠ 0 := by omega
  have ah : h ≠ 0 := by omega
  refine ⟨?_, ?_, ?_, ?_, ?_, ?_, ?_, ?_, ?_, ?_⟩
  · obtain ⟨hcs, hdw, ne45, hv⟩ := str2Int_six a b c d e f [] _ _ _ _ _ _ ha hb hc hd he hf
      (Or.inl rfl) (by simp) rfl rfl rfl rfl rfl rfl
    unfold str2Int
    simp only [hcs, List.head?_cons, Option.some_beq_some, beq_iff_eq, ne45, if_false, hdw,
      Bool.false_eq_true]
    rw [if_neg (show ¬ (([] : List Nat).getD 0 0 = 46
      ∧ Libc.isdigit (([] : List Nat).getD 1 0) = true) by decide)]
    exact hv
  · obtain ⟨hcs, hdw, ne45, hv⟩ := str2Int_six a b c d e f [46, g] _ _ _ _ _ _ ha hb hc hd he hf
      (Or.inr ⟨_, rfl⟩) (by simp [ag]) rfl rfl rfl rfl rfl rfl
    unfold str2Int
    simp only [hcs, List.head?_cons, Option.some_beq_some, beq_iff_eq, ne45, if_false, hdw,
      Bool.false_eq_true]
    rw [if_pos (show [46, g].getD 0 0 = 46 ∧ Libc.isdigit ([46, g].getD 1 0) = true
      from ⟨rfl, hg⟩)]
    rw [if_neg (show ¬ (Libc.isdigit ([46, g].getD 2 0) = true) from
      (by decide : ¬ (Libc.isdigit 0 = true)))]
    rw [hv]
    show wrapInt32 (_ + 10 * ((g : Int) - 48)) = _
    rw [wrapInt32_of_range (by omega) (by omega)]
    omega
  · obtain ⟨hcs, hdw, ne45, hv⟩ := str2Int_six a b c d e f [46, g, h] _ _ _ _ _ _ ha hb hc hd he
      hf (Or.inr ⟨_, rfl⟩) (by simp [ag, ah]) rfl rfl rfl rfl rfl rfl
    unfold str2Int
    simp only [hcs, List.head?_cons, Option.some_beq_some, beq_iff_eq, ne45, if_false, hdw,
      Bool.false_eq_true]
    rw [if_pos (show [46, g, h].getD 0 0 = 46 ∧ Libc.isdigit ([46, g, h].getD 1 0) = true
      from ⟨rfl, hg⟩)]
    rw [if_pos (show Libc.isdigit ([46, g, h].getD 2 0) = true from hh1)]
    rw [hv]
    show wrapInt32 (wrapInt32 (_ + 10 * ((g : Int) - 48)) + ((h : Int) - 48)) = _
    have hin : wrapInt32 ((((10 * (a - 48) + (b - 48)) * 1000000
        + (10 * (c - 48) + (d - 48)) * 10000 + (10 * (e - 48) + (f - 48)) * 100 : Nat) : Int)
        + 10 * ((g : Int) - 48))
        = (((10 * (a - 48) + (b - 48)) * 1000000
        + (10 * (c - 48) + (d - 48)) * 10000 + (10 * (e - 48) + (f - 48)) * 100 : Nat) : Int)
        + 10 * ((g : Int) - 48) := wrapInt32_of_range (by omega) (by omega)
    rw [hin, wrapInt32_of_range (by omega) (by omega)]
    omega
  · unfold hour wrapInt8
    rw [ht]
    have : Int.tdiv ((hh * 1000000 + mm * 10000 + ss * 100 + cc : Nat) : Int) 1000000
        = (((hh * 1000000 + mm * 10000 + ss * 100 + cc) / 1000000 : Nat) : Int) := rfl
    rw [this]; omega
  · unfold minute wrapInt8
    rw [ht]
    have : Int.tmod (Int.tdiv ((hh * 1000000 + mm * 10000 + ss * 100 + cc : Nat) : Int) 10000) 100
        = (((hh * 1000000 + mm * 10000 + ss * 100 + cc) / 10000 % 100 : Nat) : Int) := rfl
    rw [this]; omega
  · unfold second wrapInt8
    rw [ht]
    have : Int.tmod (Int.tdiv ((hh * 1000000 + mm * 10000 + ss * 100 + cc : Nat) : Int) 100) 100
        = (((hh * 1000000 + mm * 10000 + ss * 100 + cc) / 100 % 100 : Nat) : Int) := rfl
    rw [this]; omega
  · unfold centisecond wrapInt8
    rw [ht]
    have : Int.tmod ((hh * 1000000 + mm * 10000 + ss * 100 + cc : Nat) : Int) 100
        = (((hh * 1000000 + mm * 10000 + ss * 100 + cc) % 100 : Nat) : Int) := rfl
    rw [this]; omega
  · unfold day wrapInt8
    rw [hdt]; omega
  · unfold month wrapInt8
    rw [hdt]; omega
  · unfold year wrapInt16 TimeUtils.u32
    rw [hdt]; omega

set_option maxRecDepth 100000 in
/-- C20, witness: the field `050251.00` and the date 201222, confirmed from the sentence
`$GPRMC,050251.00,V,,,,,,,201222,,,N*7F`. -/
theorem timestamp_decoding_witness :
    str2Int [48, 53, 48, 50, 53, 49, 46, 48, 48] = 5025100
      ∧ (feed (init ctor) (ascii "$GPRMC,050251.00,V,,,,,,,201222,,,N*7F" ++ [13])).year
          = 2022 :=
  ⟨(timestamp_decoding 48 53 48 50 53 49 48 48
      (feed (init ctor) (ascii "$GPRMC,050251.00,V,,,,,,,201222,,,N*7F" ++ [13]))
      5 2 51 0 20 12 22 (by decide) (by decide) (by decide) (by decide) (by decide)
      (by decide) (by decide) (by decide) (by decide) (by decide) (by decide) (by decide)
      (by decide) (by decide) (by decide) (by decide) (by decide)).2.2.1,
   (timestamp_decoding 48 53 48 50 53 49 48 48
      (feed (init ctor) (ascii "$GPRMC,050251.00,V,,,,,,,201222,,,N*7F" ++ [13]))
      5 2 51 0 20 12 22 (by decide) (by decide) (by decide) (by decide) (by decide)
      (by decide) (by decide) (by decide) (by decide) (by decide) (by decide) (by decide)
      (by decide) (by decide) (by decide) (by decide) (by decide)).2.2.2.2.2.2.2.2.2⟩

end GPS

namespace TimeUtils

/-! ## Claim C26 -/

/-- Both loops of `breakUnixTime` on a day number of the 32-bit range: the year loop ends
within its bound and the month loop ends at a month index below 12. -/
theorem breakUnixTime_loops (n : Nat) (hn : n ≤ 49710) :
    ∃ Z, yearLoop (n + 1) 1970 0 n = some (Z, daysBeforeYear (Z + 1))
      ∧ 1970 ≤ Z ∧ Z ≤ 2106
      ∧ sub32 n (sub32 (daysBeforeYear (Z + 1)) (yearLength Z)) = n - daysBeforeYear Z
      ∧ (monthLoop (isLeapYear (Z : Int)) 12 0 (n - daysBeforeYear Z)).1 ≤ 11
      ∧ (monthLoop (isLeapYear (Z : Int)) 12 0 (n - daysBeforeYear Z)).2
          < monthLen (isLeapYear (Z : Int))
              (monthLoop (isLeapYear (Z : Int)) 12 0 (n - daysBeforeYear Z)).1 := by
  obtain ⟨Z, z1, z2, z3, z4⟩ :=
    yearLoop_spec (n + 1) 1970 n (le_refl _) (by rw [daysBeforeYear_1970]; omega) hn
      (by rw [daysBeforeYear_1970]; omega)
  rw [daysBeforeYear_1970] at z1
  have hs := daysBeforeYear_succ Z z2
  have hb := yearLength_bounds Z
  have hY2 := year_le_of_days Z z2 (by omega)
  have hr : n - daysBeforeYear Z < 366 := by omega
  have hl : isLeapYear (Z : Int) = true ∨ n - daysBeforeYear Z < 365 := by
    rcases leapsUpTo_step Z (by omega) with ⟨l1, _, _⟩ | ⟨_, l2, _⟩
    · exact Or.inl l1
    · right; omega
  obtain ⟨d1, _, d3⟩ := monthLoop_decode (isLeapYear (Z : Int)) _ hr hl
  have e1 : sub32 (daysBeforeYear (Z + 1)) (yearLength Z) = daysBeforeYear Z := by
    rw [sub32_of_le (by omega) (by omega)]; omega
  have e2 : sub32 n (daysBeforeYear Z) = n - daysBeforeYear Z := by
    rw [sub32_of_le (by omega) (by omega)]
  exact ⟨Z, z1, z2, hY2, by rw [e1, e2], d1, d3⟩

/-- C26: for every input, `breakUnixTime` returns a record: the year loop ends within its
bound, the month loop ends at a month index of at most 11, and the record has
`1970 <= year <= 2106`, `1 <= month <= 12`, `1 <= day <=` the length of that month in that
year, `0 <= hour <= 23`, `0 <= min <= 59`, `0 <= sec <= 59` and `0 <= dotw <= 6`. -/
theorem breakUnixTime_total (t : Nat) :
    (∃ Z days, yearLoop (u32 t / 60 / 60 / 24 + 1) 1970 0 (u32 t / 60 / 60 / 24)
          = some (Z, days)
        ∧ (monthLoop (isLeapYear (Z : Int)) 12 0
            (sub32 (u32 t / 60 / 60 / 24) (sub32 days (yearLength Z)))).1 ≤ 11)
      ∧ ∃ tm, breakUnixTime t = some tm
          ∧ 1970 ≤ tm.year ∧ tm.year ≤ 2106 ∧ 1 ≤ tm.month ∧ tm.month ≤ 12 ∧ 1 ≤ tm.day
          ∧ tm.day ≤ (daysInMonth tm.year.toNat tm.month.toNat : Int)
          ∧ 0 ≤ tm.hour ∧ tm.hour ≤ 23 ∧ 0 ≤ tm.min ∧ tm.min ≤ 59
          ∧ 0 ≤ tm.sec ∧ tm.sec ≤ 59 ∧ 0 ≤ tm.dotw ∧ tm.dotw ≤ 6 := by
  have ht : u32 t < 4294967296 := by unfold u32; omega
  generalize hT : u32 t = T at ht
  have hn : T / 60 / 60 / 24 ≤ 49710 := by omega
  obtain ⟨Z, z1, z2, z3, z4, z5, z6⟩ := breakUnixTime_loops _ hn
  have hlen := monthLen_le (isLeapYear (Z : Int))
    (monthLoop (isLeapYear (Z : Int)) 12 0 (T / 60 / 60 / 24 - daysBeforeYear Z)).1 (by omega)
  refine ⟨⟨Z, _, z1, by rw [z4]; exact z5⟩, ?_⟩
  unfold breakUnixTime
  simp only [hT, z1, z4]
  refine ⟨_, rfl, ?_⟩
  simp only []
  rw [toInt16_of_lt (by omega), toInt8_of_lt (by omega), toInt8_of_lt (by omega),
    toInt8_of_lt (by omega), toInt8_of_lt (by omega), toInt8_of_lt (by omega),
    toInt8_of_lt (by omega)]
  rw [Int.toNat_ofNat, Int.toNat_ofNat, daysInMonth_eq _ _ (by omega), Nat.add_sub_cancel]
  refine ⟨by omega, by omega, by omega, by omega, by omega, by omega, by omega, by omega,
    by omega, by omega, by omega, by omega, by omega, by omega⟩

/-! ## The daylight-saving decision -/

/-- The decision of `isDst` in terms of the day number `B` of January 1st: the date is on
or after the last Sunday of March and before the last Sunday of October. -/
theorem isDst_table (leap : Bool) (B M D : Nat) (hM1 : 1 ≤ M) (hM12 : M ≤ 12) (hD1 : 1 ≤ D)
    (hD : D ≤ monthLen leap (M - 1)) :
    isDst (D : Int) (M : Int) (((B + monthStart leap (M - 1) + (D - 1) + 4) % 7 : Nat) : Int)
        = true
      ↔ (B + monthStart leap 2
            + (31 - 6 + (0 + 7 - ((B + monthStart leap 2 + 3) % 7 + 1 + 31) % 7) % 7 - 1)
          ≤ B + monthStart leap (M - 1) + (D - 1)
        ∧ B + monthStart leap (M - 1) + (D - 1)
          < B + monthStart leap 9
            + (31 - 6 + (0 + 7 - ((B + monthStart leap 9 + 3) % 7 + 1 + 31) % 7) % 7 - 1)) := by
  cases leap <;> interval_cases M <;>
    simp [monthStart, monthLen, _monthDays, isDst] at hD ⊢ <;> omega

theorem monthLen_march_october (leap : Bool) : monthLen leap 2 = 31 ∧ monthLen leap 9 = 31 := by
  cases leap <;> decide

/-- The instant `timeShift` computes for a last-Sunday rule at 1:00 in a month of 31 days,
as an exact second count. -/
theorem timeShift_last_sunday (Y M : Nat) (hY : 1970 ≤ Y) (hY2 : Y ≤ 2105) (hM1 : 1 ≤ M)
    (hM12 : M ≤ 12) (hL : monthLen (isLeapYear (Y : Int)) (M - 1) = 31) :
    timeShift { _week := 0, _month := M, _hour := 1, _dow := 0 } (Y : Int)
      = secondsOf
          (daysBeforeYear Y + monthStart (isLeapYear (Y : Int)) (M - 1)
            + (31 - 6
                + (0 + 7
                    - ((daysBeforeYear Y + monthStart (isLeapYear (Y : Int)) (M - 1) + 3) % 7
                        + 1 + 31) % 7) % 7 - 1)) 1 0 0 := by
  rw [timeShift_last Y M 0 1 hY hY2 hM1 hM12 (by omega), hL]
  have hv : validDateTime Y M
      (31 - 6
        + (0 + 7
            - ((daysBeforeYear Y + monthStart (isLeapYear (Y : Int)) (M - 1) + 3) % 7
                + 1 + 31) % 7) % 7) 1 0 0 := by
    unfold validDateTime
    rw [daysInMonth_eq Y M hM1, hL]
    omega
  exact (makeUnixTime_exact Y M _ 1 0 0 hY hY2 hv).1

/-! ## Claim C25 -/

/-- C25: for every valid date with year in 1970..2105, `dow = dayOfWeek(year, month, day)`
and `u = makeUnixTime(year, month, day, 12, 0, 0)`: `isDst(day, month, dow)` is true if and
only if `timeShift(CESTFrom, year) <= u <= timeShift(CESTTo, year)`, that is, if and only
if `localTime(u, timeShift(CESTFrom, year), timeShift(CESTTo, year)) = u + CESTOffset`. -/
theorem isDst_iff_window (Y M D : Nat) (hY : 1970 ≤ Y) (hY2 : Y ≤ 2105)
    (hv : validDateTime Y M D 12 0 0) :
    (isDst (D : Int) (M : Int) ((dayOfWeek (Y : Int) (M : Int) (D : Int) : Nat) : Int) = true
        ↔ (timeShift CESTFrom (Y : Int) ≤ makeUnixTime Y M D 12 0 0
            ∧ makeUnixTime Y M D 12 0 0 ≤ timeShift CESTTo (Y : Int)))
      ∧ (isDst (D : Int) (M : Int) ((dayOfWeek (Y : Int) (M : Int) (D : Int) : Nat) : Int) = true
        ↔ localTimeDefault (makeUnixTime Y M D 12 0 0) (timeShift CESTFrom (Y : Int))
            (timeShift CESTTo (Y : Int)) = makeUnixTime Y M D 12 0 0 + CESTOffset) := by
  obtain ⟨v1, v2, v3, v4, _, _, _⟩ := hv
  have hD : D ≤ monthLen (isLeapYear (Y : Int)) (M - 1) := by
    rw [← daysInMonth_eq Y M v1]; exact v4
  have hD31 := monthLen_le (isLeapYear (Y : Int)) (M - 1) (by omega)
  obtain ⟨hu, hub⟩ := makeUnixTime_exact Y M D 12 0 0 hY hY2
    ⟨v1, v2, v3, v4, by omega, by omega, by omega⟩
  obtain ⟨l3, l10⟩ := monthLen_march_october (isLeapYear (Y : Int))
  have hF : timeShift CESTFrom (Y : Int) = _ :=
    timeShift_last_sunday Y 3 hY hY2 (by omega) (by omega) l3
  have hT : timeShift CESTTo (Y : Int) = _ :=
    timeShift_last_sunday Y 10 hY hY2 (by omega) (by omega) l10
  have hdow := dayOfWeek_eq Y M D hY (by omega) v1 v2 v3 (by omega)
  have htab := isDst_table (isLeapYear (Y : Int)) (daysBeforeYear Y) M D v1 v2 v3 hD
  rw [hdow, hu, hF, hT, htab]
  simp only [show 3 - 1 = 2 from rfl, show 10 - 1 = 9 from rfl]
  generalize daysBeforeYear Y + monthStart (isLeapYear (Y : Int)) (M - 1) + (D - 1) = n at hub ⊢
  generalize daysBeforeYear Y + monthStart (isLeapYear (Y : Int)) 2
    + (31 - 6 + (0 + 7 - ((daysBeforeYear Y + monthStart (isLeapYear (Y : Int)) 2 + 3) % 7
        + 1 + 31) % 7) % 7 - 1) = a
  generalize daysBeforeYear Y + monthStart (isLeapYear (Y : Int)) 9
    + (31 - 6 + (0 + 7 - ((daysBeforeYear Y + monthStart (isLeapYear (Y : Int)) 9 + 3) % 7
        + 1 + 31) % 7) % 7 - 1) = b
  have k1 : secondsOf a 1 0 0 ≤ secondsOf n 12 0 0 ↔ a ≤ n := by unfold secondsOf; omega
  have k2 : secondsOf n 12 0 0 ≤ secondsOf b 1 0 0 ↔ n < b := by unfold secondsOf; omega
  have k3 : secondsOf n 12 0 0 + 7200 < 4294967296 := by unfold secondsOf; omega
  refine ⟨by rw [k1, k2], ?_⟩
  unfold localTimeDefault localTime
  have c1 : CESTOffset = 7200 := rfl
  have c2 : CETOffset = 3600 := rfl
  rw [c1, c2]
  by_cases hc : secondsOf n 12 0 0 ≥ secondsOf a 1 0 0 ∧ secondsOf n 12 0 0 ≤ secondsOf b 1 0 0
  · rw [if_pos hc, add32_of_lt k3]
    have h1 := k1.1 hc.1
    have h2 := k2.1 hc.2
    exact ⟨fun _ => rfl, fun _ => ⟨h1, h2⟩⟩
  · rw [if_neg hc, add32_of_lt (by omega)]
    constructor
    · intro h
      exact absurd ⟨k1.2 h.1, k2.2 h.2⟩ hc
    · intro h; omega

/-- C25, witness on the last Sunday of March 2024, at noon in summer time. -/
theorem isDst_iff_window_witness :
    isDst 31 3 ((dayOfWeek 2024 3 31 : Nat) : Int) = true
      ↔ (timeShift CESTFrom 2024 ≤ makeUnixTime 2024 3 31 12 0 0
          ∧ makeUnixTime 2024 3 31 12 0 0 ≤ timeShift CESTTo 2024) :=
  (isDst_iff_window 2024 3 31 (by decide) (by decide) (by decide)).1

end TimeUtils

namespace GPS

/-! ## The strict field sequence -/

/-- In a GPRMC sentence `process` clears the buffer and moves to the next field; after the
checksum field the sentence kind is UNKNOWN again. -/
theorem process_next (s : GPS) (hk : s._sentType = Sentence.GPRMC)
    (hq : s._bufferReq ≠ BufferContent.UNKNOWN) :
    (process s)._bufferPos = 0 ∧ (process s)._buffer = emptyBuffer
      ∧ (s._bufferReq ≠ BufferContent.CheckSum →
          (process s)._sentType = Sentence.GPRMC
            ∧ (process s)._bufferReq = nextField s._bufferReq)
      ∧ (s._bufferReq = BufferContent.CheckSum →
          (process s)._sentType = Sentence.UNKNOWN
            ∧ (process s)._bufferReq = BufferContent.CheckSum) := by
  unfold process
  cases hr : s._bufferReq with
  | UNKNOWN => exact absurd hr hq
  | CheckSum =>
    refine ⟨rfl, rfl, fun h => absurd rfl h, fun _ => ⟨rfl, ?_⟩⟩
    simp only [invalidContnet]
    split_ifs <;> first | exact hr | rfl
  | _ =>
    refine ⟨rfl, rfl, fun _ => ⟨hk, rfl⟩, fun h => ?_⟩
    cases h

/-- The invariant of the parser: a recognised sentence always expects one of its fields. -/
theorem finalizeSentence_expects (s : GPS)
    (hi : s._sentType = Sentence.GPRMC → s._bufferReq ≠ BufferContent.UNKNOWN) :
    (finalizeSentence s)._sentType = Sentence.GPRMC →
      (finalizeSentence s)._bufferReq ≠ BufferContent.UNKNOWN := by
  unfold finalizeSentence
  cases hk : s._sentType with
  | UNKNOWN =>
    simp only
    split_ifs
    · intro _ h; cases h
    · intro h; cases h
  | GPRMC =>
    simp only
    obtain ⟨_, _, p3, p4⟩ := process_next s hk (hi hk)
    intro h
    by_cases hc : s._bufferReq = BufferContent.CheckSum
    · rw [(p4 hc).1] at h; cases h
    · rw [(p3 hc).2]
      revert hc
      have := hi hk
      revert this
      cases s._bufferReq <;> simp [nextField]

theorem parse_expects (s : GPS) (b : Nat)
    (hi : s._sentType = Sentence.GPRMC → s._bufferReq ≠ BufferContent.UNKNOWN) :
    (parse s b)._sentType = Sentence.GPRMC →
      (parse s b)._bufferReq ≠ BufferContent.UNKNOWN := by
  have key : ∀ t : GPS, (t._sentType = Sentence.GPRMC → t._bufferReq ≠ BufferContent.UNKNOWN) →
      t._bufferPos < 14 →
      ((parse t b)._sentType = Sentence.GPRMC →
        (parse t b)._bufferReq ≠ BufferContent.UNKNOWN) := by
    intro t ht hp
    by_cases h36 : b = 36
    · subst h36; rw [parse_dollar t hp]; exact ht
    by_cases h44 : b = 44
    · subst h44; rw [parse_comma t hp]; exact finalizeSentence_expects _ ht
    by_cases h13 : b = 13
    · subst h13; rw [parse_cr t hp]; exact finalizeSentence_expects _ ht
    by_cases h10 : b = 10
    · subst h10; rw [parse_lf t hp]; exact finalizeSentence_expects _ ht
    by_cases h42 : b = 42
    · subst h42; rw [parse_star t hp]; exact finalizeSentence_expects _ ht
    · have hge : ¬ (t._bufferPos ≥ 14) := by omega
      unfold parse
      simp only [hge, if_false, h36, h44, h13, h10, h42, or_self]
      cases hsk : t._skipCheck <;> simpa [hsk] using ht
  by_cases hp : s._bufferPos < 14
  · exact key s hi hp
  · rw [parse_overflow s b (by omega)]
    exact key (invalidContnet s) (fun h => by cases h) (show (0 : Nat) < 14 by decide)

theorem feed_expects (bs : List Nat) :
    ∀ s : GPS, (s._sentType = Sentence.GPRMC → s._bufferReq ≠ BufferContent.UNKNOWN) →
      (feed s bs)._sentType = Sentence.GPRMC →
        (feed s bs)._bufferReq ≠ BufferContent.UNKNOWN := by
  induction bs with
  | nil => intro s hs; exact hs
  | cons b rest ih =>
    intro s hs
    rw [feed_cons]
    exact ih _ (parse_expects s b hs)

/-- A delimiter finalizes the field in the buffer. -/
theorem parse_delim_finalize (s : GPS) (d : Nat) (hp : s._bufferPos < 14)
    (hd : isDelim d = true) :
    ∃ t, (t._sentType = s._sentType ∧ t._bufferReq = s._bufferReq)
      ∧ (parse s d)._sentType = (finalizeSentence t)._sentType
      ∧ (parse s d)._bufferReq = (finalizeSentence t)._bufferReq
      ∧ (parse s d)._bufferPos = (finalizeSentence t)._bufferPos
      ∧ (parse s d)._buffer = (finalizeSentence t)._buffer := by
  have h4 : ((d = 44 ∨ d = 42) ∨ d = 13) ∨ d = 10 := by
    simpa [isDelim] using hd
  rcases h4 with ((rfl | rfl) | rfl) | rfl
  · exact ⟨{ s with _checksum := (s._checksum ^^^ 44) % 256 }, ⟨rfl, rfl⟩,
      by rw [parse_comma s hp], by rw [parse_comma s hp],
      by rw [parse_comma s hp], by rw [parse_comma s hp]⟩
  · exact ⟨s, ⟨rfl, rfl⟩, by rw [parse_star s hp], by rw [parse_star s hp],
      by rw [parse_star s hp], by rw [parse_star s hp]⟩
  · exact ⟨s, ⟨rfl, rfl⟩, by rw [parse_cr s hp], by rw [parse_cr s hp],
      by rw [parse_cr s hp], by rw [parse_cr s hp]⟩
  · exact ⟨s, ⟨rfl, rfl⟩, by rw [parse_lf s hp], by rw [parse_lf s hp],
      by rw [parse_lf s hp], by rw [parse_lf s hp]⟩

/-! ## Claim C22 -/

/-- C22: in every state reached from `init` by feeding bytes whose sentence kind is GPRMC,
the field expectation is one of the 13 fields, never UNKNOWN; and if the buffer position is
at most 13, `parse` of a delimiter (`,`, CR, LF or `*`) empties the buffer and moves the
expectation to its successor in the order Timestamp, ..., CheckSum with the kind unchanged,
except that from CheckSum the kind becomes UNKNOWN. -/
theorem strict_field_sequence (bs : List Nat) (d : Nat)
    (hk : (feed (init ctor) bs)._sentType = Sentence.GPRMC) (hd : isDelim d = true) :
    (feed (init ctor) bs)._bufferReq ≠ BufferContent.UNKNOWN
      ∧ ((feed (init ctor) bs)._bufferPos ≤ 13 →
          (parse (feed (init ctor) bs) d)._bufferPos = 0
            ∧ (parse (feed (init ctor) bs) d)._buffer = emptyBuffer
            ∧ ((feed (init ctor) bs)._bufferReq ≠ BufferContent.CheckSum →
                (parse (feed (init ctor) bs) d)._sentType = Sentence.GPRMC
                  ∧ (parse (feed (init ctor) bs) d)._bufferReq
                      = nextField (feed (init ctor) bs)._bufferReq)
            ∧ ((feed (init ctor) bs)._bufferReq = BufferContent.CheckSum →
                (parse (feed (init ctor) bs) d)._sentType = Sentence.UNKNOWN)) := by
  have hq := feed_expects bs (init ctor) (fun h => by cases h) hk
  refine ⟨hq, fun hp => ?_⟩
  generalize feed (init ctor) bs = s at hk hq hp
  obtain ⟨t, ⟨t1, t2⟩, e1, e2, e3, e4⟩ := parse_delim_finalize s d (by omega) hd
  have hf : finalizeSentence t = process t := by
    unfold finalizeSentence; rw [t1, hk]
  rw [hf] at e1 e2 e3 e4
  obtain ⟨p1, p2, p3, p4⟩ := process_next t (t1.trans hk) (by rw [t2]; exact hq)
  rw [t2] at p3 p4
  refine ⟨e3.trans p1, e4.trans p2, fun h => ?_, fun h => ?_⟩
  · exact ⟨e1.trans (p3 h).1, e2.trans (p3 h).2⟩
  · exact e1.trans (p4 h).1

set_option maxRecDepth 100000 in
/-- C22, witness: after `$GPRMC,220516` the comma moves the expectation from Timestamp to
PositionStatus. -/
theorem strict_field_sequence_witness :
    (parse (feed (init ctor) (ascii "$GPRMC,220516")) 44)._bufferReq
      = nextField (feed (init ctor) (ascii "$GPRMC,220516"))._bufferReq :=
  ((strict_field_sequence (ascii "$GPRMC,220516") 44 (by decide) (by decide)).2
    (by decide)).2.2.1 (by decide) |>.2

/-! ## Claim C24 -/

/-- Degrees and minutes: a field whose value is `100*D + m` with `0 <= m < 100` converts to
`D + m/60`. -/
theorem str2Degr_of_value (buf : List Nat) (D : Nat) (m : ℚ) (h0 : 0 ≤ m) (h1 : m < 100)
    (hx : Libc.atof (Libc.cstr buf) = 100 * (D : ℚ) + m) :
    str2Degr buf = (D : ℚ) + m / 60 := by
  unfold str2Degr
  simp only [hx]
  have hf : Int.floor ((100 * (D : ℚ) + m) / 100) = (D : Int) := by
    rw [Int.floor_eq_iff]
    constructor
    · rw [le_div_iff₀ (by norm_num)]
      push_cast
      linarith
    · rw [div_lt_iff₀ (by norm_num)]
      push_cast
      linarith
  rw [hf]
  push_cast
  ring

/-- C24: in exact rational arithmetic, for every field whose decimal value is `100*D + m`
with `D` a natural number and `0 <= m < 100`, `str2Degr` yields `D + m/60`; and after a
committed sentence with status `A` the confirmed latitude is `str2Degr` of the latitude
field, negated exactly when the hemisphere field begins with `S`, and the confirmed
longitude is `str2Degr` of the longitude field, negated exactly when its hemisphere field
begins with `W`. The fields `5133.82` and `00042.24` give `51 + 33.82/60` and
`42.24/60`. -/
theorem position_conversion (s : GPS) (f1 f2 f3 f4 f5 f6 f7 f8 f9 f10 f11 f12 : List Nat)
    (d1 d2 v1 v2 : Nat) (hs : idle s)
    (h1 : wellFormedField f1) (h2 : wellFormedField f2) (h3 : wellFormedField f3)
    (h4 : wellFormedField f4) (h5 : wellFormedField f5) (h6 : wellFormedField f6)
    (h7 : wellFormedField f7) (h8 : wellFormedField f8) (h9 : wellFormedField f9)
    (h10 : wellFormedField f10) (h11 : wellFormedField f11) (h12 : wellFormedField f12)
    (e1 : Libc.digitVal 16 d1 = some v1) (e2 : Libc.digitVal 16 d2 = some v2)
    (hx : 16 * v1 + v2 = xorAll (rmcBody [f1, f2, f3, f4, f5, f6, f7, f8, f9, f10, f11, f12]))
    (hA : f2.getD 0 0 = 65) :
    (∀ (buf : List Nat) (D : Nat) (m : ℚ), 0 ≤ m → m < 100 →
        Libc.atof (Libc.cstr buf) = 100 * (D : ℚ) + m → str2Degr buf = (D : ℚ) + m / 60)
      ∧ (feed s
          (rmcSentence [f1, f2, f3, f4, f5, f6, f7, f8, f9, f10, f11, f12] [d1, d2]
            ++ [13, 10])).latitude
          = (if f4.getD 0 0 = 83 then -(str2Degr f3) else str2Degr f3)
      ∧ (feed s
          (rmcSentence [f1, f2, f3, f4, f5, f6, f7, f8, f9, f10, f11, f12] [d1, d2]
            ++ [13, 10])).longitude
          = (if f6.getD 0 0 = 87 then -(str2Degr f5) else str2Degr f5)
      ∧ (feed s
          (rmcSentence [f1, f2, f3, f4, f5, f6, f7, f8, f9, f10, f11, f12] [d1, d2]
            ++ [13, 10])).isValidPosition = true
      ∧ Libc.atof (Libc.cstr (ascii "5133.82")) = 100 * ((51 : Nat) : ℚ) + (3382 / 100 : ℚ)
      ∧ str2Degr (ascii "5133.82") = 51 + (3382 / 100 : ℚ) / 60
      ∧ str2Degr (ascii "00042.24") = (4224 / 100 : ℚ) / 60 := by
  rw [feed_rmc_ok s hs f1 f2 f3 f4 f5 f6 f7 f8 f9 f10 f11 f12 h1 h2 h3 h4 h5 h6 h7 h8 h9 h10
      h11 h12 d1 d2 v1 v2 e1 e2 hx]
  refine ⟨str2Degr_of_value, ?_, ?_, ?_, ?_, str2Degr_lat, str2Degr_lon⟩
  · simp only [latitude, invalidContnet, hA, if_true, mul_neg, mul_one]
  · simp only [longitude, invalidContnet, hA, if_true, mul_neg, mul_one]
  · simp only [isValidPosition, invalidContnet, hA, beq_self_eq_true]
  · unfold Libc.atof
    rw [atofParts_lat]
    norm_num

set_option maxRecDepth 100000 in
/-- C24, witness: the sample sentence, latitude `5133.82` `N` and longitude `00042.24`
`W`. -/
theorem position_conversion_witness :
    (feed (init ctor)
        (rmcSentence [ascii "220516", ascii "A", ascii "5133.82", ascii "N",
          ascii "00042.24", ascii "W", ascii "173.8", ascii "231.8", ascii "130694",
          ascii "004.2", ascii "W", ascii "A"] [49, 68] ++ [13, 10])).longitude
      = (if (ascii "W").getD 0 0 = 87 then -(str2Degr (ascii "00042.24"))
          else str2Degr (ascii "00042.24")) :=
  (position_conversion (init ctor) (ascii "220516") (ascii "A") (ascii "5133.82") (ascii "N")
    (ascii "00042.24") (ascii "W") (ascii "173.8") (ascii "231.8")
    (ascii "130694") (ascii "004.2") (ascii "W") (ascii "A") 49 68 1 13
    (by decide) (by decide) (by decide) (by decide) (by decide) (by decide) (by decide)
    (by decide) (by decide) (by decide) (by decide) (by decide) (by decide) (by decide)
    (by decide) (by decide) (by decide)).2.2.1

/-! ## Claim C27 -/

set_option maxRecDepth 100000 in
/-- C27, the code at the failing input: after the sentence `$GPRMC,,V,,,,,,,,,,N*53` of
`gps.h` (no fix, empty date field, correct checksum) and CR, `isValidTime()` is true while
the confirmed date is 0, so `month()` is 0 and `weekDay()` reads `_dayOf` at index -1. -/
theorem weekDay_index_out_of_table :
    (feed (init ctor) (ascii "$GPRMC,,V,,,,,,,,,,N*53" ++ [13])).isValidTime = true
      ∧ (feed (init ctor) (ascii "$GPRMC,,V,,,,,,,,,,N*53" ++ [13]))._fxdate = 0
      ∧ (feed (init ctor) (ascii "$GPRMC,,V,,,,,,,,,,N*53" ++ [13])).month = 0
      ∧ weekDayIndex (feed (init ctor) (ascii "$GPRMC,,V,,,,,,,,,,N*53" ++ [13])) = -1
      ∧ ¬ (0 ≤ weekDayIndex (feed (init ctor) (ascii "$GPRMC,,V,,,,,,,,,,N*53" ++ [13]))
            ∧ weekDayIndex (feed (init ctor) (ascii "$GPRMC,,V,,,,,,,,,,N*53" ++ [13]))
                < (TimeUtils._dayOf.length : Int))
      ∧ (feed (init ctor)
          (ascii "$GPRMC,050251.00,V,,,,,,,201322,,,N*7E" ++ [13])).isValidTime = true
      ∧ (feed (init ctor) (ascii "$GPRMC,050251.00,V,,,,,,,201322,,,N*7E" ++ [13])).month
          = 13 := by
  decide

end GPS

namespace PCF8574

/-! ## Claim C21 -/

/-- C21, the code at the failing inputs: with a first read that is none of the four row
patterns (`0xff`, `0xf0`, `0x30`), `getKey4x4` returns the scan codes 0, 1, 2 for the
column patterns `0x0b`, `0x0d`, `0x0e` instead of `_invalidKey`, and `getCharKey4x4`
returns the character `1`; only the column pattern `0x07` gives `_invalidKey`. On the
sixteen pairs of the scan table the result is `4*i + j`. -/
theorem getKey4x4_invalid_row_wraps :
    0xff ∉ rowPatterns ∧ 0xf0 ∉ rowPatterns ∧ 0x30 ∉ rowPatterns
      ∧ getKey4x4 0xff 0x0b = 0 ∧ getKey4x4 0xf0 0x0d = 1 ∧ getKey4x4 0x30 0x0e = 2
      ∧ getKey4x4 0xff 0x07 = _invalidKey
      ∧ getCharKey4x4 0xff 0x0b = 49
      ∧ (∀ i ∈ [0, 1, 2, 3], ∀ j ∈ [0, 1, 2, 3],
          getKey4x4 (rowPatterns.getD i 0) (colPatterns.getD j 0) = 4 * i + j) := by
  decide

end PCF8574

namespace Binary64

/-! ## Binary64 rounding -/

theorem roundHalfEven_of_near (q : ℚ) (m : Int) (h : |q - m| < 1 / 2) : roundHalfEven q = m := by
  rw [abs_lt] at h
  obtain ⟨h1, h2⟩ := h
  unfold roundHalfEven
  by_cases hq : (m : ℚ) ≤ q
  · have hf : Int.floor q = m := by
      rw [Int.floor_eq_iff]
      constructor
      · exact hq
      · linarith
    simp only [hf]
    rw [if_pos (by linarith)]
  · have hf : Int.floor q = m - 1 := by
      rw [Int.floor_eq_iff]
      push_cast
      constructor
      · linarith
      · linarith
    simp only [hf]
    push_cast
    rw [if_neg (by linarith), if_pos (by linarith)]
    ring

/-- The rounding of `x` is `m / 2^k` when `|x| * 2^k` lies in `[2^52, 2^53)` and `x * 2^k`
is within one half of the integer `m`. -/
theorem rnd_of_near_abs (x : ℚ) (m : Int) (k : Nat) (hk : k ≤ 1074)
    (h1 : 2 ^ 52 ≤ |x| * 2 ^ k) (h2 : |x| * 2 ^ k < 2 ^ 53) (hm : |x * 2 ^ k - m| < 1 / 2) :
    rnd x = (m : ℚ) / 2 ^ k := by
  have hp : (0 : ℚ) < 2 ^ k := by positivity
  have hx : 0 < |x| := by
    by_contra hc
    have : |x| * 2 ^ k ≤ 0 := mul_nonpos_of_nonpos_of_nonneg (not_lt.1 hc) hp.le
    have : (0 : ℚ) < 2 ^ 52 := by norm_num
    linarith
  have hlog : Int.log 2 |x| = 52 - (k : Int) := by
    apply le_antisymm
    · have : Int.log 2 |x| < 52 - (k : Int) + 1 := by
        rw [← Int.lt_zpow_iff_log_lt (by norm_num) hx]
        rw [show (52 : Int) - k + 1 = 53 - k by ring, zpow_sub₀ (by norm_num), zpow_natCast]
        simp only [Nat.cast_ofNat]
        rw [lt_div_iff₀ hp]
        exact_mod_cast h2
      omega
    · rw [← Int.zpow_le_iff_le_log (by norm_num) hx]
      rw [zpow_sub₀ (by norm_num), zpow_natCast]
      simp only [Nat.cast_ofNat]
      rw [div_le_iff₀ hp]
      exact_mod_cast h1
  unfold rnd
  simp only [hlog]
  rw [max_eq_left (by omega), show (52 : Int) - k - 52 = -(k : Int) by ring, zpow_neg,
    zpow_natCast, div_inv_eq_mul, roundHalfEven_of_near _ m hm]
  rw [div_eq_mul_inv]

/-- The rounding of a positive `x`. -/
theorem rnd_of_near (x : ℚ) (m : Int) (k : Nat) (hk : k ≤ 1074) (h1 : 2 ^ 52 ≤ x * 2 ^ k)
    (h2 : x * 2 ^ k < 2 ^ 53) (hm : |x * 2 ^ k - m| < 1 / 2) :
    rnd x = (m : ℚ) / 2 ^ k := by
  have hp : (0 : ℚ) < 2 ^ k := by positivity
  have hx : 0 ≤ x := by
    by_contra hc
    have : x * 2 ^ k ≤ 0 := mul_nonpos_of_nonpos_of_nonneg (le_of_lt (not_le.1 hc)) hp.le
    have : (0 : ℚ) < 2 ^ 52 := by norm_num
    linarith
  exact rnd_of_near_abs x m k hk (by rw [abs_of_nonneg hx]; exact h1)
    (by rw [abs_of_nonneg hx]; exact h2) hm

/-- The rounding of the negative of a binary64 number is exact. -/
theorem rnd_neg_exact (m : Int) (k : Nat) (hk : k ≤ 1074) (h1 : 2 ^ 52 ≤ m) (h2 : m < 2 ^ 53) :
    rnd ((m : ℚ) / 2 ^ k * (-1)) = -((m : ℚ) / 2 ^ k) := by
  have hp : (0 : ℚ) < 2 ^ k := by positivity
  have hm0 : (0 : ℚ) ≤ (m : ℚ) / 2 ^ k := by
    apply div_nonneg _ hp.le
    have : (0 : Int) ≤ m := by omega
    exact_mod_cast this
  have e : (m : ℚ) / 2 ^ k * (-1) * 2 ^ k = -(m : ℚ) := by
    field_simp
  have ea : |(m : ℚ) / 2 ^ k * (-1)| * 2 ^ k = (m : ℚ) := by
    rw [mul_neg_one, abs_neg, abs_of_nonneg hm0]
    field_simp
  rw [rnd_of_near_abs _ (-m) k hk (by rw [ea]; exact_mod_cast h1)
    (by rw [ea]; exact_mod_cast h2) (by rw [e]; push_cast; simp)]
  push_cast
  ring

theorem rnd_zero : rnd 0 = 0 := by
  unfold rnd roundHalfEven
  simp

end Binary64

namespace GPS

/-! ## The parser over a floating-point arithmetic -/

theorem processIn_exact (s : GPS) : processIn exactArith s = process s := by
  unfold processIn process
  cases s._bufferReq <;> rfl

theorem finalizeSentenceIn_exact (s : GPS) :
    finalizeSentenceIn exactArith s = finalizeSentence s := by
  unfold finalizeSentenceIn finalizeSentence
  cases s._sentType
  · rfl
  · exact processIn_exact s

theorem parseIn_exact (s : GPS) (b : Nat) : parseIn exactArith s b = parse s b := by
  unfold parseIn parse
  simp only [finalizeSentenceIn_exact]

/-- In exact arithmetic the parser over an arithmetic is the parser `feed`. -/
theorem feedIn_exact (bytes : List Nat) : ∀ s, feedIn exactArith s bytes = feed s bytes := by
  induction bytes with
  | nil => intro s; rfl
  | cons b rest ih =>
    intro s
    show feedIn exactArith (parseIn exactArith s b) rest = feed (parse s b) rest
    rw [parseIn_exact, ih]

theorem feedIn_append (A : FloatArith) (s : GPS) (a b : List Nat) :
    feedIn A s (a ++ b) = feedIn A (feedIn A s a) b := by
  unfold feedIn; rw [List.foldl_append]

theorem feedIn_cons (A : FloatArith) (s : GPS) (a : Nat) (b : List Nat) :
    feedIn A s (a :: b) = feedIn A (parseIn A s a) b :=
  rfl

theorem feedIn_nil (A : FloatArith) (s : GPS) : feedIn A s [] = s := rfl

/-- A byte that is no delimiter is handled without any floating-point operation. -/
theorem parseIn_fieldByte (A : FloatArith) (s : GPS) (b : Nat) (hb : fieldByte b) :
    parseIn A s b = parse s b := by
  obtain ⟨_, h1, h2, h3, h4, h5⟩ := hb
  unfold parseIn parse
  simp only [h1, h2, h3, h4, h5, or_self, if_false]

theorem parseIn_dollar (A : FloatArith) (s : GPS) : parseIn A s 36 = parse s 36 := by
  unfold parseIn parse
  simp only [if_true]

theorem feedIn_fieldBytes (A : FloatArith) (f : List Nat) (hf : ∀ b ∈ f, fieldByte b) :
    ∀ s, feedIn A s f = feed s f := by
  induction f with
  | nil => intro s; rfl
  | cons b t ih =>
    intro s
    rw [feedIn_cons, feed_cons, parseIn_fieldByte A s b (hf b (by simp)),
      ih (fun x hx => hf x (by simp [hx]))]

theorem parseIn_comma (A : FloatArith) (s : GPS) (hp : s._bufferPos < 14) :
    parseIn A s 44
      = finalizeSentenceIn A { s with _checksum := (s._checksum ^^^ 44) % 256 } := by
  unfold parseIn
  have : ¬ (s._bufferPos ≥ 14) := by omega
  simp [this]

theorem parseIn_star (A : FloatArith) (s : GPS) (hp : s._bufferPos < 14) :
    parseIn A s 42 = { finalizeSentenceIn A s with _skipCheck := true } := by
  unfold parseIn
  have : ¬ (s._bufferPos ≥ 14) := by omega
  simp [this]

theorem parseIn_cr (A : FloatArith) (s : GPS) (hp : s._bufferPos < 14) :
    parseIn A s 13 = finalizeSentenceIn A s := by
  unfold parseIn
  have : ¬ (s._bufferPos ≥ 14) := by omega
  simp [this]

theorem parseIn_lf_invalid (A : FloatArith) (s : GPS) :
    parseIn A (invalidContnet s) 10 = invalidContnet s := by
  unfold parseIn
  have : Libc.cstr emptyBuffer ≠ [71, 80, 82, 77, 67] := by decide
  simp [invalidContnet, finalizeSentenceIn, this]

theorem feedIn_field_comma (A : FloatArith) (s : GPS) (f rest : List Nat)
    (h1 : s._bufferPos = 0) (h2 : s._buffer = emptyBuffer) (h3 : s._skipCheck = false)
    (hf : wellFormedField f) :
    feedIn A s (f ++ 44 :: rest) =
      feedIn A (finalizeSentenceIn A
        { s with
          _checksum := (xorRun s._checksum f ^^^ 44) % 256
          _buffer := f ++ List.replicate (15 - f.length) 0
          _bufferPos := f.length }) rest := by
  rw [feedIn_append, feedIn_cons, feedIn_fieldBytes A f hf.2, feed_field s f h1 h2 hf,
    parseIn_comma _ _ (by have := hf.1; simp; omega)]
  simp [h3]

theorem feedIn_field_star (A : FloatArith) (s : GPS) (f rest : List Nat)
    (h1 : s._bufferPos = 0) (h2 : s._buffer = emptyBuffer) (h3 : s._skipCheck = false)
    (hf : wellFormedField f) :
    feedIn A s (f ++ 42 :: rest) =
      feedIn A { finalizeSentenceIn A
        { s with
          _checksum := xorRun s._checksum f
          _buffer := f ++ List.replicate (15 - f.length) 0
          _bufferPos := f.length } with _skipCheck := true } rest := by
  rw [feedIn_append, feedIn_cons, feedIn_fieldBytes A f hf.2, feed_field s f h1 h2 hf,
    parseIn_star _ _ (by have := hf.1; simp; omega)]
  simp [h3]

theorem feedIn_field_cr (A : FloatArith) (s : GPS) (f rest : List Nat)
    (h1 : s._bufferPos = 0) (h2 : s._buffer = emptyBuffer) (h3 : s._skipCheck = true)
    (hf : wellFormedField f) :
    feedIn A s (f ++ 13 :: rest) =
      feedIn A (finalizeSentenceIn A
        { s with
          _buffer := f ++ List.replicate (15 - f.length) 0
          _bufferPos := f.length }) rest := by
  rw [feedIn_append, feedIn_cons, feedIn_fieldBytes A f hf.2, feed_field s f h1 h2 hf,
    parseIn_cr _ _ (by have := hf.1; simp; omega)]
  simp [h3]

/-- The state after `$GPRMC,f1,...,f12*` over an arithmetic `A`: the pending values are
those of the fields, the floating-point ones computed by `A` from the buffer contents. -/
theorem feedIn_rmc_pending (A : FloatArith) (s : GPS) (hs : idle s)
    (f1 f2 f3 f4 f5 f6 f7 f8 f9 f10 f11 f12 : List Nat)
    (h1 : wellFormedField f1) (h2 : wellFormedField f2) (h3 : wellFormedField f3)
    (h4 : wellFormedField f4) (h5 : wellFormedField f5) (h6 : wellFormedField f6)
    (h7 : wellFormedField f7) (h8 : wellFormedField f8) (h9 : wellFormedField f9)
    (h10 : wellFormedField f10) (h11 : wellFormedField f11) (h12 : wellFormedField f12) :
    feedIn A s (36 :: (rmcBody [f1, f2, f3, f4, f5, f6, f7, f8, f9, f10, f11, f12] ++ [42])) =
      { s with
        _skipCheck := true
        _time := str2Int f1
        _validPosition := (f2.getD 0 0 == 65)
        _latitude :=
          if f4.getD 0 0 = 83 then
            A.negate (A.str2Degr (f3 ++ List.replicate (15 - f3.length) 0))
          else A.str2Degr (f3 ++ List.replicate (15 - f3.length) 0)
        _longitude :=
          if f6.getD 0 0 = 87 then
            A.negate (A.str2Degr (f5 ++ List.replicate (15 - f5.length) 0))
          else A.str2Degr (f5 ++ List.replicate (15 - f5.length) 0)
        _speed := A.speedKmh (str2Int f7)
        _date := TimeUtils.ofInt32 (Libc.atol (Libc.cstr f9))
        _checksum := xorRun 0 (rmcBody [f1, f2, f3, f4, f5, f6, f7, f8, f9, f10, f11, f12])
        _bufferPos := 0
        _buffer := emptyBuffer
        _bufferReq := BufferContent.CheckSum
        _sentType := Sentence.GPRMC } := by
  obtain ⟨i1, i2, i3⟩ := hs
  cases s
  simp only at i1 i2 i3
  subst i1 i2 i3
  have e : 36 :: (rmcBody [f1, f2, f3, f4, f5, f6, f7, f8, f9, f10, f11, f12] ++ [42])
      = 36 :: ([71, 80, 82, 77, 67] ++ 44 :: (f1 ++ 44 :: (f2 ++ 44 :: (f3 ++ 44 :: (f4 ++ 44 ::
          (f5 ++ 44 :: (f6 ++ 44 :: (f7 ++ 44 :: (f8 ++ 44 :: (f9 ++ 44 :: (f10 ++ 44 ::
          (f11 ++ 44 :: (f12 ++ 42 :: []))))))))))))) := by
    simp [rmcBody]
  have ec : xorRun 0 (rmcBody [f1, f2, f3, f4, f5, f6, f7, f8, f9, f10, f11, f12])
      = xorRun ((xorRun ((xorRun ((xorRun ((xorRun ((xorRun ((xorRun ((xorRun ((xorRun
          ((xorRun ((xorRun ((xorRun ((xorRun 0 [71, 80, 82, 77, 67] ^^^ 44) % 256) f1 ^^^ 44) % 256)
          f2 ^^^ 44) % 256) f3 ^^^ 44) % 256) f4 ^^^ 44) % 256) f5 ^^^ 44) % 256) f6 ^^^ 44) % 256)
          f7 ^^^ 44) % 256) f8 ^^^ 44) % 256) f9 ^^^ 44) % 256) f10 ^^^ 44) % 256) f11 ^^^ 44) % 256)
          f12 := by
    simp [rmcBody, xorRun, List.foldl_append]
  rw [e, ec, feedIn_cons, parseIn_dollar, parse_dollar _ (by simp)]
  rw [feedIn_field_comma _ _ _ _ rfl rfl rfl wellFormedField_tag]
  simp only [finalizeSentenceIn, cstr_pad, cstr_tag, if_true, resetContnet]
  rw [feedIn_field_comma _ _ _ _ rfl rfl rfl h1]
  simp only [finalizeSentenceIn, processIn, resetContnet, str2Int_pad]
  rw [feedIn_field_comma _ _ _ _ rfl rfl rfl h2]
  simp only [finalizeSentenceIn, processIn, resetContnet, getD_pad]
  rw [feedIn_field_comma _ _ _ _ rfl rfl rfl h3]
  simp only [finalizeSentenceIn, processIn, resetContnet]
  rw [feedIn_field_comma _ _ _ _ rfl rfl rfl h4]
  simp only [finalizeSentenceIn, processIn, resetContnet, getD_pad]
  rw [feedIn_field_comma _ _ _ _ rfl rfl rfl h5]
  simp only [finalizeSentenceIn, processIn, resetContnet]
  rw [feedIn_field_comma _ _ _ _ rfl rfl rfl h6]
  simp only [finalizeSentenceIn, processIn, resetContnet, getD_pad]
  rw [feedIn_field_comma _ _ _ _ rfl rfl rfl h7]
  simp only [finalizeSentenceIn, processIn, resetContnet, str2Int_pad]
  rw [feedIn_field_comma _ _ _ _ rfl rfl rfl h8]
  simp only [finalizeSentenceIn, processIn, resetContnet, cstr_pad]
  rw [feedIn_field_comma _ _ _ _ rfl rfl rfl h9]
  simp only [finalizeSentenceIn, processIn, resetContnet, cstr_pad]
  rw [feedIn_field_comma _ _ _ _ rfl rfl rfl h10]
  simp only [finalizeSentenceIn, processIn, resetContnet]
  rw [feedIn_field_comma _ _ _ _ rfl rfl rfl h11]
  simp only [finalizeSentenceIn, processIn, resetContnet]
  rw [feedIn_field_star _ _ _ _ rfl rfl rfl h12]
  simp only [finalizeSentenceIn, processIn, resetContnet, feedIn_nil]

/-- Over an arithmetic `A`, a well-formed 12-field sentence with the right checksum digits,
followed by CR LF, commits the pending values. -/
theorem feedIn_rmc_ok (A : FloatArith) (s : GPS) (hs : idle s)
    (f1 f2 f3 f4 f5 f6 f7 f8 f9 f10 f11 f12 : List Nat)
    (h1 : wellFormedField f1) (h2 : wellFormedField f2) (h3 : wellFormedField f3)
    (h4 : wellFormedField f4) (h5 : wellFormedField f5) (h6 : wellFormedField f6)
    (h7 : wellFormedField f7) (h8 : wellFormedField f8) (h9 : wellFormedField f9)
    (h10 : wellFormedField f10) (h11 : wellFormedField f11) (h12 : wellFormedField f12)
    (d1 d2 v1 v2 : Nat) (e1 : Libc.digitVal 16 d1 = some v1)
    (e2 : Libc.digitVal 16 d2 = some v2)
    (hx : 16 * v1 + v2 = xorAll (rmcBody [f1, f2, f3, f4, f5, f6, f7, f8, f9, f10, f11, f12])) :
    feedIn A s
        (rmcSentence [f1, f2, f3, f4, f5, f6, f7, f8, f9, f10, f11, f12] [d1, d2] ++ [13, 10]) =
      invalidContnet
        { s with
          _fxtime := str2Int f1
          _fxdate := TimeUtils.ofInt32 (Libc.atol (Libc.cstr f9))
          _fxspeed := if f2.getD 0 0 = 65 then A.speedKmh (str2Int f7) else 0
          _fxlatitude :=
            if f2.getD 0 0 = 65 then
              (if f4.getD 0 0 = 83 then
                A.negate (A.str2Degr (f3 ++ List.replicate (15 - f3.length) 0))
              else A.str2Degr (f3 ++ List.replicate (15 - f3.length) 0))
            else 0
          _fxlongitude :=
            if f2.getD 0 0 = 65 then
              (if f6.getD 0 0 = 87 then
                A.negate (A.str2Degr (f5 ++ List.replicate (15 - f5.length) 0))
              else A.str2Degr (f5 ++ List.replicate (15 - f5.length) 0))
            else 0
          _validPosition := (f2.getD 0 0 == 65)
          _validDateTime := true
          _bufferReq := BufferContent.CheckSum } := by
  have hall : ∀ f ∈ [f1, f2, f3, f4, f5, f6, f7, f8, f9, f10, f11, f12], wellFormedField f := by
    intro f hf
    simp only [List.mem_cons, List.mem_singleton, List.not_mem_nil, or_false] at hf
    rcases hf with rfl | rfl | rfl | rfl | rfl | rfl | rfl | rfl | rfl | rfl | rfl | rfl <;>
      assumption
  have e : rmcSentence [f1, f2, f3, f4, f5, f6, f7, f8, f9, f10, f11, f12] [d1, d2] ++ [13, 10]
      = (36 :: (rmcBody [f1, f2, f3, f4, f5, f6, f7, f8, f9, f10, f11, f12] ++ [42]))
          ++ ([d1, d2] ++ 13 :: [10]) := by
    simp [rmcSentence]
  have hh := strtol_hex2 e1 e2 13
  rw [hx] at hh
  rw [e, feedIn_append,
    feedIn_rmc_pending A s hs f1 f2 f3 f4 f5 f6 f7 f8 f9 f10 f11 f12 h1 h2 h3 h4 h5 h6 h7 h8 h9
      h10 h11 h12,
    (xorRun_rmcBody _ hall).1, feedIn_field_cr _ _ _ _ rfl rfl rfl (wellFormedField_hex2 e1 e2)]
  simp only [finalizeSentenceIn, processIn, List.length_cons, List.length_nil]
  rw [if_pos hh]
  by_cases hA : f2.getD 0 0 = 65
  · simp only [hA, beq_self_eq_true, if_true, ↓reduceIte]
    exact parseIn_lf_invalid A _
  · have hb : (f2.getD 0 0 == 65) = false := beq_false_of_ne hA
    simp only [hb, if_neg hA, if_false, resetPosition, Bool.false_eq_true, ↓reduceIte]
    exact parseIn_lf_invalid A _

/-! ## The sample fix in binary64 -/

theorem str2Degr64_pad (f : List Nat) (n : Nat) :
    str2Degr64 (f ++ List.replicate n 0) = str2Degr64 f := by
  unfold str2Degr64; rw [cstr_pad]

theorem atof_lat : Libc.atof (Libc.cstr (ascii "5133.82")) = 513382 / 100 := by
  unfold Libc.atof
  rw [atofParts_lat]
  norm_num

theorem atof_lon : Libc.atof (Libc.cstr (ascii "00042.24")) = 4224 / 100 := by
  unfold Libc.atof
  rw [atofParts_lon]
  norm_num

/-- The latitude field `5133.82` in binary64: `51.563666666666663`. -/
theorem str2Degr64_lat : str2Degr64 (ascii "5133.82") = 7256940937058014 / 2 ^ 47 := by
  have e1 : Binary64.rnd (513382 / 100) = ((5644694784908984 : Int) : ℚ) / 2 ^ 40 :=
    Binary64.rnd_of_near _ _ 40 (by norm_num) (by norm_num) (by norm_num)
      (by rw [abs_lt]; constructor <;> norm_num)
  have e2 : Binary64.rnd (((5644694784908984 : Int) : ℚ) / 2 ^ 40 / 100)
      = ((7225209324683500 : Int) : ℚ) / 2 ^ 47 :=
    Binary64.rnd_of_near _ _ 47 (by norm_num) (by norm_num) (by norm_num)
      (by rw [abs_lt]; constructor <;> norm_num)
  have e3 : Int.floor (((7225209324683500 : Int) : ℚ) / 2 ^ 47) = 51 := by
    rw [Int.floor_eq_iff]; constructor <;> norm_num
  have e4 : Binary64.rnd (((51 : Int) : ℚ) * 100) = ((5607509301657600 : Int) : ℚ) / 2 ^ 40 :=
    Binary64.rnd_of_near _ _ 40 (by norm_num) (by norm_num) (by norm_num)
      (by rw [abs_lt]; constructor <;> norm_num)
  have e5 : Binary64.rnd (((5644694784908984 : Int) : ℚ) / 2 ^ 40
      - ((5607509301657600 : Int) : ℚ) / 2 ^ 40) = ((4759741856177152 : Int) : ℚ) / 2 ^ 47 :=
    Binary64.rnd_of_near _ _ 47 (by norm_num) (by norm_num) (by norm_num)
      (by rw [abs_lt]; constructor <;> norm_num)
  have e6 : Binary64.rnd (((4759741856177152 : Int) : ℚ) / 2 ^ 47 / 60)
      = ((5077057979922295 : Int) : ℚ) / 2 ^ 53 :=
    Binary64.rnd_of_near _ _ 53 (by norm_num) (by norm_num) (by norm_num)
      (by rw [abs_lt]; constructor <;> norm_num)
  have e7 : Binary64.rnd (((51 : Int) : ℚ) + ((5077057979922295 : Int) : ℚ) / 2 ^ 53)
      = ((7256940937058014 : Int) : ℚ) / 2 ^ 47 :=
    Binary64.rnd_of_near _ _ 47 (by norm_num) (by norm_num) (by norm_num)
      (by rw [abs_lt]; constructor <;> norm_num)
  unfold str2Degr64 Libc.atof64
  simp only [atof_lat, e1, e2, e3, e4, e5, e6, e7]
  norm_num

/-- The longitude field `00042.24` in binary64: `0.70400000000000007`. -/
theorem str2Degr64_lon : str2Degr64 (ascii "00042.24") = 6341068275337659 / 2 ^ 53 := by
  have e1 : Binary64.rnd (4224 / 100) = ((5944751508129055 : Int) : ℚ) / 2 ^ 47 :=
    Binary64.rnd_of_near _ _ 47 (by norm_num) (by norm_num) (by norm_num)
      (by rw [abs_lt]; constructor <;> norm_num)
  have e2 : Binary64.rnd (((5944751508129055 : Int) : ℚ) / 2 ^ 47 / 100)
      = ((7609281930405190 : Int) : ℚ) / 2 ^ 54 :=
    Binary64.rnd_of_near _ _ 54 (by norm_num) (by norm_num) (by norm_num)
      (by rw [abs_lt]; constructor <;> norm_num)
  have e3 : Int.floor (((7609281930405190 : Int) : ℚ) / 2 ^ 54) = 0 := by
    rw [Int.floor_eq_iff]; constructor <;> norm_num
  have e4 : Binary64.rnd (((0 : Int) : ℚ) * 100) = 0 := by
    rw [Int.cast_zero, zero_mul, Binary64.rnd_zero]
  have e5 : Binary64.rnd (((5944751508129055 : Int) : ℚ) / 2 ^ 47 - 0)
      = ((5944751508129055 : Int) : ℚ) / 2 ^ 47 :=
    Binary64.rnd_of_near _ _ 47 (by norm_num) (by norm_num) (by norm_num)
      (by rw [abs_lt]; constructor <;> norm_num)
  have e6 : Binary64.rnd (((5944751508129055 : Int) : ℚ) / 2 ^ 47 / 60)
      = ((6341068275337659 : Int) : ℚ) / 2 ^ 53 :=
    Binary64.rnd_of_near _ _ 53 (by norm_num) (by norm_num) (by norm_num)
      (by rw [abs_lt]; constructor <;> norm_num)
  have e7 : Binary64.rnd (((0 : Int) : ℚ) + ((6341068275337659 : Int) : ℚ) / 2 ^ 53)
      = ((6341068275337659 : Int) : ℚ) / 2 ^ 53 :=
    Binary64.rnd_of_near _ _ 53 (by norm_num) (by norm_num) (by norm_num)
      (by rw [abs_lt]; constructor <;> norm_num)
  unfold str2Degr64 Libc.atof64
  simp only [atof_lon, e1, e2, e3, e4, e5, e6, e7]
  norm_num

/-- The speed field `173.8` in binary64: `1.852 * 17380 / 100.0` is `321.87760000000003`. -/
theorem speed64_sample :
    Binary64.rnd (Binary64.rnd (Binary64.rnd (1852 / 1000) * ((17380 : Int) : ℚ)) / 100)
      = 5662530622730116 / 2 ^ 44 := by
  have e1 : Binary64.rnd (1852 / 1000) = ((8340666509890159 : Int) : ℚ) / 2 ^ 52 :=
    Binary64.rnd_of_near _ _ 52 (by norm_num) (by norm_num) (by norm_num)
      (by rw [abs_lt]; constructor <;> norm_num)
  have e2 : Binary64.rnd (((8340666509890159 : Int) : ℚ) / 2 ^ 52 * ((17380 : Int) : ℚ))
      = ((8847704098015806 : Int) : ℚ) / 2 ^ 38 :=
    Binary64.rnd_of_near _ _ 38 (by norm_num) (by norm_num) (by norm_num)
      (by rw [abs_lt]; constructor <;> norm_num)
  have e3 : Binary64.rnd (((8847704098015806 : Int) : ℚ) / 2 ^ 38 / 100)
      = ((5662530622730116 : Int) : ℚ) / 2 ^ 44 :=
    Binary64.rnd_of_near _ _ 44 (by norm_num) (by norm_num) (by norm_num)
      (by rw [abs_lt]; constructor <;> norm_num)
  rw [e1, e2, e3]
  norm_num

/-- The expressions `51 + 33.82/60`, `42.24/60` and `173.8 * 1.852` evaluated in `double`
arithmetic: `51.56366666666667`, `0.70400000000000007` and `321.87760000000003`. -/
theorem sample_expressions64 :
    Binary64.rnd (51 + Binary64.rnd (Binary64.rnd (3382 / 100) / 60))
        = 7256940937058015 / 2 ^ 47
      ∧ Binary64.rnd (Binary64.rnd (4224 / 100) / 60) = 6341068275337659 / 2 ^ 53
      ∧ Binary64.rnd (Binary64.rnd (1738 / 10) * Binary64.rnd (1852 / 1000))
        = 5662530622730116 / 2 ^ 44 := by
  have a1 : Binary64.rnd (3382 / 100) = ((4759741856177193 : Int) : ℚ) / 2 ^ 47 :=
    Binary64.rnd_of_near _ _ 47 (by norm_num) (by norm_num) (by norm_num)
      (by rw [abs_lt]; constructor <;> norm_num)
  have a2 : Binary64.rnd (((4759741856177193 : Int) : ℚ) / 2 ^ 47 / 60)
      = ((5077057979922339 : Int) : ℚ) / 2 ^ 53 :=
    Binary64.rnd_of_near _ _ 53 (by norm_num) (by norm_num) (by norm_num)
      (by rw [abs_lt]; constructor <;> norm_num)
  have a3 : Binary64.rnd (51 + ((5077057979922339 : Int) : ℚ) / 2 ^ 53)
      = ((7256940937058015 : Int) : ℚ) / 2 ^ 47 :=
    Binary64.rnd_of_near _ _ 47 (by norm_num) (by norm_num) (by norm_num)
      (by rw [abs_lt]; constructor <;> norm_num)
  have b1 : Binary64.rnd (4224 / 100) = ((5944751508129055 : Int) : ℚ) / 2 ^ 47 :=
    Binary64.rnd_of_near _ _ 47 (by norm_num) (by norm_num) (by norm_num)
      (by rw [abs_lt]; constructor <;> norm_num)
  have b2 : Binary64.rnd (((5944751508129055 : Int) : ℚ) / 2 ^ 47 / 60)
      = ((6341068275337659 : Int) : ℚ) / 2 ^ 53 :=
    Binary64.rnd_of_near _ _ 53 (by norm_num) (by norm_num) (by norm_num)
      (by rw [abs_lt]; constructor <;> norm_num)
  have c1 : Binary64.rnd (1738 / 10) = ((6115043869039002 : Int) : ℚ) / 2 ^ 45 :=
    Binary64.rnd_of_near _ _ 45 (by norm_num) (by norm_num) (by norm_num)
      (by rw [abs_lt]; constructor <;> norm_num)
  have c2 : Binary64.rnd (1852 / 1000) = ((8340666509890159 : Int) : ℚ) / 2 ^ 52 :=
    Binary64.rnd_of_near _ _ 52 (by norm_num) (by norm_num) (by norm_num)
      (by rw [abs_lt]; constructor <;> norm_num)
  have c3 : Binary64.rnd (((6115043869039002 : Int) : ℚ) / 2 ^ 45
      * (((8340666509890159 : Int) : ℚ) / 2 ^ 52)) = ((5662530622730116 : Int) : ℚ) / 2 ^ 44 :=
    Binary64.rnd_of_near _ _ 44 (by norm_num) (by norm_num) (by norm_num)
      (by rw [abs_lt]; constructor <;> norm_num)
  rw [a1, a2, a3, b1, b2, c1, c2, c3]
  norm_num

set_option maxRecDepth 100000 in
/-- The three `double` members of the fix that the 12-field sample sentence leaves. -/
theorem sample_fix64_values :
    (feedIn binary64Arith (init ctor)
          (ascii "$GPRMC,220516,A,5133.82,N,00042.24,W,173.8,231.8,130694,004.2,W,A*1D"
            ++ [13, 10])).latitude = 7256940937058014 / 2 ^ 47
      ∧ (feedIn binary64Arith (init ctor)
          (ascii "$GPRMC,220516,A,5133.82,N,00042.24,W,173.8,231.8,130694,004.2,W,A*1D"
            ++ [13, 10])).longitude = -(6341068275337659 / 2 ^ 53)
      ∧ (feedIn binary64Arith (init ctor)
          (ascii "$GPRMC,220516,A,5133.82,N,00042.24,W,173.8,231.8,130694,004.2,W,A*1D"
            ++ [13, 10])).speed = 5662530622730116 / 2 ^ 44 := by
  have e : ascii "$GPRMC,220516,A,5133.82,N,00042.24,W,173.8,231.8,130694,004.2,W,A*1D"
        ++ [13, 10]
      = rmcSentence [ascii "220516", ascii "A", ascii "5133.82", ascii "N", ascii "00042.24",
          ascii "W", ascii "173.8", ascii "231.8", ascii "130694", ascii "004.2", ascii "W",
          ascii "A"] [49, 68] ++ [13, 10] := by decide
  have hfix := feedIn_rmc_ok binary64Arith (init ctor) idle_init_ctor (ascii "220516")
    (ascii "A") (ascii "5133.82") (ascii "N") (ascii "00042.24") (ascii "W") (ascii "173.8")
    (ascii "231.8") (ascii "130694") (ascii "004.2") (ascii "W") (ascii "A")
    (by decide) (by decide) (by decide) (by decide) (by decide) (by decide) (by decide)
    (by decide) (by decide) (by decide) (by decide) (by decide) 49 68 1 13 (by decide)
    (by decide) (by decide)
  have hA : (ascii "A").getD 0 0 = 65 := by decide
  have hN : ¬ ((ascii "N").getD 0 0 = 83) := by decide
  have hW : (ascii "W").getD 0 0 = 87 := by decide
  have hneg := Binary64.rnd_neg_exact 6341068275337659 53 (by norm_num) (by norm_num)
    (by norm_num)
  rw [e, hfix]
  refine ⟨?_, ?_, ?_⟩
  · simp only [latitude, invalidContnet, hA, hN, if_true, if_false, binary64Arith,
      str2Degr64_pad, str2Degr64_lat]
  · simp only [longitude, invalidContnet, hA, hW, if_true, binary64Arith, str2Degr64_pad,
      str2Degr64_lon]
    norm_num at hneg ⊢
    exact hneg
  · simp only [speed, invalidContnet, hA, if_true, binary64Arith, str2Int_speed]
    exact speed64_sample

/-! ## Claim C4 -/

set_option maxRecDepth 100000 in
/-- C4 (as amended): feeding, byte by byte, the 12-field sentence
`$GPRMC,220516,A,5133.82,N,00042.24,W,173.8,231.8,130694,004.2,W,A*1D` followed by CR LF to
a freshly initialised parser leaves a confirmed fix with `isValidTime() = true`, hour 22,
minute 5, second 16, day 13, month 6, `year() = 2094`, `isValidPosition() = true`, and the
`double` values latitude `51.563666666666663` (`7256940937058014 / 2^47`), longitude
`-0.70400000000000007` (`-6341068275337659 / 2^53`) and speed `321.87760000000003`
(`5662530622730116 / 2^44`). Each is within `10^-13` of `51 + 33.82/60`, `-(42.24/60)` and
`173.8 * 1.852`; longitude and speed are the values of `-(42.24/60)` and `173.8 * 1.852` in
`double` arithmetic. -/
theorem rmc_sample_fix :
    (feedIn binary64Arith (init ctor)
          (ascii "$GPRMC,220516,A,5133.82,N,00042.24,W,173.8,231.8,130694,004.2,W,A*1D"
            ++ [13, 10])).isValidTime = true
      ∧ (feedIn binary64Arith (init ctor)
          (ascii "$GPRMC,220516,A,5133.82,N,00042.24,W,173.8,231.8,130694,004.2,W,A*1D"
            ++ [13, 10])).hour = 22
      ∧ (feedIn binary64Arith (init ctor)
          (ascii "$GPRMC,220516,A,5133.82,N,00042.24,W,173.8,231.8,130694,004.2,W,A*1D"
            ++ [13, 10])).minute = 5
      ∧ (feedIn binary64Arith (init ctor)
          (ascii "$GPRMC,220516,A,5133.82,N,00042.24,W,173.8,231.8,130694,004.2,W,A*1D"
            ++ [13, 10])).second = 16
      ∧ (feedIn binary64Arith (init ctor)
          (ascii "$GPRMC,220516,A,5133.82,N,00042.24,W,173.8,231.8,130694,004.2,W,A*1D"
            ++ [13, 10])).day = 13
      ∧ (feedIn binary64Arith (init ctor)
          (ascii "$GPRMC,220516,A,5133.82,N,00042.24,W,173.8,231.8,130694,004.2,W,A*1D"
            ++ [13, 10])).month = 6
      ∧ (feedIn binary64Arith (init ctor)
          (ascii "$GPRMC,220516,A,5133.82,N,00042.24,W,173.8,231.8,130694,004.2,W,A*1D"
            ++ [13, 10])).year = 2094
      ∧ (feedIn binary64Arith (init ctor)
          (ascii "$GPRMC,220516,A,5133.82,N,00042.24,W,173.8,231.8,130694,004.2,W,A*1D"
            ++ [13, 10])).isValidPosition = true
      ∧ (feedIn binary64Arith (init ctor)
          (ascii "$GPRMC,220516,A,5133.82,N,00042.24,W,173.8,231.8,130694,004.2,W,A*1D"
            ++ [13, 10])).latitude = 7256940937058014 / 2 ^ 47
      ∧ (feedIn binary64Arith (init ctor)
          (ascii "$GPRMC,220516,A,5133.82,N,00042.24,W,173.8,231.8,130694,004.2,W,A*1D"
            ++ [13, 10])).longitude = -(6341068275337659 / 2 ^ 53)
      ∧ (feedIn binary64Arith (init ctor)
          (ascii "$GPRMC,220516,A,5133.82,N,00042.24,W,173.8,231.8,130694,004.2,W,A*1D"
            ++ [13, 10])).speed = 5662530622730116 / 2 ^ 44
      ∧ |(feedIn binary64Arith (init ctor)
          (ascii "$GPRMC,220516,A,5133.82,N,00042.24,W,173.8,231.8,130694,004.2,W,A*1D"
            ++ [13, 10])).latitude - (51 + (3382 / 100) / 60)| < 1 / 10 ^ 13
      ∧ |(feedIn binary64Arith (init ctor)
          (ascii "$GPRMC,220516,A,5133.82,N,00042.24,W,173.8,231.8,130694,004.2,W,A*1D"
            ++ [13, 10])).longitude - (-((4224 / 100) / 60))| < 1 / 10 ^ 13
      ∧ |(feedIn binary64Arith (init ctor)
          (ascii "$GPRMC,220516,A,5133.82,N,00042.24,W,173.8,231.8,130694,004.2,W,A*1D"
            ++ [13, 10])).speed - (1738 / 10) * (1852 / 1000)| < 1 / 10 ^ 13
      ∧ (feedIn binary64Arith (init ctor)
          (ascii "$GPRMC,220516,A,5133.82,N,00042.24,W,173.8,231.8,130694,004.2,W,A*1D"
            ++ [13, 10])).longitude = -(Binary64.rnd (Binary64.rnd (4224 / 100) / 60))
      ∧ (feedIn binary64Arith (init ctor)
          (ascii "$GPRMC,220516,A,5133.82,N,00042.24,W,173.8,231.8,130694,004.2,W,A*1D"
            ++ [13, 10])).speed
          = Binary64.rnd (Binary64.rnd (1738 / 10) * Binary64.rnd (1852 / 1000)) := by
  obtain ⟨hlat, hlon, hsp⟩ := sample_fix64_values
  obtain ⟨_, xlon, xsp⟩ := sample_expressions64
  refine ⟨by decide, by decide, by decide, by decide, by decide, by decide, by decide,
    by decide, hlat, hlon, hsp, ?_, ?_, ?_, ?_, ?_⟩
  · rw [hlat, abs_lt]; constructor <;> norm_num
  · rw [hlon, abs_lt]; constructor <;> norm_num
  · rw [hsp, abs_lt]; constructor <;> norm_num
  · rw [hlon, xlon]
  · rw [hsp, xsp]

set_option maxRecDepth 100000 in
/-- C4, counterexample to the claim as stated: after the sentence of the claim (11 fields, checksum digits `6A`)
followed by CR LF nothing is confirmed: `isValidTime()` is false, and `year()` is 2000, not
1994. And the `double` values that the 12-field sentence leaves are not the exact values
`51 + 33.82/60`, `-(42.24/60)` and `173.8 * 1.852`; the latitude is not the value of
`51 + 33.82/60` in `double` arithmetic either. -/
theorem rmc_sample_not_confirmed :
    (feedIn binary64Arith (init ctor)
          (ascii "$GPRMC,220516,A,5133.82,N,00042.24,W,173.8,231.8,130694,004.2,W*6A"
            ++ [13, 10])).isValidTime = false
      ∧ (feedIn binary64Arith (init ctor)
          (ascii "$GPRMC,220516,A,5133.82,N,00042.24,W,173.8,231.8,130694,004.2,W*6A"
            ++ [13, 10])).hour = 0
      ∧ (feedIn binary64Arith (init ctor)
          (ascii "$GPRMC,220516,A,5133.82,N,00042.24,W,173.8,231.8,130694,004.2,W*6A"
            ++ [13, 10])).year = 2000
      ∧ (feedIn binary64Arith (init ctor)
          (ascii "$GPRMC,220516,A,5133.82,N,00042.24,W,173.8,231.8,130694,004.2,W,A*1D"
            ++ [13, 10])).latitude ≠ 51 + (3382 / 100) / 60
      ∧ (feedIn binary64Arith (init ctor)
          (ascii "$GPRMC,220516,A,5133.82,N,00042.24,W,173.8,231.8,130694,004.2,W,A*1D"
            ++ [13, 10])).longitude ≠ -((4224 / 100) / 60)
      ∧ (feedIn binary64Arith (init ctor)
          (ascii "$GPRMC,220516,A,5133.82,N,00042.24,W,173.8,231.8,130694,004.2,W,A*1D"
            ++ [13, 10])).speed ≠ (1738 / 10) * (1852 / 1000)
      ∧ (feedIn binary64Arith (init ctor)
          (ascii "$GPRMC,220516,A,5133.82,N,00042.24,W,173.8,231.8,130694,004.2,W,A*1D"
            ++ [13, 10])).latitude
          ≠ Binary64.rnd (51 + Binary64.rnd (Binary64.rnd (3382 / 100) / 60)) := by
  obtain ⟨hlat, hlon, hsp⟩ := sample_fix64_values
  obtain ⟨xlat, _, _⟩ := sample_expressions64
  refine ⟨by decide, by decide, by decide, ?_, ?_, ?_, ?_⟩
  · rw [hlat]; norm_num
  · rw [hlon]; norm_num
  · rw [hsp]; norm_num
  · rw [hlat, xlat]; norm_num

/-! ## Claim C9 -/

/-- The value of `str2Int` on a timestamp field: six digits, alone or followed by `.` and
one or two digits. -/
theorem str2Int_timestamp (a b c d e f g h : Nat)
    (ha : Libc.isdigit a = true) (hb : Libc.isdigit b = true) (hc : Libc.isdigit c = true)
    (hd : Libc.isdigit d = true) (he : Libc.isdigit e = true) (hf : Libc.isdigit f = true)
    (hg : Libc.isdigit g = true) (hh1 : Libc.isdigit h = true) :
    str2Int [a, b, c, d, e, f]
        = (((10 * (a - 48) + (b - 48)) * 1000000 + (10 * (c - 48) + (d - 48)) * 10000
            + (10 * (e - 48) + (f - 48)) * 100 : Nat) : Int)
      ∧ str2Int [a, b, c, d, e, f, 46, g]
          = (((10 * (a - 48) + (b - 48)) * 1000000 + (10 * (c - 48) + (d - 48)) * 10000
              + (10 * (e - 48) + (f - 48)) * 100 + 10 * (g - 48) : Nat) : Int)
      ∧ str2Int [a, b, c, d, e, f, 46, g, h]
          = (((10 * (a - 48) + (b - 48)) * 1000000 + (10 * (c - 48) + (d - 48)) * 10000
              + (10 * (e - 48) + (f - 48)) * 100 + (10 * (g - 48) + (h - 48)) : Nat) : Int) := by
  obtain ⟨_, _, _, _, _, a6, a7⟩ := digit_facts ha
  obtain ⟨_, _, _, _, _, b6, b7⟩ := digit_facts hb
  obtain ⟨_, _, _, _, _, c6, c7⟩ := digit_facts hc
  obtain ⟨_, _, _, _, _, d6, d7⟩ := digit_facts hd
  obtain ⟨_, _, _, _, _, e6, e7⟩ := digit_facts he
  obtain ⟨_, _, _, _, _, f6, f7⟩ := digit_facts hf
  obtain ⟨_, _, _, _, _, g6, g7⟩ := digit_facts hg
  obtain ⟨_, _, _, _, _, h6, h7⟩ := digit_facts hh1
  have ag : g ≠ 0 := by omega
  have ah : h ≠ 0 := by omega
  refine ⟨?_, ?_, ?_⟩
  · obtain ⟨hcs, hdw, ne45, hv⟩ := str2Int_six a b c d e f [] _ _ _ _ _ _ ha hb hc hd he hf
      (Or.inl rfl) (by simp) rfl rfl rfl rfl rfl rfl
    unfold str2Int
    simp only [hcs, List.head?_cons, Option.some_beq_some, beq_iff_eq, ne45, if_false, hdw,
      Bool.false_eq_true]
    rw [if_neg (show ¬ (([] : List Nat).getD 0 0 = 46
      ∧ Libc.isdigit (([] : List Nat).getD 1 0) = true) by decide)]
    exact hv
  · obtain ⟨hcs, hdw, ne45, hv⟩ := str2Int_six a b c d e f [46, g] _ _ _ _ _ _ ha hb hc hd he hf
      (Or.inr ⟨_, rfl⟩) (by simp [ag]) rfl rfl rfl rfl rfl rfl
    unfold str2Int
    simp only [hcs, List.head?_cons, Option.some_beq_some, beq_iff_eq, ne45, if_false, hdw,
      Bool.false_eq_true]
    rw [if_pos (show [46, g].getD 0 0 = 46 ∧ Libc.isdigit ([46, g].getD 1 0) = true
      from ⟨rfl, hg⟩)]
    rw [if_neg (show ¬ (Libc.isdigit ([46, g].getD 2 0) = true) from
      (by decide : ¬ (Libc.isdigit 0 = true)))]
    rw [hv]
    show wrapInt32 (_ + 10 * ((g : Int) - 48)) = _
    rw [wrapInt32_of_range (by omega) (by omega)]
    omega
  · obtain ⟨hcs, hdw, ne45, hv⟩ := str2Int_six a b c d e f [46, g, h] _ _ _ _ _ _ ha hb hc hd he
      hf (Or.inr ⟨_, rfl⟩) (by simp [ag, ah]) rfl rfl rfl rfl rfl rfl
    unfold str2Int
    simp only [hcs, List.head?_cons, Option.some_beq_some, beq_iff_eq, ne45, if_false, hdw,
      Bool.false_eq_true]
    rw [if_pos (show [46, g, h].getD 0 0 = 46 ∧ Libc.isdigit ([46, g, h].getD 1 0) = true
      from ⟨rfl, hg⟩)]
    rw [if_pos (show Libc.isdigit ([46, g, h].getD 2 0) = true from hh1)]
    rw [hv]
    show wrapInt32 (wrapInt32 (_ + 10 * ((g : Int) - 48)) + ((h : Int) - 48)) = _
    have hin : wrapInt32 ((((10 * (a - 48) + (b - 48)) * 1000000
        + (10 * (c - 48) + (d - 48)) * 10000 + (10 * (e - 48) + (f - 48)) * 100 : Nat) : Int)
        + 10 * ((g : Int) - 48))
        = (((10 * (a - 48) + (b - 48)) * 1000000
        + (10 * (c - 48) + (d - 48)) * 10000 + (10 * (e - 48) + (f - 48)) * 100 : Nat) : Int)
        + 10 * ((g : Int) - 48) := wrapInt32_of_range (by omega) (by omega)
    rw [hin, wrapInt32_of_range (by omega) (by omega)]
    omega

/-- The accessors of the confirmed time `hh*1000000 + mm*10000 + ss*100 + cc`. -/
theorem time_accessors (s : GPS) (hh mm ss cc : Nat) (bh : hh ≤ 99) (bm : mm ≤ 99)
    (bs : ss ≤ 99) (bc : cc ≤ 99)
    (ht : s._fxtime = ((hh * 1000000 + mm * 10000 + ss * 100 + cc : Nat) : Int)) :
    s.hour = (hh : Int) ∧ s.minute = (mm : Int) ∧ s.second = (ss : Int)
      ∧ s.centisecond = (cc : Int) := by
  refine ⟨?_, ?_, ?_, ?_⟩
  · unfold hour wrapInt8
    rw [ht]
    have : Int.tdiv ((hh * 1000000 + mm * 10000 + ss * 100 + cc : Nat) : Int) 1000000
        = (((hh * 1000000 + mm * 10000 + ss * 100 + cc) / 1000000 : Nat) : Int) := rfl
    rw [this]; omega
  · unfold minute wrapInt8
    rw [ht]
    have : Int.tmod (Int.tdiv ((hh * 1000000 + mm * 10000 + ss * 100 + cc : Nat) : Int) 10000) 100
        = (((hh * 1000000 + mm * 10000 + ss * 100 + cc) / 10000 % 100 : Nat) : Int) := rfl
    rw [this]; omega
  · unfold second wrapInt8
    rw [ht]
    have : Int.tmod (Int.tdiv ((hh * 1000000 + mm * 10000 + ss * 100 + cc : Nat) : Int) 100) 100
        = (((hh * 1000000 + mm * 10000 + ss * 100 + cc) / 100 % 100 : Nat) : Int) := rfl
    rw [this]; omega
  · unfold centisecond wrapInt8
    rw [ht]
    have : Int.tmod ((hh * 1000000 + mm * 10000 + ss * 100 + cc : Nat) : Int) 100
        = (((hh * 1000000 + mm * 10000 + ss * 100 + cc) % 100 : Nat) : Int) := rfl
    rw [this]; omega

/-- The accessors of the confirmed date `dd*10000 + mo*100 + yy`. -/
theorem date_accessors (s : GPS) (dd mo yy : Nat) (bd : dd ≤ 99) (bo : mo ≤ 99) (by1 : yy ≤ 99)
    (hdt : s._fxdate = dd * 10000 + mo * 100 + yy) :
    s.day = (dd : Int) ∧ s.month = (mo : Int) ∧ s.year = ((2000 + yy : Nat) : Int) := by
  refine ⟨?_, ?_, ?_⟩
  · unfold day wrapInt8
    rw [hdt]; omega
  · unfold month wrapInt8
    rw [hdt]; omega
  · unfold year wrapInt16 TimeUtils.u32
    rw [hdt]; omega

/-- The date that `(uint32_t)atol` reads from a field of six decimal digits. -/
theorem atol_date_six (p q r u v w : Nat) (hp : Libc.isdigit p = true)
    (hq : Libc.isdigit q = true) (hr : Libc.isdigit r = true) (hu : Libc.isdigit u = true)
    (hv : Libc.isdigit v = true) (hw : Libc.isdigit w = true) :
    TimeUtils.ofInt32 (Libc.atol (Libc.cstr [p, q, r, u, v, w]))
      = (10 * (p - 48) + (q - 48)) * 10000 + (10 * (r - 48) + (u - 48)) * 100
          + (10 * (v - 48) + (w - 48)) := by
  obtain ⟨_, _, _, _, _, p6, p7⟩ := digit_facts hp
  obtain ⟨_, _, _, _, _, q6, q7⟩ := digit_facts hq
  obtain ⟨_, _, _, _, _, r6, r7⟩ := digit_facts hr
  obtain ⟨_, _, _, _, _, u6, u7⟩ := digit_facts hu
  obtain ⟨_, _, _, _, _, v6, v7⟩ := digit_facts hv
  obtain ⟨_, _, _, _, _, w6, w7⟩ := digit_facts hw
  have h := atol_digits_clamped [p, q, r, u, v, w] (by
    intro b hb
    simp only [List.mem_cons, List.mem_singleton, List.not_mem_nil, or_false] at hb
    rcases hb with rfl | rfl | rfl | rfl | rfl | rfl <;> assumption)
  rw [h]
  simp only [List.map, Libc.digitsVal, List.foldl]
  omega

/-- The confirmed time and date of a state that holds `str2Int` of a timestamp field and
`(uint32_t)atol` of a date field, with the accessors. -/
theorem fix_of_fields (t : GPS) (f1 f9 : List Nat) (h1 : t._fxtime = str2Int f1)
    (h9 : t._fxdate = TimeUtils.ofInt32 (Libc.atol (Libc.cstr f9))) :
    (∀ a b c d e f g h : Nat, Libc.isdigit a = true → Libc.isdigit b = true →
        Libc.isdigit c = true → Libc.isdigit d = true → Libc.isdigit e = true →
        Libc.isdigit f = true → Libc.isdigit g = true → Libc.isdigit h = true →
        (f1 = [a, b, c, d, e, f] →
            t._fxtime = (((10 * (a - 48) + (b - 48)) * 1000000
              + (10 * (c - 48) + (d - 48)) * 10000 + (10 * (e - 48) + (f - 48)) * 100 : Nat) : Int)
            ∧ t.centisecond = 0)
          ∧ (f1 = [a, b, c, d, e, f, 46, g] →
            t._fxtime = (((10 * (a - 48) + (b - 48)) * 1000000
              + (10 * (c - 48) + (d - 48)) * 10000 + (10 * (e - 48) + (f - 48)) * 100
              + 10 * (g - 48) : Nat) : Int)
            ∧ t.centisecond = ((10 * (g - 48) : Nat) : Int))
          ∧ (f1 = [a, b, c, d, e, f, 46, g, h] →
            t._fxtime = (((10 * (a - 48) + (b - 48)) * 1000000
              + (10 * (c - 48) + (d - 48)) * 10000 + (10 * (e - 48) + (f - 48)) * 100
              + (10 * (g - 48) + (h - 48)) : Nat) : Int)
            ∧ t.centisecond = ((10 * (g - 48) + (h - 48) : Nat) : Int))
          ∧ (f1 = [a, b, c, d, e, f] ∨ f1 = [a, b, c, d, e, f, 46, g]
              ∨ f1 = [a, b, c, d, e, f, 46, g, h] →
            t.hour = ((10 * (a - 48) + (b - 48) : Nat) : Int)
            ∧ t.minute = ((10 * (c - 48) + (d - 48) : Nat) : Int)
            ∧ t.second = ((10 * (e - 48) + (f - 48) : Nat) : Int)))
      ∧ ((∀ b ∈ f9, Libc.isdigit b = true) →
          t._fxdate = min (Libc.digitsVal 10 (f9.map (fun c => c - 48))) 2147483647)
      ∧ (∀ p q r u v w : Nat, Libc.isdigit p = true → Libc.isdigit q = true →
          Libc.isdigit r = true → Libc.isdigit u = true → Libc.isdigit v = true →
          Libc.isdigit w = true → f9 = [p, q, r, u, v, w] →
          t._fxdate = (10 * (p - 48) + (q - 48)) * 10000 + (10 * (r - 48) + (u - 48)) * 100
              + (10 * (v - 48) + (w - 48))
            ∧ t.day = ((10 * (p - 48) + (q - 48) : Nat) : Int)
            ∧ t.month = ((10 * (r - 48) + (u - 48) : Nat) : Int)
            ∧ t.year = ((2000 + (10 * (v - 48) + (w - 48)) : Nat) : Int)) := by
  refine ⟨?_, ?_, ?_⟩
  · intro a b c d e f g h ha hb hc hd he hf hg hh1
    obtain ⟨_, _, _, _, _, a6, a7⟩ := digit_facts ha
    obtain ⟨_, _, _, _, _, b6, b7⟩ := digit_facts hb
    obtain ⟨_, _, _, _, _, c6, c7⟩ := digit_facts hc
    obtain ⟨_, _, _, _, _, d6, d7⟩ := digit_facts hd
    obtain ⟨_, _, _, _, _, e6, e7⟩ := digit_facts he
    obtain ⟨_, _, _, _, _, f6, f7⟩ := digit_facts hf
    obtain ⟨_, _, _, _, _, g6, g7⟩ := digit_facts hg
    obtain ⟨_, _, _, _, _, h6, h7⟩ := digit_facts hh1
    obtain ⟨s0, s1, s2⟩ := str2Int_timestamp a b c d e f g h ha hb hc hd he hf hg hh1
    have k0 : f1 = [a, b, c, d, e, f] →
        t._fxtime = (((10 * (a - 48) + (b - 48)) * 1000000
          + (10 * (c - 48) + (d - 48)) * 10000 + (10 * (e - 48) + (f - 48)) * 100 + 0
          : Nat) : Int) := by
      intro hf1; rw [h1, hf1, s0, Nat.add_zero]
    have k1 : f1 = [a, b, c, d, e, f, 46, g] →
        t._fxtime = (((10 * (a - 48) + (b - 48)) * 1000000
          + (10 * (c - 48) + (d - 48)) * 10000 + (10 * (e - 48) + (f - 48)) * 100
          + 10 * (g - 48) : Nat) : Int) := by
      intro hf1; rw [h1, hf1, s1]
    have k2 : f1 = [a, b, c, d, e, f, 46, g, h] →
        t._fxtime = (((10 * (a - 48) + (b - 48)) * 1000000
          + (10 * (c - 48) + (d - 48)) * 10000 + (10 * (e - 48) + (f - 48)) * 100
          + (10 * (g - 48) + (h - 48)) : Nat) : Int) := by
      intro hf1; rw [h1, hf1, s2]
    refine ⟨fun hf1 => ⟨by rw [k0 hf1, Nat.add_zero], ?_⟩, fun hf1 => ⟨k1 hf1, ?_⟩,
      fun hf1 => ⟨k2 hf1, ?_⟩, ?_⟩
    · have hc0 := (time_accessors t _ _ _ 0 (by omega) (by omega) (by omega) (by omega)
        (k0 hf1)).2.2.2
      rw [hc0]
      exact Nat.cast_zero
    · exact (time_accessors t _ _ _ _ (by omega) (by omega) (by omega) (by omega)
        (k1 hf1)).2.2.2
    · exact (time_accessors t _ _ _ _ (by omega) (by omega) (by omega) (by omega)
        (k2 hf1)).2.2.2
    · rintro (hf1 | hf1 | hf1)
      · obtain ⟨x1, x2, x3, _⟩ := time_accessors t _ _ _ 0 (by omega) (by omega) (by omega)
          (by omega) (k0 hf1)
        exact ⟨x1, x2, x3⟩
      · obtain ⟨x1, x2, x3, _⟩ := time_accessors t _ _ _ _ (by omega) (by omega) (by omega)
          (by omega) (k1 hf1)
        exact ⟨x1, x2, x3⟩
      · obtain ⟨x1, x2, x3, _⟩ := time_accessors t _ _ _ _ (by omega) (by omega) (by omega)
          (by omega) (k2 hf1)
        exact ⟨x1, x2, x3⟩
  · intro hd
    rw [h9]
    exact atol_digits_clamped f9 hd
  · intro p q r u v w hp hq hr hu hv hw hf9
    obtain ⟨_, _, _, _, _, p6, p7⟩ := digit_facts hp
    obtain ⟨_, _, _, _, _, q6, q7⟩ := digit_facts hq
    obtain ⟨_, _, _, _, _, r6, r7⟩ := digit_facts hr
    obtain ⟨_, _, _, _, _, u6, u7⟩ := digit_facts hu
    obtain ⟨_, _, _, _, _, v6, v7⟩ := digit_facts hv
    obtain ⟨_, _, _, _, _, w6, w7⟩ := digit_facts hw
    have hdv : t._fxdate = (10 * (p - 48) + (q - 48)) * 10000
        + (10 * (r - 48) + (u - 48)) * 100 + (10 * (v - 48) + (w - 48)) := by
      rw [h9, hf9]
      exact atol_date_six p q r u v w hp hq hr hu hv hw
    exact ⟨hdv, date_accessors t _ _ _ (by omega) (by omega) (by omega) hdv⟩

/-- C9: for every idle parser state and every well-formed 12-field sentence with correct
checksum whose position-status field does not begin with `A`, after the sentence and CR LF
`isValidPosition()` is false, latitude, longitude and speed are 0, `isValidTime()` is true
and the confirmed time and date are those of the sentence: the time is `str2Int` of field
1, which for a field `hhmmss`, `hhmmss.c` or `hhmmss.cc` of decimal digits is
`hh*1000000 + mm*10000 + ss*100 + cc` with `hour() = hh`, `minute() = mm`, `second() = ss`;
the date is `(uint32_t)atol` of field 9, which for a field of decimal digits is its decimal
value (at most 2147483647) and for a field `ddmmyy` gives `day() = dd`, `month() = mm`,
`year() = 2000 + yy`. The parser in `double` arithmetic leaves the same confirmed values. -/
theorem rmc_status_not_A (s : GPS) (fs : List (List Nat)) (d1 d2 v1 v2 : Nat)
    (hs : idle s) (hlen : fs.length = 12) (hwf : ∀ f ∈ fs, wellFormedField f)
    (e1 : Libc.digitVal 16 d1 = some v1) (e2 : Libc.digitVal 16 d2 = some v2)
    (hx : 16 * v1 + v2 = xorAll (rmcBody fs)) (hA : (fs.getD 1 []).getD 0 0 ≠ 65) :
    (feed s (rmcSentence fs [d1, d2] ++ [13, 10])).isValidPosition = false
      ∧ (feed s (rmcSentence fs [d1, d2] ++ [13, 10])).latitude = 0
      ∧ (feed s (rmcSentence fs [d1, d2] ++ [13, 10])).longitude = 0
      ∧ (feed s (rmcSentence fs [d1, d2] ++ [13, 10])).speed = 0
      ∧ (feed s (rmcSentence fs [d1, d2] ++ [13, 10])).isValidTime = true
      ∧ (feed s (rmcSentence fs [d1, d2] ++ [13, 10]))._fxtime = str2Int (fs.getD 0 [])
      ∧ (feed s (rmcSentence fs [d1, d2] ++ [13, 10]))._fxdate
          = TimeUtils.ofInt32 (Libc.atol (Libc.cstr (fs.getD 8 [])))
      ∧ (∀ a b c d e f g h : Nat, Libc.isdigit a = true → Libc.isdigit b = true →
          Libc.isdigit c = true → Libc.isdigit d = true → Libc.isdigit e = true →
          Libc.isdigit f = true → Libc.isdigit g = true → Libc.isdigit h = true →
          (fs.getD 0 [] = [a, b, c, d, e, f] →
              (feed s (rmcSentence fs [d1, d2] ++ [13, 10]))._fxtime
                = (((10 * (a - 48) + (b - 48)) * 1000000 + (10 * (c - 48) + (d - 48)) * 10000
                    + (10 * (e - 48) + (f - 48)) * 100 : Nat) : Int)
              ∧ (feed s (rmcSentence fs [d1, d2] ++ [13, 10])).centisecond = 0)
            ∧ (fs.getD 0 [] = [a, b, c, d, e, f, 46, g] →
              (feed s (rmcSentence fs [d1, d2] ++ [13, 10]))._fxtime
                = (((10 * (a - 48) + (b - 48)) * 1000000 + (10 * (c - 48) + (d - 48)) * 10000
                    + (10 * (e - 48) + (f - 48)) * 100 + 10 * (g - 48) : Nat) : Int)
              ∧ (feed s (rmcSentence fs [d1, d2] ++ [13, 10])).centisecond
                = ((10 * (g - 48) : Nat) : Int))
            ∧ (fs.getD 0 [] = [a, b, c, d, e, f, 46, g, h] →
              (feed s (rmcSentence fs [d1, d2] ++ [13, 10]))._fxtime
                = (((10 * (a - 48) + (b - 48)) * 1000000 + (10 * (c - 48) + (d - 48)) * 10000
                    + (10 * (e - 48) + (f - 48)) * 100 + (10 * (g - 48) + (h - 48)) : Nat) : Int)
              ∧ (feed s (rmcSentence fs [d1, d2] ++ [13, 10])).centisecond
                = ((10 * (g - 48) + (h - 48) : Nat) : Int))
            ∧ (fs.getD 0 [] = [a, b, c, d, e, f] ∨ fs.getD 0 [] = [a, b, c, d, e, f, 46, g]
                ∨ fs.getD 0 [] = [a, b, c, d, e, f, 46, g, h] →
              (feed s (rmcSentence fs [d1, d2] ++ [13, 10])).hour
                = ((10 * (a - 48) + (b - 48) : Nat) : Int)
              ∧ (feed s (rmcSentence fs [d1, d2] ++ [13, 10])).minute
                = ((10 * (c - 48) + (d - 48) : Nat) : Int)
              ∧ (feed s (rmcSentence fs [d1, d2] ++ [13, 10])).second
                = ((10 * (e - 48) + (f - 48) : Nat) : Int)))
      ∧ ((∀ b ∈ fs.getD 8 [], Libc.isdigit b = true) →
          (feed s (rmcSentence fs [d1, d2] ++ [13, 10]))._fxdate
            = min (Libc.digitsVal 10 ((fs.getD 8 []).map (fun c => c - 48))) 2147483647)
      ∧ (∀ p q r u v w : Nat, Libc.isdigit p = true → Libc.isdigit q = true →
          Libc.isdigit r = true → Libc.isdigit u = true → Libc.isdigit v = true →
          Libc.isdigit w = true → fs.getD 8 [] = [p, q, r, u, v, w] →
          (feed s (rmcSentence fs [d1, d2] ++ [13, 10]))._fxdate
              = (10 * (p - 48) + (q - 48)) * 10000 + (10 * (r - 48) + (u - 48)) * 100
                + (10 * (v - 48) + (w - 48))
            ∧ (feed s (rmcSentence fs [d1, d2] ++ [13, 10])).day
              = ((10 * (p - 48) + (q - 48) : Nat) : Int)
            ∧ (feed s (rmcSentence fs [d1, d2] ++ [13, 10])).month
              = ((10 * (r - 48) + (u - 48) : Nat) : Int)
            ∧ (feed s (rmcSentence fs [d1, d2] ++ [13, 10])).year
              = ((2000 + (10 * (v - 48) + (w - 48)) : Nat) : Int))
      ∧ sameFix (feed s (rmcSentence fs [d1, d2] ++ [13, 10]))
          (feedIn binary64Arith s (rmcSentence fs [d1, d2] ++ [13, 10])) := by
  obtain ⟨f1, f2, f3, f4, f5, f6, f7, f8, f9, f10, f11, f12, rfl⟩ := list_length_12 fs hlen
  have h := fun f hf => hwf f hf
  simp only [List.mem_cons, List.mem_singleton, List.not_mem_nil, or_false] at h
  have hA2 : ¬ (f2.getD 0 0 = 65) := hA
  have hb : (f2.getD 0 0 == 65) = false := beq_false_of_ne hA2
  have hfeed := feed_rmc_ok s hs f1 f2 f3 f4 f5 f6 f7 f8 f9 f10 f11 f12
    (h f1 (by simp)) (h f2 (by simp)) (h f3 (by simp)) (h f4 (by simp)) (h f5 (by simp))
    (h f6 (by simp)) (h f7 (by simp)) (h f8 (by simp)) (h f9 (by simp)) (h f10 (by simp))
    (h f11 (by simp)) (h f12 (by simp)) d1 d2 v1 v2 e1 e2 hx
  have ht : (feed s (rmcSentence [f1, f2, f3, f4, f5, f6, f7, f8, f9, f10, f11, f12] [d1, d2]
      ++ [13, 10]))._fxtime = str2Int f1 := by rw [hfeed]; rfl
  have hd : (feed s (rmcSentence [f1, f2, f3, f4, f5, f6, f7, f8, f9, f10, f11, f12] [d1, d2]
      ++ [13, 10]))._fxdate = TimeUtils.ofInt32 (Libc.atol (Libc.cstr f9)) := by rw [hfeed]; rfl
  have hfeed64 := feedIn_rmc_ok binary64Arith s hs f1 f2 f3 f4 f5 f6 f7 f8 f9 f10 f11 f12
    (h f1 (by simp)) (h f2 (by simp)) (h f3 (by simp)) (h f4 (by simp)) (h f5 (by simp))
    (h f6 (by simp)) (h f7 (by simp)) (h f8 (by simp)) (h f9 (by simp)) (h f10 (by simp))
    (h f11 (by simp)) (h f12 (by simp)) d1 d2 v1 v2 e1 e2 hx
  obtain ⟨k1, k2, k3⟩ := fix_of_fields _ f1 f9 ht hd
  refine ⟨?_, ?_, ?_, ?_, ?_, ht, hd, k1, k2, k3, ?_⟩
  · rw [hfeed]
    simp only [isValidPosition, invalidContnet, hb]
  · rw [hfeed]
    simp only [latitude, invalidContnet, if_neg hA2]
  · rw [hfeed]
    simp only [longitude, invalidContnet, if_neg hA2]
  · rw [hfeed]
    simp only [speed, invalidContnet, if_neg hA2]
  · rw [hfeed]
    simp only [isValidTime, invalidContnet]
  · rw [hfeed, hfeed64]
    simp only [sameFix, invalidContnet, if_neg hA2]
    exact ⟨trivial, trivial, trivial, trivial, trivial, trivial, trivial⟩

set_option maxRecDepth 100000 in
/-- C9, witness: the sentence `$GPRMC,050251.00,V,,,,,,,201222,,,N*7F` fed to a fresh
parser: no valid position, latitude, longitude and speed 0, a valid time, the confirmed
time 5025100 (05:02:51.00) and the confirmed date 201222 (20.12.2022). -/
theorem rmc_status_not_A_witness :
    (feed (init ctor)
        (rmcSentence
            [ascii "050251.00", ascii "V", [], [], [], [], [], [], ascii "201222", [], [],
              ascii "N"] [55, 70] ++ [13, 10])).isValidPosition = false
      ∧ (feed (init ctor)
        (rmcSentence
            [ascii "050251.00", ascii "V", [], [], [], [], [], [], ascii "201222", [], [],
              ascii "N"] [55, 70] ++ [13, 10])).speed = 0
      ∧ (feed (init ctor)
        (rmcSentence
            [ascii "050251.00", ascii "V", [], [], [], [], [], [], ascii "201222", [], [],
              ascii "N"] [55, 70] ++ [13, 10])).isValidTime = true
      ∧ (feed (init ctor)
        (rmcSentence
            [ascii "050251.00", ascii "V", [], [], [], [], [], [], ascii "201222", [], [],
              ascii "N"] [55, 70] ++ [13, 10]))._fxtime = 5025100
      ∧ (feed (init ctor)
        (rmcSentence
            [ascii "050251.00", ascii "V", [], [], [], [], [], [], ascii "201222", [], [],
              ascii "N"] [55, 70] ++ [13, 10])).hour = 5
      ∧ (feed (init ctor)
        (rmcSentence
            [ascii "050251.00", ascii "V", [], [], [], [], [], [], ascii "201222", [], [],
              ascii "N"] [55, 70] ++ [13, 10])).minute = 2
      ∧ (feed (init ctor)
        (rmcSentence
            [ascii "050251.00", ascii "V", [], [], [], [], [], [], ascii "201222", [], [],
              ascii "N"] [55, 70] ++ [13, 10])).second = 51
      ∧ (feed (init ctor)
        (rmcSentence
            [ascii "050251.00", ascii "V", [], [], [], [], [], [], ascii "201222", [], [],
              ascii "N"] [55, 70] ++ [13, 10]))._fxdate = 201222
      ∧ (feed (init ctor)
        (rmcSentence
            [ascii "050251.00", ascii "V", [], [], [], [], [], [], ascii "201222", [], [],
              ascii "N"] [55, 70] ++ [13, 10])).year = 2022 := by
  obtain ⟨w1, _, _, w4, w5, _, _, w8, _, w10, _⟩ := rmc_status_not_A (init ctor)
      [ascii "050251.00", ascii "V", [], [], [], [], [], [], ascii "201222", [], [],
        ascii "N"] 55 70 7 15 (by decide) (by decide) (by decide) (by decide)
      (by decide) (by decide) (by decide)
  obtain ⟨_, _, t1, t2⟩ := w8 48 53 48 50 53 49 48 48 (by decide) (by decide)
    (by decide) (by decide) (by decide) (by decide) (by decide) (by decide)
  obtain ⟨x1, _, _, x4⟩ := w10 50 48 49 50 50 50 (by decide) (by decide) (by decide)
    (by decide) (by decide) (by decide) rfl
  exact ⟨w1, w4, w5, (t1 rfl).1.trans (by decide),
    (t2 (Or.inr (Or.inr rfl))).1.trans (by decide),
    (t2 (Or.inr (Or.inr rfl))).2.1.trans (by decide),
    (t2 (Or.inr (Or.inr rfl))).2.2.trans (by decide),
    x1.trans (by decide), x4.trans (by decide)⟩

/-! ## Claim C23 -/

/-- C23 (as amended): for every idle parser state and every two well-formed 12-field `$GPRMC` sentences
that differ only in the 8th field (track angle) and in the checksum digits, each with its
own correct checksum, the states after CR LF have the same confirmed time, date, speed,
latitude, longitude and validity flags; the confirmed date is `(uint32_t)atol` of the 9th
field, which for a field of decimal digits is its decimal value when that is at most
2147483647 and 2147483647 otherwise. The same holds of the parser in `double`
arithmetic. -/
theorem track_no_effect (s : GPS) (f1 f2 f3 f4 f5 f6 f7 f8 g8 f9 f10 f11 f12 : List Nat)
    (d1 d2 v1 v2 c1 c2 w1 w2 : Nat) (hs : idle s)
    (h1 : wellFormedField f1) (h2 : wellFormedField f2) (h3 : wellFormedField f3)
    (h4 : wellFormedField f4) (h5 : wellFormedField f5) (h6 : wellFormedField f6)
    (h7 : wellFormedField f7) (h8 : wellFormedField f8) (k8 : wellFormedField g8)
    (h9 : wellFormedField f9) (h10 : wellFormedField f10) (h11 : wellFormedField f11)
    (h12 : wellFormedField f12)
    (e1 : Libc.digitVal 16 d1 = some v1) (e2 : Libc.digitVal 16 d2 = some v2)
    (hx : 16 * v1 + v2 = xorAll (rmcBody [f1, f2, f3, f4, f5, f6, f7, f8, f9, f10, f11, f12]))
    (u1 : Libc.digitVal 16 c1 = some w1) (u2 : Libc.digitVal 16 c2 = some w2)
    (hy : 16 * w1 + w2 = xorAll (rmcBody [f1, f2, f3, f4, f5, f6, f7, g8, f9, f10, f11, f12])) :
    sameFix
        (feed s
          (rmcSentence [f1, f2, f3, f4, f5, f6, f7, f8, f9, f10, f11, f12] [d1, d2] ++ [13, 10]))
        (feed s
          (rmcSentence [f1, f2, f3, f4, f5, f6, f7, g8, f9, f10, f11, f12] [c1, c2] ++ [13, 10]))
      ∧ (feed s
          (rmcSentence [f1, f2, f3, f4, f5, f6, f7, f8, f9, f10, f11, f12] [d1, d2]
            ++ [13, 10])).isValidTime = true
      ∧ (feed s
          (rmcSentence [f1, f2, f3, f4, f5, f6, f7, f8, f9, f10, f11, f12] [d1, d2]
            ++ [13, 10]))._fxdate = TimeUtils.ofInt32 (Libc.atol (Libc.cstr f9))
      ∧ ((∀ b ∈ f9, Libc.isdigit b = true) → f9.length ≤ 9 →
          (feed s
            (rmcSentence [f1, f2, f3, f4, f5, f6, f7, f8, f9, f10, f11, f12] [d1, d2]
              ++ [13, 10]))._fxdate = Libc.digitsVal 10 (f9.map (fun c => c - 48)))
      ∧ ((∀ b ∈ f9, Libc.isdigit b = true) →
          (feed s
            (rmcSentence [f1, f2, f3, f4, f5, f6, f7, f8, f9, f10, f11, f12] [d1, d2]
              ++ [13, 10]))._fxdate
            = min (Libc.digitsVal 10 (f9.map (fun c => c - 48))) 2147483647)
      ∧ sameFix
        (feedIn binary64Arith s
          (rmcSentence [f1, f2, f3, f4, f5, f6, f7, f8, f9, f10, f11, f12] [d1, d2] ++ [13, 10]))
        (feedIn binary64Arith s
          (rmcSentence [f1, f2, f3, f4, f5, f6, f7, g8, f9, f10, f11, f12] [c1, c2] ++ [13, 10]))
      ∧ (feedIn binary64Arith s
          (rmcSentence [f1, f2, f3, f4, f5, f6, f7, f8, f9, f10, f11, f12] [d1, d2]
            ++ [13, 10]))._fxdate = TimeUtils.ofInt32 (Libc.atol (Libc.cstr f9)) := by
  rw [feed_rmc_ok s hs f1 f2 f3 f4 f5 f6 f7 f8 f9 f10 f11 f12 h1 h2 h3 h4 h5 h6 h7 h8 h9 h10
      h11 h12 d1 d2 v1 v2 e1 e2 hx,
    feed_rmc_ok s hs f1 f2 f3 f4 f5 f6 f7 g8 f9 f10 f11 f12 h1 h2 h3 h4 h5 h6 h7 k8 h9 h10
      h11 h12 c1 c2 w1 w2 u1 u2 hy,
    feedIn_rmc_ok binary64Arith s hs f1 f2 f3 f4 f5 f6 f7 f8 f9 f10 f11 f12 h1 h2 h3 h4 h5 h6
      h7 h8 h9 h10 h11 h12 d1 d2 v1 v2 e1 e2 hx,
    feedIn_rmc_ok binary64Arith s hs f1 f2 f3 f4 f5 f6 f7 g8 f9 f10 f11 f12 h1 h2 h3 h4 h5 h6
      h7 k8 h9 h10 h11 h12 c1 c2 w1 w2 u1 u2 hy]
  refine ⟨⟨rfl, rfl, rfl, rfl, rfl, rfl, rfl⟩, rfl, rfl, fun hd hl => ?_, fun hd => ?_,
    ⟨rfl, rfl, rfl, rfl, rfl, rfl, rfl⟩, rfl⟩
  · exact atol_digits f9 hd hl
  · exact atol_digits_clamped f9 hd

set_option maxRecDepth 100000 in
/-- C23, witness: the sample sentence with track angle `231.8` (checksum `1D`) and with
track angle `99` (checksum `3B`). -/
theorem track_no_effect_witness :
    sameFix
        (feed (init ctor)
          (rmcSentence [ascii "220516", ascii "A", ascii "5133.82", ascii "N",
            ascii "00042.24", ascii "W", ascii "173.8", ascii "231.8", ascii "130694",
            ascii "004.2", ascii "W", ascii "A"] [49, 68] ++ [13, 10]))
        (feed (init ctor)
          (rmcSentence [ascii "220516", ascii "A", ascii "5133.82", ascii "N",
            ascii "00042.24", ascii "W", ascii "173.8", ascii "99", ascii "130694",
            ascii "004.2", ascii "W", ascii "A"] [51, 66] ++ [13, 10])) :=
  (track_no_effect (init ctor) (ascii "220516") (ascii "A") (ascii "5133.82") (ascii "N")
    (ascii "00042.24") (ascii "W") (ascii "173.8") (ascii "231.8") (ascii "99")
    (ascii "130694") (ascii "004.2") (ascii "W") (ascii "A") 49 68 1 13 51 66 3 11
    (by decide) (by decide) (by decide) (by decide) (by decide) (by decide) (by decide)
    (by decide) (by decide) (by decide) (by decide) (by decide) (by decide) (by decide)
    (by decide) (by decide) (by decide) (by decide) (by decide) (by decide)).1

set_option maxRecDepth 100000 in
/-- C23, counterexample to the claim as stated, in its date clause: the sentences
`$GPRMC,220516,A,5133.82,N,00042.24,W,173.8,231.8,4294967296,004.2,W,A*1A` and
`$GPRMC,220516,A,5133.82,N,00042.24,W,173.8,99,4294967296,004.2,W,A*3C` differ only in the
track angle and the checksum digits, and each carries its own correct checksum. Both are
confirmed with the date 2147483647, which is not the decimal value 4294967296 of the 9th
field. -/
theorem track_date_clamped :
    xorAll (rmcBody [ascii "220516", ascii "A", ascii "5133.82", ascii "N", ascii "00042.24",
        ascii "W", ascii "173.8", ascii "231.8", ascii "4294967296", ascii "004.2", ascii "W",
        ascii "A"]) = 16 * 1 + 10
      ∧ xorAll (rmcBody [ascii "220516", ascii "A", ascii "5133.82", ascii "N",
        ascii "00042.24", ascii "W", ascii "173.8", ascii "99", ascii "4294967296",
        ascii "004.2", ascii "W", ascii "A"]) = 16 * 3 + 12
      ∧ Libc.digitsVal 10 ((ascii "4294967296").map (fun c => c - 48)) = 4294967296
      ∧ (feed (init ctor)
          (ascii "$GPRMC,220516,A,5133.82,N,00042.24,W,173.8,231.8,4294967296,004.2,W,A*1A"
            ++ [13, 10])).isValidTime = true
      ∧ (feed (init ctor)
          (ascii "$GPRMC,220516,A,5133.82,N,00042.24,W,173.8,231.8,4294967296,004.2,W,A*1A"
            ++ [13, 10]))._fxdate = 2147483647
      ∧ (feed (init ctor)
          (ascii "$GPRMC,220516,A,5133.82,N,00042.24,W,173.8,99,4294967296,004.2,W,A*3C"
            ++ [13, 10])).isValidTime = true
      ∧ (feed (init ctor)
          (ascii "$GPRMC,220516,A,5133.82,N,00042.24,W,173.8,99,4294967296,004.2,W,A*3C"
            ++ [13, 10]))._fxdate = 2147483647
      ∧ (feed (init ctor)
          (ascii "$GPRMC,220516,A,5133.82,N,00042.24,W,173.8,231.8,4294967296,004.2,W,A*1A"
            ++ [13, 10]))._fxdate
          ≠ Libc.digitsVal 10 ((ascii "4294967296").map (fun c => c - 48)) := by
  decide

end GPS
